import Mathlib

/-!
# Time Circuits Display: calendar arithmetic and time zone parsing

A shallow embedding of the calendar and POSIX-TZ code of
`Software/src/tc_time.cpp`, with theorems about it.

Conventions of the embedding

* C `int` values are `Int`; values of the unsigned types are `Int` reduced
  with `u8`, `u16`, `u32`, `u64` at the places where the source stores into
  a variable of that type.
* C `/` and `%` on `int` are `Int.tdiv` and `Int.tmod` (truncation toward
  zero); `x & 3` is `Int.land x 3`.
* A `char *` is the list of characters from the pointer up to the
  terminating NUL; `NULL` is `none`.
* Reading a table outside its bounds is undefined in the source; the
  embedding returns 0 there (see `tbl`). No theorem below relies on such a read.
-/

namespace TimeCircuits

/-! ## Machine integers -/

/-- Conversion to `uint8_t`. -/
def u8 (x : Int) : Int := x % 256

/-- Conversion to `uint16_t`. -/
def u16 (x : Int) : Int := x % 65536

/-- Conversion to `uint32_t`. -/
def u32 (x : Int) : Int := x % 4294967296

/-- Conversion to `uint64_t`. -/
def u64 (x : Int) : Int := x % 18446744073709551616

/-- Conversion to `int16_t` (two's complement). -/
def i16 (x : Int) : Int := (x + 32768) % 65536 - 32768

/-- Conversion to `int` (32 bit, two's complement). -/
def i32 (x : Int) : Int := (x + 2147483648) % 4294967296 - 2147483648

/-! ## Constant tables (tc_time.cpp, lines 473-502) -/

/-- Table read `t[i]`; out-of-bounds reads (undefined in C) give 0. -/
def tbl (t : List Int) (i : Int) : Int :=
  if i < 0 then 0 else t.getD i.toNat 0

def monthDays : List Int :=
  [31, 28, 31, 30, 31, 30, 31, 31, 30, 31, 30, 31]

def mon_yday0 : List Int :=
  [0, 31, 59, 90, 120, 151, 181, 212, 243, 273, 304, 334, 365]

def mon_yday1 : List Int :=
  [0, 31, 60, 91, 121, 152, 182, 213, 244, 274, 305, 335, 366]

/-- The table `mon_yday[leap][i]`. -/
def mon_yday (leap : Int) (i : Int) : Int :=
  if leap = 0 then tbl mon_yday0 i else tbl mon_yday1 i

def mon_ydayt24t60_0 : List Int :=
  [0, 31*24*60, 59*24*60, 90*24*60, 120*24*60, 151*24*60, 181*24*60,
   212*24*60, 243*24*60, 273*24*60, 304*24*60, 334*24*60, 365*24*60]

def mon_ydayt24t60_1 : List Int :=
  [0, 31*24*60, 60*24*60, 91*24*60, 121*24*60, 152*24*60, 182*24*60,
   213*24*60, 244*24*60, 274*24*60, 305*24*60, 335*24*60, 366*24*60]

/-- The table `mon_ydayt24t60[leap][i]`. -/
def mon_ydayt24t60 (leap : Int) (i : Int) : Int :=
  if leap = 0 then tbl mon_ydayt24t60_0 i else tbl mon_ydayt24t60_1 i

def mins1kYears : List Int :=
  [         0,  262975680,  525949920,  788924160, 1051898400,
   1314874080, 1577848320, 1840822560, 2103796800, 2366772480,
   2629746720, 2892720960, 3155695200, 3418670880, 3681645120,
   3944619360, 4207593600, 4470569280, 4733543520, 4996517760]

def hours1kYears : List Int :=
  [            0,  262975680/60,  525949920/60,  788924160/60, 1051898400/60,
   1314874080/60, 1577848320/60, 1840822560/60, 2103796800/60, 2366772480/60,
   2629746720/60, 2892720960/60, 3155695200/60, 3418670880/60, 3681645120/60,
   3944619360/60, 4207593600/60, 4470569280/60, 4733543520/60, 4996517760/60]

/-! ## Calendar arithmetic (tc_time.cpp, lines 3420-3555) -/

/-- Whether `year` is a leap year: `isLeapYear`. -/
def isLeapYear (year : Int) : Bool :=
  if Int.land year 3 = 0 then
    if year.tmod 100 = 0 then
      if year.tmod 400 = 0 then true else false
    else true
  else false

/-- Number of days in a month: `daysInMonth`. -/
def daysInMonth (month year : Int) : Int :=
  if month = 2 ∧ isLeapYear year = true then 29 else tbl monthDays (month - 1)

/-- The loop `while(c-- > d) total32 += isLeapYear(c) ? 8760+24 : 8760;` of
`dateToMins`, returning the final `total32`. One unit of fuel is used per
iteration; `dateToMins` supplies `c - d` units, the exact iteration count. -/
def dateToMinsLoop : Nat → Int → Int → Int → Int
  | 0, _, _, total32 => total32
  | fuel + 1, c, d, total32 =>
    if c > d then
      dateToMinsLoop fuel (c - 1) d
        (u32 (total32 + (if isLeapYear (c - 1) then 8760 + 24 else 8760)))
    else total32

/-- Minutes since 1/1/0 0:0 of a date: `dateToMins`. -/
def dateToMins (year month day hour minute : Int) : Int :=
  let total32 := tbl hours1kYears (year.tdiv 500)
  let d := if total32 ≠ 0 then (year.tdiv 500) * 500 else 0
  let total32 := dateToMinsLoop (year - d).toNat year d total32
  let total32 := u32 (total32 + u32 (mon_yday (if isLeapYear year then 1 else 0) (month - 1) * 24))
  let total32 := u32 (total32 + (day - 1) * 24)
  let total32 := u32 (total32 + hour)
  let total64 := u64 (total32 * 60)
  let total64 := u64 (total64 + minute)
  total64

/-- The loop `while(d >= 0) { if(total64 > mins1kYears[d]) break; d--; }` of
`minsToDate`, returning the final `d`. -/
def minsToDateBlock (total64 : Int) : Nat → Int → Int
  | 0, d => d
  | fuel + 1, d =>
    if d ≥ 0 then
      if total64 > tbl mins1kYears d then d else minsToDateBlock total64 fuel (d - 1)
    else d

/-- The loop `while(1)` over the years in `minsToDate`; the state is
`(c, year, total32)`. Returns `none` when the fuel runs out before the loop
is left. -/
def minsToDateYears : Nat → Int → Int → Int → Option (Int × Int)
  | 0, _, _, _ => none
  | fuel + 1, c, year, total32 =>
    let temp : Int := if isLeapYear c then (8760 + 24) * 60 else 8760 * 60
    if total32 < temp then some (year, total32)
    else minsToDateYears fuel (c + 1) (year + 1) (u32 (total32 - temp))

/-- The loop `while(c < 12)` over the months in `minsToDate`, returning the
final `c`. -/
def minsToDateMonth (temp total32 : Int) : Nat → Int → Int
  | 0, c => c
  | fuel + 1, c =>
    if c < 12 then
      if total32 < mon_ydayt24t60 temp c then c
      else minsToDateMonth temp total32 fuel (c + 1)
    else c

/-- Date `(year, month, day, hour, minute)` of a minute count: `minsToDate`.
The year loop is given `total32 / (8760*60) + 1` units of fuel. -/
def minsToDate (total64 : Int) : Option (Int × Int × Int × Int × Int) :=
  let d := minsToDateBlock total64 20 19
  let total64' := if d > 0 then u64 (total64 - tbl mins1kYears d) else total64
  let c := if d > 0 then d * 500 else 0
  let total32 := u32 total64'
  match minsToDateYears ((total32 / 525600).toNat + 1) c c total32 with
  | none => none
  | some (year, total32) =>
    let temp : Int := if isLeapYear year then 1 else 0
    let c := minsToDateMonth temp total32 11 1
    let month := c
    let total32 := u32 (total32 - mon_ydayt24t60 temp (c - 1))
    let temp := total32 / (24 * 60)
    let day := temp + 1
    let total32 := u32 (total32 - temp * (24 * 60))
    let temp := total32 / 60
    let hour := temp
    let minute := u32 (total32 - temp * 60)
    some (year, month, day, hour, minute)

/-- Day of the week, 0 = Sunday: `dayOfWeek` (Sakamoto's method). -/
def dayOfWeek (d m y : Int) : Int :=
  let t : List Int := [0, 3, 2, 5, 0, 3, 5, 1, 4, 6, 2, 4]
  if y > 0 then
    let y := if m < 3 then y - 1 else y
    u8 ((y + y.tdiv 4 - y.tdiv 100 + y.tdiv 400 + tbl t (m - 1) + d).tmod 7)
  else
    u8 (u32 (mon_yday 1 (m - 1) + d + 5) % 7)

/-- RTC-fit year and offset for a real year: `correctYr4RTC`, as
`(year, offs)` after the call. -/
def correctYr4RTC (year : Int) : Int × Int :=
  if year ≥ 2000 ∧ year ≤ 2098 then (year, 0)
  else if isLeapYear year = true then (2000, i16 (2000 - year))
  else (2001, i16 (2001 - year))

/-- The real year that `time_loop` computes from the RTC year and the stored
year offset: `uint16_t thisYear = dt.year() - presentTime.getYearOffset();`. -/
def thisYear (rtcYear offs : Int) : Int := u16 (rtcYear - offs)



/-! ## Time zone strings: integers and DST rules (tc_time.cpp, lines 3567-3738) -/

/-- The NUL character that ends a C string. -/
def NUL : Char := Char.ofNat 0

/-- The C string held in a character buffer: the characters before the
first NUL. -/
def cstr (buf : List Char) : List Char := buf.takeWhile (fun c => c ≠ NUL)

/-- The character `*t` under a pointer; NUL at the end of the string. -/
def peek (t : List Char) : Char := t.headD NUL

/-- The test `*t >= '0' && *t <= '9'`. -/
def isDigit (c : Char) : Bool := decide ('0' ≤ c ∧ c ≤ '9')

/-- The library function `strchr(t, ch)` for a character `ch` other than NUL:
the pointer to the first `ch` in the string, or `NULL`. -/
def strchr : List Char → Char → Option (List Char)
  | [], _ => none
  | c :: cs, ch => if c = ch then some (c :: cs) else strchr cs ch

/-- The digit loop of `parseInt`:
`while(*t >= '0' && *t <= '9') { it *= 10; it += (*t++ - '0'); }`.
Overflow of the `int` accumulator is undefined in C; the embedding wraps it
to 32 bits as the target does. -/
def parseIntDigits : List Char → Int → List Char × Int
  | [], it => ([], it)
  | c :: cs, it =>
    if isDigit c then parseIntDigits cs (i32 (i32 (it * 10) + ((c.toNat : Int) - 48)))
    else (c :: cs, it)

/-- Parse an integer: `parseInt(t, it)`. The first component is the returned
pointer (`none` for `NULL`), the second the value left in `it`. -/
def parseInt (t : List Char) : Option (List Char) × Int :=
  let isNeg : Bool := decide (peek t = '-')
  let t := if peek t = '-' then t.tail else if peek t = '+' then t.tail else t
  if isDigit (peek t) = false then (none, 0)
  else
    let r := parseIntDigits t 0
    (some r.1, if isNeg then i32 (r.2 * -1) else r.2)

/-- The out-parameters of `parseDST`. -/
structure DSTDate where
  DSTyear : Int
  DSTmonth : Int
  DSTday : Int
  DSThour : Int
  DSTmin : Int
deriving DecidableEq

/-- The loop `while(--tw) { DSTday += 7; }`, returning `DSTday`. It runs
`tw - 1` times for `tw >= 1`; the fuel supplied is `tw`. -/
def parseDSTWeeks : Nat → Int → Int → Int
  | 0, _, DSTday => DSTday
  | fuel + 1, tw, DSTday =>
    if tw - 1 ≠ 0 then parseDSTWeeks fuel (tw - 1) (DSTday + 7) else DSTday

/-- The loop `while(it > monthDays[DSTmonth]) { it -= monthDays[DSTmonth++]; }`
of the `J` rule, returning `(DSTmonth, it)`. -/
def parseDSTJulian : Nat → Int → Int → Int × Int
  | 0, DSTmonth, it => (DSTmonth, it)
  | fuel + 1, DSTmonth, it =>
    if it > tbl monthDays DSTmonth then
      parseDSTJulian fuel (DSTmonth + 1) (it - tbl monthDays DSTmonth)
    else (DSTmonth, it)

/-- The loop `while(it > daysInMonth(DSTmonth, currYear)) { it -= daysInMonth(DSTmonth,
currYear); DSTmonth++; }` of the zero-based day rule, returning `(DSTmonth, it)`. -/
def parseDSTYearDay (currYear : Int) : Nat → Int → Int → Int × Int
  | 0, DSTmonth, it => (DSTmonth, it)
  | fuel + 1, DSTmonth, it =>
    if it > daysInMonth DSTmonth currYear then
      parseDSTYearDay currYear fuel (DSTmonth + 1) (it - daysInMonth DSTmonth currYear)
    else (DSTmonth, it)

/-- The loop `while(DSThour > 23) { DSTday++; DSThour -= 24; }`, returning
`(DSTday, DSThour)`. -/
def parseDSTHourDown : Nat → Int → Int → Int × Int
  | 0, DSTday, DSThour => (DSTday, DSThour)
  | fuel + 1, DSTday, DSThour =>
    if DSThour > 23 then parseDSTHourDown fuel (DSTday + 1) (DSThour - 24)
    else (DSTday, DSThour)

/-- The loop `while(DSTday > daysInMonth(DSTmonth, DSTyear))` that rolls the
date forward, returning `(DSTyear, DSTmonth, DSTday)`. -/
def parseDSTDayDown : Nat → Int → Int → Int → Int × Int × Int
  | 0, DSTyear, DSTmonth, DSTday => (DSTyear, DSTmonth, DSTday)
  | fuel + 1, DSTyear, DSTmonth, DSTday =>
    if DSTday > daysInMonth DSTmonth DSTyear then
      let DSTday := DSTday - daysInMonth DSTmonth DSTyear
      let DSTmonth := DSTmonth + 1
      if DSTmonth > 12 then parseDSTDayDown fuel (DSTyear + 1) 1 DSTday
      else parseDSTDayDown fuel DSTyear DSTmonth DSTday
    else (DSTyear, DSTmonth, DSTday)

/-- The loop `while(DSThour < 0) { DSTday--; DSThour += 24; }`, returning
`(DSTday, DSThour)`. -/
def parseDSTHourUp : Nat → Int → Int → Int × Int
  | 0, DSTday, DSThour => (DSTday, DSThour)
  | fuel + 1, DSTday, DSThour =>
    if DSThour < 0 then parseDSTHourUp fuel (DSTday - 1) (DSThour + 24)
    else (DSTday, DSThour)

/-- The loop `while(DSTday < 1)` that rolls the date backward, returning
`(DSTyear, DSTmonth, DSTday)`. -/
def parseDSTDayUp : Nat → Int → Int → Int → Int × Int × Int
  | 0, DSTyear, DSTmonth, DSTday => (DSTyear, DSTmonth, DSTday)
  | fuel + 1, DSTyear, DSTmonth, DSTday =>
    if DSTday < 1 then
      let DSTmonth := DSTmonth - 1
      if DSTmonth < 1 then
        parseDSTDayUp fuel (DSTyear - 1) 12 (DSTday + daysInMonth 12 (DSTyear - 1))
      else parseDSTDayUp fuel DSTyear DSTmonth (DSTday + daysInMonth DSTmonth DSTyear)
    else (DSTyear, DSTmonth, DSTday)

/-- The date part of a rule in `parseDST` (lines 3601-3670): the pointer
behind it with `(DSTmonth, DSTday)`, or `none` where the source returns
`NULL`. -/
def parseDSTRule (t : List Char) (currYear : Int) : Option (List Char × Int × Int) :=
  if peek t = 'M' then
    let t := t.tail
    match parseInt t with
    | (none, _) => none
    | (some u, it) =>
      if it ≥ 1 ∧ it ≤ 12 then
        let DSTmonth := it
        let t := u
        if peek t ≠ '.' then none
        else
          let t := t.tail
          match parseInt t with
          | (none, _) => none
          | (some u, it) =>
            if it < 1 ∨ it > 5 then none
            else
              let tw := it
              let t := u
              if peek t ≠ '.' then none
              else
                let t := t.tail
                match parseInt t with
                | (none, _) => none
                | (some u, it) =>
                  if it < 0 ∨ it > 6 then none
                  else
                    let t := u
                    let dow := dayOfWeek 1 DSTmonth currYear
                    let dow := if dow = 0 then 7 else dow
                    let DSTday := (it + 1) - dow
                    let DSTday := if DSTday < 1 then DSTday + 7 else DSTday
                    let DSTday := parseDSTWeeks tw.toNat tw DSTday
                    let DSTday :=
                      if DSTday > daysInMonth DSTmonth currYear then DSTday - 7 else DSTday
                    some (t, DSTmonth, DSTday)
      else none
  else if peek t = 'J' then
    let t := t.tail
    match parseInt t with
    | (none, _) => none
    | (some u, it) =>
      if it < 1 ∨ it > 365 then none
      else
        let t := u
        let r := parseDSTJulian it.toNat 0 it
        some (t, r.1 + 1, r.2)
  else if isDigit (peek t) then
    match parseInt t with
    | (none, _) => none
    | (some u, it) =>
      if it < 0 ∨ it > 365 then none
      else if it > 364 ∧ isLeapYear currYear = false then none
      else
        let t := u
        let it := it + 1
        let r := parseDSTYearDay currYear it.toNat 1 it
        some (t, r.1, r.2)
  else none

/-- The time part `/hh[:mm[:ss]]` of a rule in `parseDST` (lines 3672-3699):
the pointer behind it with `(DSThour, DSTmin)`, or `none` where the source
returns `NULL`. -/
def parseDSTTime (t : List Char) : Option (List Char × Int × Int) :=
  if peek t = '/' then
    let t := t.tail
    match parseInt t with
    | (none, _) => none
    | (some u, it) =>
      let t := u
      if it ≥ -167 ∧ it ≤ 167 then
        let DSThour := it
        if peek t = ':' then
          let t := t.tail
          match parseInt t with
          | (none, _) => none
          | (some u, it) =>
            let t := u
            if it ≥ 0 ∧ it ≤ 59 then
              let DSTmin := it
              if peek t = ':' then
                let t := t.tail
                match parseInt t with
                | (none, _) => none
                | (some u, _) => some (u, DSThour, DSTmin)
              else some (t, DSThour, DSTmin)
            else none
        else some (t, DSThour, 0)
      else none
  else some (t, 2, 0)

/-- Parse one DST rule of a TZ string: `parseDST`. The result is the returned
pointer with the out-parameters, or `none` where the source returns `NULL`.
The loops that normalise the hour get `|DSThour|` units of fuel and those
that normalise the day `|DSTday| + 1`; each iteration lowers the magnitude. -/
def parseDST (t : List Char) (currYear : Int) : Option (List Char × DSTDate) :=
  match parseDSTRule t currYear with
  | none => none
  | some (t, DSTmonth, DSTday) =>
    match parseDSTTime t with
    | none => none
    | some (t, DSThour, DSTmin) =>
      let DSTyear := currYear
      if DSThour > 23 then
        let r := parseDSTHourDown DSThour.toNat DSTday DSThour
        let q := parseDSTDayDown (r.1.toNat + 1) DSTyear DSTmonth r.1
        some (t, ⟨q.1, q.2.1, q.2.2, r.2, DSTmin⟩)
      else if DSThour < 0 then
        let r := parseDSTHourUp (-DSThour).toNat DSTday DSThour
        let q := parseDSTDayUp ((-r.1).toNat + 1) DSTyear DSTmonth r.1
        some (t, ⟨q.1, q.2.1, q.2.2, r.2, DSTmin⟩)
      else some (t, ⟨DSTyear, DSTmonth, DSTday, DSThour, DSTmin⟩)

/-- Minutes since 1/1 00:00 of the given year: `mins2Date`. The sum is
formed in `unsigned int` (the type of `mon_yday`) and returned as `int`. -/
def mins2Date (year month day hour mins : Int) : Int :=
  i32 (u32 ((((mon_yday (if isLeapYear year then 1 else 0) (month - 1) + (day - 1)) * 24)
    + hour) * 60 + mins))

/-! ## Time zone state and `parseTZ` (tc_time.cpp, lines 257-267 and 3747-3988) -/

/-- The TZ/DST status and data of one time zone slot: the entries at one
index of the arrays `couldDST`, `tzForYear`, `tzIsValid`, `tzHasDST`,
`tzDSTpart`, `tzDiffGMT`, `tzDiffGMTDST`, `tzDiff`, `DSTonMins`, `DSToffMins`. -/
structure TZSlot where
  couldDST : Bool
  tzForYear : Int
  tzIsValid : Int
  tzHasDST : Int
  tzDSTpart : Option (List Char)
  tzDiffGMT : Int
  tzDiffGMTDST : Int
  tzDiff : Int
  DSTonMins : Int
  DSToffMins : Int
deriving DecidableEq

/-- The initial (never parsed) state of a slot, from the array initialisers. -/
def TZSlot.initial : TZSlot :=
  { couldDST := false, tzForYear := 0, tzIsValid := -1, tzHasDST := -1,
    tzDSTpart := none, tzDiffGMT := 0, tzDiffGMTDST := 0, tzDiff := 0,
    DSTonMins := -1, DSToffMins := 600000 }

/-- The time zone strings of the settings and the three slots. -/
structure TZState where
  timeZone : List Char
  timeZoneDest : List Char
  timeZoneDep : List Char
  slot0 : TZSlot
  slot1 : TZSlot
  slot2 : TZSlot
deriving DecidableEq

/-- The state after start-up with the given settings strings. -/
def TZState.initial (timeZone timeZoneDest timeZoneDep : List Char) : TZState :=
  { timeZone := timeZone, timeZoneDest := timeZoneDest, timeZoneDep := timeZoneDep,
    slot0 := TZSlot.initial, slot1 := TZSlot.initial, slot2 := TZSlot.initial }

/-- The slot at an index 0..2. -/
def TZState.slot (st : TZState) (index : Int) : TZSlot :=
  if index = 0 then st.slot0 else if index = 1 then st.slot1 else st.slot2

/-- Store a slot at an index 0..2. -/
def TZState.setSlot (st : TZState) (index : Int) (s : TZSlot) : TZState :=
  if index = 0 then { st with slot0 := s }
  else if index = 1 then { st with slot1 := s }
  else { st with slot2 := s }

/-- How a block of `parseTZ` ends. -/
inductive Flow (α : Type) where
  /-- The source dereferences a `NULL` pointer here. -/
  | nullDeref : Flow α
  /-- The source executes `return false`. -/
  | retFalse : Flow α
  /-- Control reaches the end of the block with these values. -/
  | next : α → Flow α
deriving DecidableEq

/-- The loops `while((t = strchr(t, ch))) { t++; n++; }` that count a
character, returning `n`. One unit of fuel is used per occurrence found;
`parseTZ` supplies the length of the string. -/
def parseTZCount (ch : Char) : Nat → List Char → Int → Int
  | 0, _, n => n
  | fuel + 1, t, n =>
    match strchr t ch with
    | none => n
    | some u => parseTZCount ch fuel u.tail (n + 1)

/-- The loop that skips the standard zone name (lines 3805-3808); `none`
where it executes `return false`. -/
def parseTZSkipName : List Char → Option (List Char)
  | [] => some []
  | c :: cs =>
    if c ≠ NUL ∧ c ≠ '-' ∧ isDigit c = false then
      if c = ',' then none else parseTZSkipName cs
    else some (c :: cs)

/-- The loop that skips the DST zone name (lines 3843-3844). -/
def parseTZSkipDSTName : List Char → List Char
  | [] => []
  | c :: cs =>
    if c ≠ NUL ∧ c ≠ ',' ∧ c ≠ '-' ∧ isDigit c = false then parseTZSkipDSTName cs
    else c :: cs

/-- Step 1a of `parseTZ` (lines 3799-3834): skip the zone name and parse the
difference to GMT; yields the pointer `t` and `diffNorm`. -/
def parseTZNorm (tz : List Char) : Flow (List Char × Int) :=
  let skipped : Option (List Char) :=
    if peek tz = '<' then
      match strchr tz '>' with
      | none => none
      | some t => some t.tail
    else parseTZSkipName tz
  match skipped with
  | none => Flow.retFalse
  | some t =>
    if peek t ≠ '-' ∧ peek t ≠ '+' ∧ isDigit (peek t) = false then Flow.retFalse
    else
      match parseInt t with
      | (t, it) =>
        if it ≥ -24 ∧ it ≤ 24 then
          let diffNorm := it * 60
          match t with
          | none => Flow.nullDeref
          | some t =>
            if peek t = ':' then
              let t := t.tail
              match parseInt t with
              | (none, _) => Flow.retFalse
              | (some u, it) =>
                let t := u
                if it ≥ 0 ∧ it ≤ 59 then
                  let diffNorm := if diffNorm < 0 then diffNorm - it else diffNorm + it
                  if peek t = ':' then
                    let t := t.tail
                    match parseInt t with
                    | (some u, _) => Flow.next (u, diffNorm)
                    | (none, _) => Flow.next (t, diffNorm)
                  else Flow.next (t, diffNorm)
                else Flow.retFalse
            else Flow.next (t, diffNorm)
        else Flow.retFalse

/-- Step 1b of `parseTZ` (lines 3838-3873): skip the DST zone name and parse
its difference to GMT; yields the pointer `t` and the value stored in
`tzDiff[index]`. -/
def parseTZDiff (t : List Char) (diffNorm : Int) : Flow (List Char × Int) :=
  let skipped : Option (List Char) :=
    if peek t = '<' then
      match strchr t '>' with
      | none => none
      | some t => some t.tail
    else some (parseTZSkipDSTName t)
  match skipped with
  | none => Flow.retFalse
  | some t =>
    if peek t = NUL then Flow.next (t, 0)
    else if peek t ≠ '-' ∧ peek t ≠ '+' ∧ isDigit (peek t) = false then Flow.next (t, 60)
    else
      match parseInt t with
      | (t, it) =>
        if it ≥ -24 ∧ it ≤ 24 then
          let diffDST := it * 60
          match t with
          | none => Flow.nullDeref
          | some t =>
            if peek t = ':' then
              let t := t.tail
              match parseInt t with
              | (none, _) => Flow.retFalse
              | (some u, it) =>
                let t := u
                if it ≥ 0 ∧ it ≤ 59 then
                  let diffDST := if diffNorm < 0 then diffDST - it else diffDST + it
                  if peek t = ':' then
                    let t := t.tail
                    match parseInt t with
                    | (some u, _) => Flow.next (u, |diffDST - diffNorm|)
                    | (none, _) => Flow.next (t, |diffDST - diffNorm|)
                  else Flow.next (t, |diffDST - diffNorm|)
                else Flow.retFalse
            else Flow.next (t, |diffDST - diffNorm|)
        else Flow.retFalse

/-- One DST rule as `parseTZ` resolves it (lines 3906-3919 and 3928-3939):
`parseDST` for `currYear`, and again for the year before or after when the
result left `currYear`. -/
def parseTZRule (v : List Char) (currYear : Int) : Option (List Char × DSTDate) :=
  match parseDST v currYear with
  | none => none
  | some (u, r) =>
    if r.DSTyear > currYear then parseDST v (currYear - 1)
    else if r.DSTyear < currYear then parseDST v (currYear + 1)
    else some (u, r)

/-- Steps 2 to 4 of `parseTZ` (lines 3888-3987), from the pointer `t` to the
DST part of the string. -/
def parseTZRules (t : List Char) (currYear : Int) (doparseDST : Bool) (s : TZSlot) :
    Bool × TZSlot :=
  if s.tzHasDST = 0 ∨ doparseDST = false then (true, s)
  else if peek t = NUL ∨ peek t ≠ ',' then (true, { s with tzHasDST := 0 })
  else
    let t := t.tail
    let s := { s with tzForYear := currYear, tzHasDST := 0 }
    match parseTZRule t currYear with
    | none => (false, s)
    | some (u, dOn) =>
      let t := u
      if peek t = NUL ∨ peek t ≠ ',' then (false, s)
      else
        let t := t.tail
        match parseTZRule t currYear with
        | none => (false, s)
        | some (_, dOff) =>
          let s := { s with tzHasDST := 1 }
          if dOff.DSTmonth = dOn.DSTmonth ∧ dOff.DSTday = dOn.DSTday then
            (true, { s with couldDST := false })
          else
            let s := { s with couldDST := true }
            let onMins : Int :=
              if dOn.DSTyear < currYear then -1
              else if dOn.DSTyear > currYear then 600000
              else mins2Date currYear dOn.DSTmonth dOn.DSTday dOn.DSThour dOn.DSTmin
            let s := { s with DSTonMins := onMins }
            let offMins : Int :=
              if dOff.DSTyear < currYear then -1
              else if dOff.DSTyear > currYear then 600000
              else mins2Date currYear dOff.DSTmonth dOff.DSTday dOff.DSThour dOff.DSTmin
            let s := { s with DSToffMins := offMins }
            (true, s)

/-- The body of `parseTZ` for one slot, with the slot's settings string `tz`:
the return value and the slot afterwards, or `none` when the source
dereferences a `NULL` pointer. -/
def parseTZSlot (tz : List Char) (currYear : Int) (doparseDST : Bool) (s : TZSlot) :
    Option (Bool × TZSlot) :=
  let s := { s with couldDST := false, tzForYear := 0 }
  let s := if s.tzDSTpart = none then { s with tzDiffGMT := 0, tzDiffGMTDST := 0 } else s
  if peek tz = NUL then some (true, { s with tzHasDST := 0 })
  else if s.tzIsValid < 1 ∧ s.tzIsValid = 0 then some (false, s)
  else
    let unverified : Bool := decide (s.tzIsValid < 1)
    let s := if unverified then { s with tzIsValid := 0 } else s
    if unverified ∧
        parseTZCount '>' tz.length tz 0 ≠ parseTZCount '<' tz.length tz 0 then
      some (false, s)
    else
      match s.tzDSTpart with
      | none =>
        match parseTZNorm tz with
        | Flow.nullDeref => none
        | Flow.retFalse => some (false, s)
        | Flow.next (t, diffNorm) =>
          match parseTZDiff t diffNorm with
          | Flow.nullDeref => none
          | Flow.retFalse => some (false, s)
          | Flow.next (t, diff) =>
            let s := { s with tzDiff := diff }
            let s := { s with tzDiffGMT := diffNorm }
            let s := { s with tzDiffGMTDST := s.tzDiffGMT - s.tzDiff }
            let s := { s with tzDSTpart := some t }
            let s := { s with tzIsValid := 1 }
            some (parseTZRules t currYear doparseDST s)
      | some t => some (parseTZRules t currYear doparseDST s)

/-- The settings buffer that `parseTZ` selects for an index (`switch(index)`):
`settings.timeZone`, `settings.timeZoneDest`, `settings.timeZoneDep`; `none`
for the `default` case. -/
def TZState.tz (st : TZState) (index : Int) : Option (List Char) :=
  if index = 0 then some st.timeZone
  else if index = 1 then some st.timeZoneDest
  else if index = 2 then some st.timeZoneDep
  else none

/-- Parse the TZ string of slot `index` and set up its DST data for
`currYear`: `parseTZ(index, currYear, doparseDST)`. The result is the return
value and the state afterwards, or `none` when the source dereferences a
`NULL` pointer. -/
def parseTZ (index currYear : Int) (doparseDST : Bool) (st : TZState) :
    Option (Bool × TZState) :=
  match st.tz index with
  | none => some (false, st)
  | some buf =>
    match parseTZSlot (cstr buf) currYear doparseDST (st.slot index) with
    | none => none
    | some (b, s) => some (b, st.setSlot index s)

/-! ## DST evaluation (tc_time.cpp, lines 4001-4073) -/

/-- Whether a local date/time is within the DST period: `timeIsDST`. The
result is `(return value, currTimeMins)`. -/
def timeIsDST (index year month day hour mins : Int) (st : TZState) : Int × Int :=
  let currTimeMins := mins2Date year month day hour mins
  let s := st.slot index
  if s.DSTonMins < s.DSToffMins then
    if currTimeMins ≥ s.DSTonMins ∧ currTimeMins < s.DSToffMins then (1, currTimeMins)
    else (0, currTimeMins)
  else
    if currTimeMins ≥ s.DSToffMins ∧ currTimeMins < s.DSTonMins then (0, currTimeMins)
    else (1, currTimeMins)

/-- Determine DST from non-DST local time and translate the time to DST:
`localToDST`. The arguments after `index` are the in/out parameters; the
result is their values `(year, month, day, hour, minute, isDST)` after the
call, or `none` when `minsToDate` does not return. -/
def localToDST (index year month day hour minute isDST : Int) (st : TZState) :
    Option (Int × Int × Int × Int × Int × Int) :=
  let s := st.slot index
  if s.couldDST = true then
    let currTimeMins := mins2Date year month day hour minute
    let isDST : Int :=
      if s.DSTonMins < s.DSToffMins then
        if currTimeMins ≥ s.DSTonMins ∧ currTimeMins < s.DSToffMins - s.tzDiff then 1
        else 0
      else
        if currTimeMins ≥ s.DSToffMins - s.tzDiff ∧ currTimeMins < s.DSTonMins then 0
        else 1
    if isDST ≠ 0 then
      let myTime := dateToMins year month day hour minute
      let myTime := u64 (myTime + s.tzDiff)
      match minsToDate myTime with
      | none => none
      | some (year, month, day, hour, minute) => some (year, month, day, hour, minute, isDST)
    else some (year, month, day, hour, minute, isDST)
  else some (year, month, day, hour, minute, isDST)

/-! ## Drivers and renderings used to state the claims -/

/-- A sequence of calls `parseTZ(index, currYear, doparseDST)` for one slot,
one per list entry `(currYear, doparseDST)`: the return values in order and
the final state, or `none` when a call dereferences `NULL`. -/
def parseTZCalls (index : Int) : List (Int × Bool) → TZState → Option (List Bool × TZState)
  | [], st => some ([], st)
  | (currYear, doparseDST) :: calls, st =>
    match parseTZ index currYear doparseDST st with
    | none => none
    | some (b, st1) =>
      match parseTZCalls index calls st1 with
      | none => none
      | some (bs, st2) => some (b :: bs, st2)

/-- The character of a decimal digit. -/
def digitChar (d : Nat) : Char := Char.ofNat (48 + d)

/-- Digits of `n` put in front of `acc`, most significant first; `fuel` bounds
the number of digits. -/
def decimalAux : Nat → Nat → List Char → List Char
  | 0, _, acc => acc
  | fuel + 1, n, acc =>
    if n / 10 = 0 then digitChar (n % 10) :: acc
    else decimalAux fuel (n / 10) (digitChar (n % 10) :: acc)

/-- The decimal numeral of a natural number, most significant digit first,
without leading zeros (`0` is written "0"). -/
def decimal (n : Nat) : List Char := decimalAux (n + 1) n []

/-- The decimal numeral of an integer, with a leading `-` when negative. -/
def decimalInt (x : Int) : List Char :=
  if x < 0 then '-' :: decimal (-x).toNat else decimal x.toNat
/-! ## Specification-side definitions -/

/-- Days in the years before `y`, counted from year 0: the sum over all years
`k < y` of 366 if `isLeapYear k` else 365. -/
def daysBeforeYear : Nat → Int
  | 0 => 0
  | k + 1 => daysBeforeYear k + (if isLeapYear k then 366 else 365)

/-- A valid civil date-time: year 0..9999, month 1..12, day
1..daysInMonth, hour 0..23, minute 0..59. -/
def ValidDateTime (y m d h mi : Int) : Prop :=
  0 ≤ y ∧ y ≤ 9999 ∧ 1 ≤ m ∧ m ≤ 12 ∧ 1 ≤ d ∧ d ≤ daysInMonth m y ∧
  0 ≤ h ∧ h ≤ 23 ∧ 0 ≤ mi ∧ mi ≤ 59

instance (y m d h mi : Int) : Decidable (ValidDateTime y m d h mi) := by
  unfold ValidDateTime; infer_instance

/-- Lexicographic order on `(year, month, day, hour, minute)`. -/
def DateTimeLt (y1 m1 d1 h1 i1 y2 m2 d2 h2 i2 : Int) : Prop :=
  y1 < y2 ∨ (y1 = y2 ∧ (m1 < m2 ∨ (m1 = m2 ∧ (d1 < d2 ∨ (d1 = d2 ∧
    (h1 < h2 ∨ (h1 = h2 ∧ i1 < i2)))))))

instance (y1 m1 d1 h1 i1 y2 m2 d2 h2 i2 : Int) :
    Decidable (DateTimeLt y1 m1 d1 h1 i1 y2 m2 d2 h2 i2) := by
  unfold DateTimeLt; infer_instance

/-- The slot left by `parseTZ` for "CST6CDT,M3.2.0,M11.1.0" and 2023. -/
def slotCST6CDT2023 : TZSlot :=
  { couldDST := true, tzForYear := 2023, tzIsValid := 1, tzHasDST := 1,
    tzDSTpart := some (",M3.2.0,M11.1.0").toList, tzDiffGMT := 360,
    tzDiffGMTDST := 300, tzDiff := 60, DSTonMins := 100920, DSToffMins := 443640 }


/-- The value the digit loop of `parseInt` leaves in `it` after reading the
digit characters `ds`, starting from `a`. -/
def digitsVal (a : Int) (ds : List Char) : Int :=
  ds.foldl (fun a c => i32 (i32 (a * 10) + ((c.toNat : Int) - 48))) a

/-- The DST part behind the comma is malformed for `currYear`: the first
rule does not resolve, or it is not followed by a comma, or the second rule
does not resolve. -/
def RulesMalformed (currYear : Int) (r1 : List Char) : Prop :=
  parseTZRule r1 currYear = none ∨
  ∃ u dOn, parseTZRule r1 currYear = some (u, dOn) ∧
    (peek u ≠ ',' ∨ ∃ r2, u = ',' :: r2 ∧ parseTZRule r2 currYear = none)

/-- What the later calls of `parseTZ` keep of a slot whose DST part was
found bad: the TZ part is valid and cached, DST is off, and the three
differences have the given values. -/
def DSTIgnored (s : TZSlot) (diffGMT diffGMTDST diff : Int) : Prop :=
  s.tzIsValid = 1 ∧ s.tzDSTpart ≠ none ∧ s.tzHasDST = 0 ∧ s.couldDST = false ∧
  s.tzDiffGMT = diffGMT ∧ s.tzDiffGMTDST = diffGMTDST ∧ s.tzDiff = diff

/-- The pointer at which `parseTZ` expects the standard difference to GMT:
behind the standard zone name (lines 3799-3809); `none` where the source
returns false while skipping the name. -/
def stdOffsetStart (tz : List Char) : Option (List Char) :=
  if peek tz = '<' then
    match strchr tz '>' with
    | none => none
    | some t => some t.tail
  else parseTZSkipName tz

/-- The pointer at which `parseTZ` expects the DST difference to GMT: behind
the DST zone name (lines 3838-3845). -/
def dstOffsetStart (t : List Char) : Option (List Char) :=
  if peek t = '<' then
    match strchr t '>' with
    | none => none
    | some t => some t.tail
  else some (parseTZSkipDSTName t)

/-- The digits at the start of `t` read in base ten as a natural number of
any size, continuing from `a`. -/
def writtenDigits : List Char → Nat → Nat
  | [], a => a
  | c :: cs, a => if isDigit c then writtenDigits cs (a * 10 + (c.toNat - 48)) else a

/-- The number written at `t`: an optional sign followed by at least one
digit, read in base ten as an integer of any size; `none` when no digit
follows the optional sign. -/
def writtenInt (t : List Char) : Option Int :=
  if isDigit (peek (if peek t = '-' then t.tail else if peek t = '+' then t.tail else t))
      = false then none
  else if peek t = '-' then some (-(writtenDigits t.tail 0 : Int))
  else if peek t = '+' then some (writtenDigits t.tail 0 : Int)
  else some (writtenDigits t 0 : Int)

/-- A written number whose magnitude fits the 32-bit `int` of `parseInt`. -/
def FitsInt (x : Int) : Prop := -2147483647 ≤ x ∧ x ≤ 2147483647

instance (x : Int) : Decidable (FitsInt x) := by
  unfold FitsInt; infer_instance

/-- The standard or the DST offset of a TZ string has hours outside -24..24
or minutes outside 0..59; the number out of range is the one written in the
string (`writtenInt`), of a magnitude that fits an `int`. -/
inductive OffsetOutOfRange : List Char → Prop where
  | stdHours {tz t0 : List Char} {x : Int} : stdOffsetStart tz = some t0 →
      writtenInt t0 = some x → FitsInt x → (x < -24 ∨ 24 < x) → OffsetOutOfRange tz
  | stdMinutes {tz t0 u : List Char} {h x : Int} : stdOffsetStart tz = some t0 →
      parseInt t0 = (some u, h) → peek u = ':' →
      writtenInt u.tail = some x → FitsInt x → (x < 0 ∨ 59 < x) → OffsetOutOfRange tz
  | dstHours {tz t1 t2 : List Char} {diffNorm x : Int} :
      parseTZNorm tz = Flow.next (t1, diffNorm) → dstOffsetStart t1 = some t2 →
      writtenInt t2 = some x → FitsInt x → (x < -24 ∨ 24 < x) → OffsetOutOfRange tz
  | dstMinutes {tz t1 t2 u : List Char} {diffNorm h x : Int} :
      parseTZNorm tz = Flow.next (t1, diffNorm) → dstOffsetStart t1 = some t2 →
      parseInt t2 = (some u, h) → peek u = ':' →
      writtenInt u.tail = some x → FitsInt x → (x < 0 ∨ 59 < x) → OffsetOutOfRange tz

/-- A DST rule has a number out of range for `currYear`: month outside
1..12, week outside 1..5, weekday outside 0..6, `Jn` with n outside 1..365, a
zero-based day above 365 or equal to 365 in a non-leap year, an hour outside
-167..167 or a minute outside 0..59; the number out of range is the one
written in the string (`writtenInt`), of a magnitude that fits an `int`. -/
inductive RuleOutOfRange (currYear : Int) : List Char → Prop where
  | month {t : List Char} {x : Int} : peek t = 'M' →
      writtenInt t.tail = some x → FitsInt x → (x < 1 ∨ 12 < x) → RuleOutOfRange currYear t
  | week {t u1 : List Char} {m x : Int} : peek t = 'M' → parseInt t.tail = (some u1, m) →
      peek u1 = '.' → writtenInt u1.tail = some x → FitsInt x → (x < 1 ∨ 5 < x) →
      RuleOutOfRange currYear t
  | weekday {t u1 u2 : List Char} {m w x : Int} : peek t = 'M' →
      parseInt t.tail = (some u1, m) → peek u1 = '.' → parseInt u1.tail = (some u2, w) →
      peek u2 = '.' → writtenInt u2.tail = some x → FitsInt x → (x < 0 ∨ 6 < x) →
      RuleOutOfRange currYear t
  | julian {t : List Char} {x : Int} : peek t = 'J' →
      writtenInt t.tail = some x → FitsInt x → (x < 1 ∨ 365 < x) → RuleOutOfRange currYear t
  | yearDay {t : List Char} {x : Int} : isDigit (peek t) = true →
      writtenInt t = some x → FitsInt x →
      (365 < x ∨ (x = 365 ∧ isLeapYear currYear = false)) →
      RuleOutOfRange currYear t
  | hour {t t2 : List Char} {mo d x : Int} : parseDSTRule t currYear = some (t2, mo, d) →
      peek t2 = '/' → writtenInt t2.tail = some x → FitsInt x → (x < -167 ∨ 167 < x) →
      RuleOutOfRange currYear t
  | minute {t t2 u : List Char} {mo d h x : Int} :
      parseDSTRule t currYear = some (t2, mo, d) → peek t2 = '/' →
      parseInt t2.tail = (some u, h) → peek u = ':' →
      writtenInt u.tail = some x → FitsInt x → (x < 0 ∨ 59 < x) → RuleOutOfRange currYear t

/-- One of the two DST rules of a TZ string with a valid offset part has a
number out of range for `currYear`. -/
def RulesOutOfRange (currYear : Int) (tz : List Char) : Prop :=
  ∃ t1 r1 diffNorm diff, parseTZNorm tz = Flow.next (t1, diffNorm) ∧
    parseTZDiff t1 diffNorm = Flow.next (',' :: r1, diff) ∧
    (RuleOutOfRange currYear r1 ∨
      ∃ r2 dOn, parseTZRule r1 currYear = some (',' :: r2, dOn) ∧ RuleOutOfRange currYear r2)

/-! ## The clock tick of `time_loop` (tc_time.cpp, lines 1661-2013) -/

/-- The `DateTime` of rtc.h: year offset from 2000, month, day, hours,
minutes and seconds, each a `uint8_t`. -/
structure DateTime where
  yOff : Int
  m : Int
  d : Int
  hh : Int
  mm : Int
  ss : Int
deriving DecidableEq

/-- The accessor `year()` of rtc.h: `2000U + yOff` as `uint16_t`. -/
def DateTime.year (dt : DateTime) : Int := u16 (2000 + dt.yOff)

/-- Modelled from the spec: `dt.set(year, month, day, hour, minute, second)`,
whose definition is not under src/, stores its arguments in the `uint8_t`
fields of `DateTime`. -/
def DateTime.set (yOff m d hh mm ss : Int) : DateTime :=
  { yOff := u8 yOff, m := u8 m, d := u8 d, hh := u8 hh, mm := u8 mm, ss := u8 ss }

/-- Modelled from the spec: `dt.setYear(yOff)`, whose definition is not under
src/, stores its argument in the `uint8_t` field `yOff`. -/
def DateTime.setYear (dt : DateTime) (yOff : Int) : DateTime :=
  { dt with yOff := u8 yOff }

/-- The arguments of the last `rtc.adjust(second, minute, hour, dayOfWeek,
dayOfMonth, month, year)`, each a `byte`: what the hardware RTC was set to. -/
structure RTCTime where
  second : Int
  minute : Int
  hour : Int
  dayOfWeek : Int
  dayOfMonth : Int
  month : Int
  year : Int
deriving DecidableEq

/-- Modelled from the spec: `rtc.adjust(...)` of the class `tcRTC`, whose
definition is not under src/, writes its seven `byte` arguments to the
hardware RTC. -/
def rtcAdjust (second minute hour dayOfWeek dayOfMonth month year : Int) : RTCTime :=
  { second := u8 second, minute := u8 minute, hour := u8 hour, dayOfWeek := u8 dayOfWeek,
    dayOfMonth := u8 dayOfMonth, month := u8 month, year := u8 year }

/-- The variables of `time_loop` that the clock tick reads and writes: the
TZ/DST data, the tick's local `dt`, the hardware RTC, the DST flag and year
offset of `presentTime` (`getDST()`, `getYearOffset()`), and the globals of
the same names. -/
structure LoopState where
  tz : TZState
  dt : DateTime
  rtc : RTCTime
  isDST : Int
  yearOffset : Int
  haveAuthTime : Bool
  authTimeExpired : Bool
  autoReadjust : Bool
  syncTrigger : Bool
  checkDST : Bool
  DSTcheckDone : Bool
  resyncInt : Int
  dstChkInt : Int
  lastYear : Int
  timeDifference : Int
  timeDiffUp : Bool
deriving DecidableEq

/-- What a successful `getNTPOrGPSTime(haveAuthTime, dt)` leaves behind: the
new `dt`, the RTC it adjusted, the year offset and DST flag it stored in
`presentTime`, and the TZ/DST data (it may call `parseTZ`). The time comes
from the NTP or GPS service, so the result is an input of the tick. -/
structure SyncResult where
  dt : DateTime
  rtc : RTCTime
  yearOffset : Int
  isDST : Int
  tz : TZState
deriving DecidableEq

/-- The real year that the tick computes from `dt` and the year offset:
`dt.year() - presentTime.getYearOffset()` as `int`. -/
def LoopState.realYear (s : LoopState) : Int := s.dt.year - s.yearOffset

/-- Whether a DST determination must be blocked: `blockDSTChange`. -/
def blockDSTChange (currTimeMins : Int) (s : LoopState) : Bool :=
  decide (s.isDST ≤ 0 ∧ currTimeMins < (s.tz.slot 0).DSToffMins ∧
    (s.tz.slot 0).DSToffMins - currTimeMins ≤ (s.tz.slot 0).tzDiff)

/-- The test `!haveAuthTime` / `millis() - lastAuthTime >= 7*24*60*60*1000` at
the start of the tick (lines 1661-1665); `authOlder7Days` is the outcome of
the comparison of the clock readings. -/
def expireAuthTime (authOlder7Days : Bool) (s : LoopState) : LoopState :=
  if s.haveAuthTime = false then { s with authTimeExpired := true }
  else if authOlder7Days = true then { s with authTimeExpired := true }
  else s

/-- Re-adjustment of the time through NTP/GPS (lines 1732-1831). The flag
`cond` is the condition of line 1732 (`couldHaveAuthTime && itsTime &&
(GPShasTime || doWiFi)` and no time travel sequence running), `sync` the
outcome of `getNTPOrGPSTime` (`none` when it returns false and leaves
everything as it was), `powerup5Min` the outcome of `millis() - powerupMillis
> 5*60*1000`. The values `couldDST[0]` and `tzDiff[0]` are read after the
call, the time `oldT` before it. -/
def resyncBlock (cond : Bool) (sync : Option SyncResult) (powerup5Min : Bool)
    (s : LoopState) : LoopState :=
  if cond = true then
    if s.autoReadjust = false then
      match sync with
      | some r =>
        let oldT := dateToMins s.realYear s.dt.m s.dt.d s.dt.hh s.dt.mm
        let allowedDiff : Int :=
          if (r.tz.slot 0).couldDST = true then u64 ((r.tz.slot 0).tzDiff + 1) else 61
        let newYear := r.dt.year - r.yearOffset
        let newT := dateToMins newYear r.dt.m r.dt.d r.dt.hh r.dt.mm
        let wasFakeRTC : Bool :=
          if newT > oldT then decide (u64 (newT - oldT) > allowedDiff)
          else decide (u64 (oldT - newT) > allowedDiff)
        let newDiff : Int :=
          if s.timeDifference ≠ 0 then (if wasFakeRTC = true then 0 else s.timeDifference)
          else s.timeDifference
        { s with dt := r.dt, rtc := r.rtc, yearOffset := r.yearOffset, isDST := r.isDST,
                 tz := r.tz, autoReadjust := true, resyncInt := 5, syncTrigger := false,
                 checkDST := false, haveAuthTime := true, authTimeExpired := false,
                 lastYear := u16 newYear, timeDifference := newDiff }
      | none => { s with checkDST := (s.tz.slot 0).couldDST }
    else { s with checkDST := false }
  else
    let newInt : Int :=
      if s.resyncInt ≠ 5 then (if powerup5Min = true then 5 else s.resyncInt)
      else s.resyncInt
    { s with autoReadjust := false, resyncInt := newInt, checkDST := (s.tz.slot 0).couldDST }

/-- The literal of lines 1854-1857: the minutes to re-base `timeDifference`
by at the roll-over from 9999 to 1. -/
def rolloverMins : Int := 5258964960

/-- Detection and handling of year changes (lines 1835-1902). The call
`parseTZ(0, thisYear)` uses the default `doparseDST`, taken as true (the
declaration is not under src/). The result is `none` when `parseTZ`
dereferences `NULL`. -/
def yearChangeBlock (s : LoopState) : Option LoopState :=
  let thisYear0 := u16 s.realYear
  if thisYear0 ≠ s.lastYear ∨ thisYear0 > 9999 then
    let over : Bool := decide (thisYear0 > 9999)
    let thisYear : Int := if over = true then 1 else thisYear0
    let rebase : Bool := over && decide (s.timeDifference ≠ 0)
    let newDiff : Int :=
      if rebase = true then
        (if s.timeDifference ≥ rolloverMins then u64 (s.timeDifference - rolloverMins)
         else u64 (rolloverMins - s.timeDifference))
      else s.timeDifference
    let newUp : Bool :=
      if rebase = true then
        (if s.timeDifference ≥ rolloverMins then s.timeDiffUp else !s.timeDiffUp)
      else s.timeDiffUp
    match parseTZ 0 thisYear true s.tz with
    | none => none
    | some (_, tz1) =>
      let c := correctYr4RTC thisYear
      let rtcYear := c.1
      let yOffs := c.2
      if rtcYear ≠ s.dt.year ∨ yOffs ≠ s.yearOffset then
        let wd := dayOfWeek s.dt.d s.dt.m thisYear
        let newRtc := rtcAdjust s.dt.ss s.dt.mm s.dt.hh wd s.dt.d s.dt.m (rtcYear - 2000)
        some { s with timeDifference := newDiff, timeDiffUp := newUp, tz := tz1,
                      rtc := newRtc, yearOffset := yOffs,
                      dt := s.dt.setYear (rtcYear - 2000) }
      else some { s with timeDifference := newDiff, timeDiffUp := newUp, tz := tz1 }
  else some s

/-- The periodic check whether to switch from/to DST (lines 1904-1992). The
result is `none` when `minsToDate` does not return. -/
def dstCheckBlock (s : LoopState) : Option LoopState :=
  if s.dt.mm.tmod s.dstChkInt = 0 then
    if s.DSTcheckDone = false then
      if s.checkDST = true then
        let oldDST := s.isDST
        let r := timeIsDST 0 s.realYear s.dt.m s.dt.d s.dt.hh s.dt.mm s.tz
        let myDST := r.1
        let currTimeMins := r.2
        if myDST ≠ oldDST ∧ blockDSTChange currTimeMins s = false then
          let myDiff0 := (s.tz.slot 0).tzDiff
          if oldDST ≥ 0 then
            let myDiff := if myDST = 0 then myDiff0 * -1 else myDiff0
            let rtcTime0 := dateToMins s.realYear s.dt.m s.dt.d s.dt.hh s.dt.mm
            let rtcTime := u64 (rtcTime0 + myDiff)
            match minsToDate rtcTime with
            | none => none
            | some (nyear, nmonth, nday, nhour, nminute) =>
              let c := correctYr4RTC (u16 nyear)
              let rtcYear := c.1
              let yOffs := c.2
              let wd := dayOfWeek nday nmonth nyear
              let newRtc := rtcAdjust s.dt.ss nminute nhour wd nday nmonth (rtcYear - 2000)
              let newDt := DateTime.set (rtcYear - 2000) nmonth nday nhour nminute s.dt.ss
              some { s with dstChkInt := 5, DSTcheckDone := true, isDST := myDST,
                            rtc := newRtc, yearOffset := yOffs, dt := newDt }
          else some { s with dstChkInt := 5, DSTcheckDone := true, isDST := myDST }
        else some { s with dstChkInt := 5, DSTcheckDone := true }
      else some { s with dstChkInt := 5 }
    else some s
  else some { s with DSTcheckDone := false }

/-- The clock part of one tick of `time_loop`: expiry of the authoritative
time, the RTC reading `now` (`myrtcnow(dt)`), resync, year change, DST check
and the update of `lastYear` (line 2013). The display, world clock and alarm
code of the tick is not part of it. -/
def clockTick (authOlder7Days : Bool) (now : DateTime) (cond : Bool)
    (sync : Option SyncResult) (powerup5Min : Bool) (s : LoopState) : Option LoopState :=
  let s1 := { expireAuthTime authOlder7Days s with dt := now }
  match yearChangeBlock (resyncBlock cond sync powerup5Min s1) with
  | none => none
  | some s2 =>
    match dstCheckBlock s2 with
    | none => none
    | some s3 => some { s3 with lastYear := u16 s3.realYear }

/-! ## Concrete inputs used to instantiate the statements on the clock tick -/

/-- The TZ/DST data after `parseTZ` for "CST6CDT,M3.2.0,M11.1.0" and 2023 in
slot 0. -/
def tzCST6CDT2023 : TZState := (TZState.initial [] [] []).setSlot 0 slotCST6CDT2023

/-- A state of the clock with the TZ/DST data of `tzCST6CDT2023`, the given
`dt`, DST flag, year offset and `timeDifference`, a DST check due
(`checkDST`, not yet done) and no resync running. -/
def clockAt (dt : DateTime) (isDST yearOffset timeDifference : Int) : LoopState :=
  { tz := tzCST6CDT2023, dt := dt, rtc := rtcAdjust dt.ss dt.mm dt.hh 0 dt.d dt.m dt.yOff,
    isDST := isDST, yearOffset := yearOffset, haveAuthTime := false,
    authTimeExpired := true, autoReadjust := false, syncTrigger := true, checkDST := true,
    DSTcheckDone := false, resyncInt := 1, dstChkInt := 5, lastYear := 2023,
    timeDifference := timeDifference, timeDiffUp := false }

/-- The outcome of a successful `getNTPOrGPSTime` that delivers `dt` with the
given DST flag, for the TZ/DST data of `tzCST6CDT2023`. -/
def syncAt (dt : DateTime) (isDST : Int) : SyncResult :=
  { dt := dt, rtc := rtcAdjust dt.ss dt.mm dt.hh 0 dt.d dt.m dt.yOff, yearOffset := 0,
    isDST := isDST, tz := tzCST6CDT2023 }
/-! ## Leap years -/

theorem land3_natCast (n : Nat) : Int.land (n : Int) 3 = ((n % 4 : Nat) : Int) := by
  have h : Int.land (n : Int) 3 = ((n &&& 3 : Nat) : Int) := rfl
  rw [h]
  exact congrArg Nat.cast (Nat.and_pow_two_sub_one_eq_mod n 2)

theorem isLeapYear_natCast (n : Nat) :
    isLeapYear (n : Int) = decide ((n % 4 = 0 ∧ n % 100 ≠ 0) ∨ n % 400 = 0) := by
  unfold isLeapYear
  rw [land3_natCast]
  have h100 : (n : Int).tmod 100 = ((n % 100 : Nat) : Int) := by
    rw [Int.tmod_eq_emod (by omega) (by omega)]; omega
  have h400 : (n : Int).tmod 400 = ((n % 400 : Nat) : Int) := by
    rw [Int.tmod_eq_emod (by omega) (by omega)]; omega
  rw [h100, h400]
  by_cases h4 : n % 4 = 0 <;> by_cases h1 : n % 100 = 0 <;> by_cases h0 : n % 400 = 0 <;>
    simp [h4, h1, h0] <;> omega

theorem daysBeforeYear_closed (n : Nat) :
    daysBeforeYear n = 365 * (n : Int) + ((n + 3) / 4 : Nat) - ((n + 99) / 100 : Nat)
      + ((n + 399) / 400 : Nat) := by
  induction n with
  | zero => simp [daysBeforeYear]
  | succ k ih =>
    rw [daysBeforeYear, ih, isLeapYear_natCast]
    by_cases h : (k % 4 = 0 ∧ k % 100 ≠ 0) ∨ k % 400 = 0
    · simp only [h, decide_True, if_true]; push_cast; omega
    · simp only [h, decide_False]; push_cast; omega


/-! ## The 500-year tables -/

theorem hours1kYears_eq (i : Nat) (hi : i < 20) :
    tbl hours1kYears (i : Int) = 24 * daysBeforeYear (500 * i) := by
  rw [daysBeforeYear_closed]
  interval_cases i <;> decide

theorem mins1kYears_eq (i : Nat) (hi : i < 20) :
    tbl mins1kYears (i : Int) = 1440 * daysBeforeYear (500 * i) := by
  rw [daysBeforeYear_closed]
  interval_cases i <;> decide

theorem mon_yday_bounds (l m : Int) (h1 : 1 ≤ m) (h2 : m ≤ 12) :
    0 ≤ mon_yday l (m - 1) ∧ mon_yday l (m - 1) ≤ 335 := by
  unfold mon_yday
  split <;> interval_cases m <;> decide

theorem daysInMonth_bounds (m y : Int) (h1 : 1 ≤ m) (h2 : m ≤ 12) :
    28 ≤ daysInMonth m y ∧ daysInMonth m y ≤ 31 := by
  unfold daysInMonth
  split
  · omega
  · interval_cases m <;> decide

/-! ## `dateToMins` as a linear count -/

theorem dateToMinsLoop_eq (fuel d : Nat) (t : Int) (ht : 0 ≤ t)
    (hb : t + 24 * (daysBeforeYear (d + fuel) - daysBeforeYear d) < 4294967296) :
    dateToMinsLoop fuel ((d + fuel : Nat) : Int) (d : Int) t
      = t + 24 * (daysBeforeYear (d + fuel) - daysBeforeYear d) := by
  induction fuel generalizing t with
  | zero => simp [dateToMinsLoop]
  | succ k ih =>
    have hc : ((d + (k + 1) : Nat) : Int) > (d : Int) := by omega
    have hc1 : ((d + (k + 1) : Nat) : Int) - 1 = ((d + k : Nat) : Int) := by omega
    rw [dateToMinsLoop, if_pos hc, hc1]
    have hstep : daysBeforeYear (d + (k + 1)) = daysBeforeYear (d + k)
        + (if isLeapYear ((d + k : Nat) : Int) then 366 else 365) := by
      rw [← Nat.add_assoc, daysBeforeYear]
    have hmono : daysBeforeYear d ≤ daysBeforeYear (d + k) := by
      rw [daysBeforeYear_closed, daysBeforeYear_closed]; push_cast; omega
    rw [hstep] at hb ⊢
    cases hl : isLeapYear ((d + k : Nat) : Int)
    · simp only [hl, Bool.false_eq_true, if_false] at hb ⊢
      have hu : u32 (t + 8760) = t + 8760 := by unfold u32; omega
      rw [hu, ih (t + 8760) (by omega) (by omega)]
      ring
    · simp only [hl, if_true] at hb ⊢
      have hu : u32 (t + (8760 + 24)) = t + 8784 := by unfold u32; omega
      rw [hu, ih (t + 8784) (by omega) (by omega)]
      ring

theorem daysBeforeYear_bounds (n : Nat) :
    365 * (n : Int) ≤ daysBeforeYear n ∧ daysBeforeYear n ≤ 366 * (n : Int) := by
  rw [daysBeforeYear_closed]; omega

/-- The hour total accumulated by `dateToMins` up to the start of year `n`. -/
theorem dateToMins_yearHours (n : Nat) (hn : n ≤ 9999) :
    dateToMinsLoop
        ((n : Int) - (if tbl hours1kYears ((n : Int).tdiv 500) ≠ 0
          then ((n : Int).tdiv 500) * 500 else 0)).toNat
        (n : Int)
        (if tbl hours1kYears ((n : Int).tdiv 500) ≠ 0 then ((n : Int).tdiv 500) * 500 else 0)
        (tbl hours1kYears ((n : Int).tdiv 500))
      = 24 * daysBeforeYear n := by
  have hq : (n : Int).tdiv 500 = ((n / 500 : Nat) : Int) := by
    rw [Int.tdiv_eq_ediv (by omega) (by omega)]; omega
  have hq20 : n / 500 < 20 := by omega
  rw [hq, hours1kYears_eq _ hq20]
  have hd : (if 24 * daysBeforeYear (500 * (n / 500)) ≠ 0
      then ((n / 500 : Nat) : Int) * 500 else 0) = ((500 * (n / 500) : Nat) : Int) := by
    have := daysBeforeYear_bounds (500 * (n / 500))
    split
    · push_cast; ring
    · push_cast at *; omega
  rw [hd]
  have hf : ((n : Int) - ((500 * (n / 500) : Nat) : Int)).toNat = n % 500 := by omega
  have hn' : (n : Int) = ((500 * (n / 500) + n % 500 : Nat) : Int) := by omega
  rw [hf]
  have hsum : 500 * (n / 500) + n % 500 = n := by omega
  have key := dateToMinsLoop_eq (n % 500) (500 * (n / 500))
    (24 * daysBeforeYear (500 * (n / 500)))
    (by have := daysBeforeYear_bounds (500 * (n / 500)); omega)
    (by rw [hsum]; have := daysBeforeYear_bounds n; omega)
  rw [hsum] at key
  rw [key]; ring

theorem dateToMins_eq (y m d h mi : Int) (hv : ValidDateTime y m d h mi) :
    dateToMins y m d h mi
      = ((daysBeforeYear y.toNat + mon_yday (if isLeapYear y then 1 else 0) (m - 1)
          + d - 1) * 24 + h) * 60 + mi := by
  obtain ⟨hy0, hy1, hm0, hm1, hd0, hd1, hh0, hh1, hi0, hi1⟩ := hv
  obtain ⟨n, rfl⟩ := Int.eq_ofNat_of_zero_le hy0
  have hn : n ≤ 9999 := by omega
  have hyd := mon_yday_bounds (if isLeapYear (n : Int) then 1 else 0) m hm0 hm1
  have hdm := daysInMonth_bounds m n hm0 hm1
  have hD := daysBeforeYear_bounds n
  unfold dateToMins
  simp only [dateToMins_yearHours n hn, Int.toNat_ofNat]
  generalize mon_yday (if isLeapYear (n : Int) then 1 else 0) (m - 1) = yd at hyd ⊢
  generalize daysBeforeYear n = D at hD ⊢
  generalize daysInMonth m n = dm at hd1 hdm
  have e1 : u32 (yd * 24) = yd * 24 := by unfold u32; omega
  have e2 : u32 (24 * D + yd * 24) = 24 * D + yd * 24 := by unfold u32; omega
  have e3 : u32 (24 * D + yd * 24 + (d - 1) * 24) = 24 * D + yd * 24 + (d - 1) * 24 := by
    unfold u32; omega
  have e4 : u32 (24 * D + yd * 24 + (d - 1) * 24 + h)
      = 24 * D + yd * 24 + (d - 1) * 24 + h := by unfold u32; omega
  have e5 : u64 ((24 * D + yd * 24 + (d - 1) * 24 + h) * 60)
      = (24 * D + yd * 24 + (d - 1) * 24 + h) * 60 := by unfold u64; omega
  have e6 : u64 ((24 * D + yd * 24 + (d - 1) * 24 + h) * 60 + mi)
      = (24 * D + yd * 24 + (d - 1) * 24 + h) * 60 + mi := by unfold u64; omega
  rw [e1, e2, e3, e4, e5, e6]
  ring


/-! ## `minsToDate` inverts `dateToMins` -/

theorem mon_yday_succ (m y : Int) (h1 : 1 ≤ m) (h2 : m ≤ 12) :
    mon_yday (if isLeapYear y then 1 else 0) m
      = mon_yday (if isLeapYear y then 1 else 0) (m - 1) + daysInMonth m y := by
  unfold daysInMonth
  cases isLeapYear y <;> interval_cases m <;> decide

theorem mon_yday_le_yearLen (l m : Int) (hl : l = 0 ∨ l = 1) (h1 : 1 ≤ m) (h2 : m ≤ 12) :
    mon_yday l m ≤ 365 + l := by
  rcases hl with rfl | rfl <;> interval_cases m <;> decide

theorem mon_ydayt24t60_eq (l m : Int) (hl : l = 0 ∨ l = 1) (h1 : 1 ≤ m) (h2 : m ≤ 12) :
    mon_ydayt24t60 l (m - 1) = 1440 * mon_yday l (m - 1) := by
  rcases hl with rfl | rfl <;> interval_cases m <;> decide

theorem minsToDateBlock_spec (M : Int) (k : Nat) :
    -1 ≤ minsToDateBlock M (k + 1) k ∧ minsToDateBlock M (k + 1) k ≤ k ∧
    (0 ≤ minsToDateBlock M (k + 1) k →
      tbl mins1kYears (minsToDateBlock M (k + 1) k) < M) ∧
    (∀ j : Nat, minsToDateBlock M (k + 1) k < j → j ≤ k → M ≤ tbl mins1kYears j) := by
  induction k with
  | zero =>
    simp only [minsToDateBlock]
    by_cases h : M > tbl mins1kYears ((0 : Nat) : Int)
    · simp only [h, if_true]
      refine ⟨by simp, by simp, fun _ => h, ?_⟩
      intro j h1 h2; simp at h1; omega
    · simp only [h, if_false]
      refine ⟨by simp, by simp, fun h' => by simp at h', ?_⟩
      intro j h1 h2
      have : j = 0 := by omega
      subst this; omega
  | succ k ih =>
    rw [minsToDateBlock]
    have hk : (((k + 1 : Nat) : Int)) ≥ 0 := by omega
    have hk1 : (((k + 1 : Nat) : Int)) - 1 = (k : Int) := by omega
    rw [if_pos hk, hk1]
    by_cases h : M > tbl mins1kYears ((k + 1 : Nat) : Int)
    · rw [if_pos h]
      refine ⟨by omega, le_refl _, fun _ => h, ?_⟩
      intro j h1 h2; omega
    · rw [if_neg h]
      obtain ⟨a1, a2, a3, a4⟩ := ih
      refine ⟨a1, by omega, a3, ?_⟩
      intro j h1 h2
      by_cases hj : j ≤ k
      · exact a4 j h1 hj
      · have : j = k + 1 := by omega
        subst this; omega

theorem minsToDateYears_spec (k : Nat) :
    ∀ (fuel c : Nat) (yr t R : Int), k + 1 ≤ fuel → 0 ≤ R →
      R < 1440 * (daysBeforeYear (c + k + 1) - daysBeforeYear (c + k)) →
      t = 1440 * (daysBeforeYear (c + k) - daysBeforeYear c) + R →
      t < 4294967296 →
      minsToDateYears fuel (c : Int) yr t = some (yr + k, R) := by
  induction k with
  | zero =>
    intro fuel c yr t R hf hR0 hR1 ht hb
    obtain ⟨f, rfl⟩ : ∃ f, fuel = f + 1 := ⟨fuel - 1, by omega⟩
    rw [minsToDateYears]
    simp only [Nat.add_zero, daysBeforeYear] at hR1 ht
    have ht' : t = R := by rw [ht]; ring
    subst ht'
    cases hl : isLeapYear (c : Int)
    · simp only [hl, Bool.false_eq_true, if_false] at hR1 ⊢
      rw [if_pos (by omega)]; simp
    · simp only [hl, if_true] at hR1 ⊢
      rw [if_pos (by omega)]; simp
  | succ k ih =>
    intro fuel c yr t R hf hR0 hR1 ht hb
    obtain ⟨f, rfl⟩ : ∃ f, fuel = f + 1 := ⟨fuel - 1, by omega⟩
    rw [minsToDateYears]
    have hc1 : daysBeforeYear (c + 1) = daysBeforeYear c
        + (if isLeapYear (c : Int) then 366 else 365) := by rw [daysBeforeYear]
    have hmono : daysBeforeYear (c + 1) ≤ daysBeforeYear (c + 1 + k) := by
      rw [daysBeforeYear_closed, daysBeforeYear_closed]; push_cast; omega
    have e1 : c + (k + 1) = c + 1 + k := by omega
    rw [e1] at ht hR1
    have hcast : ((c : Int) + 1) = ((c + 1 : Nat) : Int) := by push_cast; rfl
    cases hl : isLeapYear (c : Int)
    · simp only [hl, Bool.false_eq_true, if_false] at hc1 ⊢
      have hlt : ¬ t < 8760 * 60 := by omega
      have hu : u32 (t - 8760 * 60) = t - 525600 := by unfold u32; omega
      rw [if_neg hlt, hu, hcast, ih f (c + 1) (yr + 1) (t - 525600) R (by omega) hR0 hR1
        (by omega) (by omega)]
      simp; ring
    · simp only [hl, if_true] at hc1 ⊢
      have hlt : ¬ t < (8760 + 24) * 60 := by omega
      have hu : u32 (t - (8760 + 24) * 60) = t - 527040 := by unfold u32; omega
      rw [if_neg hlt, hu, hcast, ih f (c + 1) (yr + 1) (t - 527040) R (by omega) hR0 hR1
        (by omega) (by omega)]
      simp; ring

theorem minsToDateMonth_spec (l m d h mi : Int) (hl : l = 0 ∨ l = 1)
    (h1 : 1 ≤ m) (h2 : m ≤ 12) (hd0 : 1 ≤ d)
    (hd1 : d ≤ mon_yday l m - mon_yday l (m - 1))
    (hh0 : 0 ≤ h) (hh1 : h ≤ 23) (hi0 : 0 ≤ mi) (hi1 : mi ≤ 59) :
    minsToDateMonth l (((mon_yday l (m - 1) + d - 1) * 24 + h) * 60 + mi) 11 1 = m := by
  rcases hl with rfl | rfl <;> interval_cases m <;>
    simp [minsToDateMonth, mon_ydayt24t60, mon_ydayt24t60_0, mon_ydayt24t60_1, mon_yday,
      mon_yday0, mon_yday1, tbl] at hd1 ⊢ <;> omega

theorem daysBeforeYear_diff (a k : Nat) :
    365 * (k : Int) ≤ daysBeforeYear (a + k) - daysBeforeYear a ∧
    daysBeforeYear (a + k) - daysBeforeYear a ≤ 366 * (k : Int) := by
  rw [daysBeforeYear_closed, daysBeforeYear_closed]; push_cast; omega

theorem daysBeforeYear_lt (a b : Nat) (h : daysBeforeYear a < daysBeforeYear b) : a < b := by
  by_contra hc
  have hba : b ≤ a := by omega
  obtain ⟨k, rfl⟩ := Nat.exists_eq_add_of_le hba
  have := daysBeforeYear_diff b k
  omega

theorem minsToDateBlock_19 (M : Int) :
    -1 ≤ minsToDateBlock M 20 19 ∧ minsToDateBlock M 20 19 ≤ 19 ∧
    (0 ≤ minsToDateBlock M 20 19 → tbl mins1kYears (minsToDateBlock M 20 19) < M) ∧
    (∀ j : Nat, minsToDateBlock M 20 19 < j → j ≤ 19 → M ≤ tbl mins1kYears j) :=
  minsToDateBlock_spec M 19

theorem minsToDate_year (n : Nat) (hn : n ≤ 9999) (R M : Int) (hR0 : 0 ≤ R)
    (hR1 : R < 1440 * (daysBeforeYear (n + 1) - daysBeforeYear n))
    (hM : M = 1440 * daysBeforeYear n + R) :
    minsToDateYears
      ((u32 (if minsToDateBlock M 20 19 > 0
          then u64 (M - tbl mins1kYears (minsToDateBlock M 20 19)) else M) / 525600).toNat + 1)
      (if minsToDateBlock M 20 19 > 0 then minsToDateBlock M 20 19 * 500 else 0)
      (if minsToDateBlock M 20 19 > 0 then minsToDateBlock M 20 19 * 500 else 0)
      (u32 (if minsToDateBlock M 20 19 > 0
          then u64 (M - tbl mins1kYears (minsToDateBlock M 20 19)) else M))
      = some ((n : Int), R) := by
  obtain ⟨a1, a2, a3, a4⟩ := minsToDateBlock_19 M
  generalize minsToDateBlock M 20 19 = b at a1 a2 a3 a4 ⊢
  have hn1 := daysBeforeYear_diff n 1
  have hD0 := daysBeforeYear_bounds n
  by_cases hb : b > 0
  · obtain ⟨bn, rfl⟩ := Int.eq_ofNat_of_zero_le (le_of_lt hb)
    have hbn : bn < 20 := by omega
    have ht := a3 (by omega)
    rw [mins1kYears_eq bn hbn] at ht
    have hlt : 500 * bn < n + 1 := daysBeforeYear_lt _ _ (by omega)
    obtain ⟨k, hk⟩ := Nat.exists_eq_add_of_le (Nat.lt_succ_iff.mp hlt)
    have hdiff := daysBeforeYear_diff (500 * bn) k
    rw [← hk] at hdiff
    have hk500 : k ≤ 500 := by
      by_cases h19 : bn = 19
      · omega
      · have hu := a4 (bn + 1) (by push_cast; omega) (by omega)
        rw [mins1kYears_eq (bn + 1) (by omega)] at hu
        by_contra hc
        have hlt2 : n < 500 * (bn + 1) + 1 := by
          have h3 := daysBeforeYear_diff (500 * (bn + 1)) 1
          exact daysBeforeYear_lt _ _ (by omega)
        omega
    rw [if_pos hb, if_pos hb, mins1kYears_eq bn hbn]
    have e64 : u64 (M - 1440 * daysBeforeYear (500 * bn))
        = 1440 * (daysBeforeYear n - daysBeforeYear (500 * bn)) + R := by
      unfold u64; omega
    have e32 : u32 (1440 * (daysBeforeYear n - daysBeforeYear (500 * bn)) + R)
        = 1440 * (daysBeforeYear n - daysBeforeYear (500 * bn)) + R := by
      unfold u32; omega
    rw [e64, e32]
    have ec : ((bn : Int) * 500) = ((500 * bn : Nat) : Int) := by push_cast; ring
    rw [ec]
    have key := minsToDateYears_spec k
      ((((1440 * (daysBeforeYear n - daysBeforeYear (500 * bn)) + R) / 525600).toNat) + 1)
      (500 * bn) ((500 * bn : Nat) : Int)
      (1440 * (daysBeforeYear n - daysBeforeYear (500 * bn)) + R) R
      (by omega) hR0 (by rw [← hk]; exact hR1) (by rw [← hk]) (by omega)
    rw [key]
    congr 2
    omega
  · rw [if_neg hb, if_neg hb]
    have hu := a4 1 (by omega) (by omega)
    have ht1 : tbl mins1kYears ((1 : Nat) : Int) = 262975680 := by decide
    rw [ht1] at hu
    have e32 : u32 M = 1440 * (daysBeforeYear n - daysBeforeYear 0) + R := by
      unfold u32; simp only [daysBeforeYear]; omega
    have hdiff := daysBeforeYear_diff 0 n
    simp only [Nat.zero_add] at hdiff
    rw [e32]
    have key := minsToDateYears_spec n
      ((((1440 * (daysBeforeYear n - daysBeforeYear 0) + R) / 525600).toNat) + 1)
      0 0 (1440 * (daysBeforeYear n - daysBeforeYear 0) + R) R
      (by omega) hR0 (by rw [Nat.zero_add]; exact hR1) (by rw [Nat.zero_add])
      (by simp only [daysBeforeYear]; omega)
    simp only [Nat.cast_zero] at key
    rw [key]
    simp

/-- C1. Round trip: for every valid civil date-time (year 0..9999, month
1..12, day 1..daysInMonth, hour 0..23, minute 0..59), `minsToDate` returns a
result on `dateToMins year month day hour minute`, and that result is exactly
`(year, month, day, hour, minute)`. -/
theorem minsToDate_dateToMins (y m d h mi : Int) (hv : ValidDateTime y m d h mi) :
    minsToDate (dateToMins y m d h mi) = some (y, m, d, h, mi) := by
  rw [dateToMins_eq y m d h mi hv]
  obtain ⟨hy0, hy1, hm0, hm1, hd0, hd1, hh0, hh1, hi0, hi1⟩ := hv
  obtain ⟨n, rfl⟩ := Int.eq_ofNat_of_zero_le hy0
  have hn : n ≤ 9999 := by omega
  rw [Int.toNat_ofNat]
  have hl : (if isLeapYear (n : Int) then (1 : Int) else 0) = 0 ∨
      (if isLeapYear (n : Int) then (1 : Int) else 0) = 1 := by
    cases isLeapYear (n : Int) <;> simp
  have hsucc := mon_yday_succ m n hm0 hm1
  have hle := mon_yday_le_yearLen _ m hl hm0 hm1
  have hyd := mon_yday_bounds (if isLeapYear (n : Int) then 1 else 0) m hm0 hm1
  have hstep : daysBeforeYear (n + 1) - daysBeforeYear n
      = 365 + (if isLeapYear (n : Int) then (1 : Int) else 0) := by
    rw [daysBeforeYear]; cases isLeapYear (n : Int) <;> simp
  have hmonth := minsToDateMonth_spec _ m d h mi hl hm0 hm1 hd0 (by omega) hh0 hh1 hi0 hi1
  have ht60 := mon_ydayt24t60_eq _ m hl hm0 hm1
  have hyear := minsToDate_year n hn
    (((mon_yday (if isLeapYear (n : Int) then 1 else 0) (m - 1) + d - 1) * 24 + h) * 60 + mi)
    (((daysBeforeYear n + mon_yday (if isLeapYear (n : Int) then 1 else 0) (m - 1)
      + d - 1) * 24 + h) * 60 + mi)
    (by omega) (by omega) (by ring)
  unfold minsToDate
  simp only [hyear, hmonth, ht60]
  generalize mon_yday (if isLeapYear (n : Int) then 1 else 0) (m - 1) = yd at *
  have e1 : u32 (((yd + d - 1) * 24 + h) * 60 + mi - 1440 * yd)
      = ((d - 1) * 24 + h) * 60 + mi := by unfold u32; omega
  have e2 : (((d - 1) * 24 + h) * 60 + mi) / (24 * 60) = d - 1 := by omega
  have e3 : u32 (((d - 1) * 24 + h) * 60 + mi - (d - 1) * (24 * 60)) = h * 60 + mi := by
    unfold u32; omega
  have e4 : (h * 60 + mi) / 60 = h := by omega
  have e5 : u32 (h * 60 + mi - h * 60) = mi := by unfold u32; omega
  rw [e1, e2, e3, e4, e5]
  simp


theorem mon_yday_mono (l a b : Int) (hl : l = 0 ∨ l = 1) (h0 : 0 ≤ a) (hab : a ≤ b)
    (hb : b ≤ 12) : mon_yday l a ≤ mon_yday l b := by
  have ha : a ≤ 12 := by omega
  have hb0 : 0 ≤ b := by omega
  rcases hl with rfl | rfl <;> interval_cases a <;> interval_cases b <;>
    first | omega | decide


theorem dateToMins_lt (y1 m1 d1 h1 i1 y2 m2 d2 h2 i2 : Int)
    (hv1 : ValidDateTime y1 m1 d1 h1 i1) (hv2 : ValidDateTime y2 m2 d2 h2 i2)
    (hlt : DateTimeLt y1 m1 d1 h1 i1 y2 m2 d2 h2 i2) :
    dateToMins y1 m1 d1 h1 i1 < dateToMins y2 m2 d2 h2 i2 := by
  rw [dateToMins_eq _ _ _ _ _ hv1, dateToMins_eq _ _ _ _ _ hv2]
  obtain ⟨hy0, hy1, hm0, hm1, hd0, hd1, hh0, hh1, hi0, hi1⟩ := hv1
  obtain ⟨ky0, ky1, km0, km1, kd0, kd1, kh0, kh1, ki0, ki1⟩ := hv2
  obtain ⟨n1, rfl⟩ := Int.eq_ofNat_of_zero_le hy0
  obtain ⟨n2, rfl⟩ := Int.eq_ofNat_of_zero_le ky0
  simp only [Int.toNat_ofNat]
  have hl1 : (if isLeapYear (n1 : Int) then (1 : Int) else 0) = 0 ∨
      (if isLeapYear (n1 : Int) then (1 : Int) else 0) = 1 := by
    cases isLeapYear (n1 : Int) <;> simp
  have hs1 := mon_yday_succ m1 n1 hm0 hm1
  have hb1 := mon_yday_bounds (if isLeapYear (n1 : Int) then 1 else 0) m1 hm0 hm1
  have hb2 := mon_yday_bounds (if isLeapYear (n2 : Int) then 1 else 0) m2 km0 km1
  rcases hlt with hy | ⟨hy, hrest⟩
  · have hle := mon_yday_le_yearLen _ m1 hl1 hm0 hm1
    have hstep : daysBeforeYear (n1 + 1) - daysBeforeYear n1
        = 365 + (if isLeapYear (n1 : Int) then (1 : Int) else 0) := by
      rw [daysBeforeYear]; cases isLeapYear (n1 : Int) <;> simp
    obtain ⟨k, hk⟩ := Nat.exists_eq_add_of_le (show n1 + 1 ≤ n2 by omega)
    have hdiff := daysBeforeYear_diff (n1 + 1) k
    rw [← hk] at hdiff
    omega
  · have hn : n1 = n2 := by omega
    subst hn
    rcases hrest with hm | ⟨hm, hrest⟩
    · have hmono := mon_yday_mono _ m1 (m2 - 1) hl1 (by omega) (by omega) (by omega)
      omega
    · subst hm
      omega


theorem isLeapYear_iff (y : Int) (hy : 0 ≤ y) :
    isLeapYear y = true ↔ ((y % 4 = 0 ∧ y % 100 ≠ 0) ∨ y % 400 = 0) := by
  obtain ⟨n, rfl⟩ := Int.eq_ofNat_of_zero_le hy
  rw [isLeapYear_natCast, decide_eq_true_iff]
  omega

theorem correctYr4RTC_spec (y : Int) (h0 : 0 ≤ y) (h1 : y ≤ 9999) :
    (2000 ≤ y ∧ y ≤ 2098 → correctYr4RTC y = (y, 0)) ∧
    (¬ (2000 ≤ y ∧ y ≤ 2098) → isLeapYear y = true → correctYr4RTC y = (2000, 2000 - y)) ∧
    (¬ (2000 ≤ y ∧ y ≤ 2098) → isLeapYear y = false → correctYr4RTC y = (2001, 2001 - y)) := by
  unfold correctYr4RTC
  refine ⟨fun h => by rw [if_pos h], fun h hl => ?_, fun h hl => ?_⟩
  · rw [if_neg h, if_pos hl]
    have : i16 (2000 - y) = 2000 - y := by unfold i16; omega
    rw [this]
  · rw [if_neg h, if_neg (by simp [hl])]
    have : i16 (2001 - y) = 2001 - y := by unfold i16; omega
    rw [this]

theorem u8_tmod7 (S : Int) (h : 0 ≤ S) : u8 (S.tmod 7) = S % 7 := by
  rw [Int.tmod_eq_emod h (by omega)]; unfold u8; omega

theorem sakamoto_table (l m : Int) (hl : l = 0 ∨ l = 1) (h1 : 1 ≤ m) (h2 : m ≤ 12) :
    (mon_yday l (m - 1) + (if m < 3 then 0 else 6 - l)
      - tbl [0, 3, 2, 5, 0, 3, 5, 1, 4, 6, 2, 4] (m - 1)) % 7 = 0 ∧
    0 ≤ tbl [0, 3, 2, 5, 0, 3, 5, 1, 4, 6, 2, 4] (m - 1) := by
  rcases hl with rfl | rfl <;> interval_cases m <;> decide

theorem daysBeforeYear_pred (n : Nat) :
    daysBeforeYear n = 365 * (n : Int) + 1 + ((n : Int) - 1) / 4 - ((n : Int) - 1) / 100
      + ((n : Int) - 1) / 400 := by
  rw [daysBeforeYear_closed]
  have e4 : (((n + 3) / 4 : Nat) : Int) = ((n : Int) - 1) / 4 + 1 := by omega
  have e100 : (((n + 99) / 100 : Nat) : Int) = ((n : Int) - 1) / 100 + 1 := by omega
  have e400 : (((n + 399) / 400 : Nat) : Int) = ((n : Int) - 1) / 400 + 1 := by omega
  rw [e4, e100, e400]; ring

theorem leapCount_step (n : Nat) :
    (n : Int) / 4 - (n : Int) / 100 + (n : Int) / 400
      = ((n : Int) - 1) / 4 - ((n : Int) - 1) / 100 + ((n : Int) - 1) / 400
        + (if isLeapYear (n : Int) then 1 else 0) := by
  rw [isLeapYear_natCast]
  have e4 : (n : Int) / 4 = ((n : Int) - 1) / 4 + (if n % 4 = 0 then 1 else 0) := by
    split <;> omega
  have e100 : (n : Int) / 100 = ((n : Int) - 1) / 100 + (if n % 100 = 0 then 1 else 0) := by
    split <;> omega
  have e400 : (n : Int) / 400 = ((n : Int) - 1) / 400 + (if n % 400 = 0 then 1 else 0) := by
    split <;> omega
  rw [e4, e100, e400]
  by_cases h4 : n % 4 = 0 <;> by_cases h100 : n % 100 = 0 <;> by_cases h400 : n % 400 = 0 <;>
    simp [h4, h100, h400] <;> omega

theorem dayOfWeek_eq (y m d : Int) (hv : ValidDateTime y m d 0 0) :
    dayOfWeek d m y = (daysBeforeYear y.toNat
      + mon_yday (if isLeapYear y then 1 else 0) (m - 1) + d - 1 + 6) % 7 := by
  obtain ⟨hy0, hy1, hm0, hm1, hd0, hd1, -, -, -, -⟩ := hv
  obtain ⟨n, rfl⟩ := Int.eq_ofNat_of_zero_le hy0
  rw [Int.toNat_ofNat]
  unfold dayOfWeek
  by_cases hpos : (n : Int) > 0
  · rw [if_pos hpos, daysBeforeYear_pred n]
    simp only []
    have hl : (if isLeapYear (n : Int) then (1 : Int) else 0) = 0 ∨
        (if isLeapYear (n : Int) then (1 : Int) else 0) = 1 := by
      cases isLeapYear (n : Int) <;> simp
    obtain ⟨ht, ht0⟩ := sakamoto_table _ m hl hm0 hm1
    have hyd := mon_yday_bounds (if isLeapYear (n : Int) then 1 else 0) m hm0 hm1
    have hstep := leapCount_step n
    have hq : ∀ (a : Int), 0 ≤ a → ∀ c : Int, 0 < c → a.tdiv c = a / c :=
      fun a ha c hc => Int.tdiv_eq_ediv ha (le_of_lt hc)
    have p4 : 0 ≤ ((n : Int) - 1) / 4 := by omega
    have p100 : ((n : Int) - 1) / 100 ≤ ((n : Int) - 1) / 4 := by omega
    have p400 : 0 ≤ ((n : Int) - 1) / 400 := by omega
    by_cases hm3 : m < 3
    · rw [if_pos hm3] at ht ⊢
      rw [hq _ (by omega) 4 (by omega), hq _ (by omega) 100 (by omega),
        hq _ (by omega) 400 (by omega)]
      generalize tbl [0, 3, 2, 5, 0, 3, 5, 1, 4, 6, 2, 4] (m - 1) = tv at ht ht0 ⊢
      generalize mon_yday (if isLeapYear (n : Int) then 1 else 0) (m - 1) = yd at ht hyd ⊢
      generalize ((n : Int) - 1) / 4 = q4 at *
      generalize ((n : Int) - 1) / 100 = q100 at *
      generalize ((n : Int) - 1) / 400 = q400 at *
      rw [u8_tmod7 _ (by omega)]
      omega
    · rw [if_neg hm3] at ht ⊢
      rw [hq _ (by omega) 4 (by omega), hq _ (by omega) 100 (by omega),
        hq _ (by omega) 400 (by omega)]
      have p4' : 0 ≤ (n : Int) / 4 := by omega
      have p100' : (n : Int) / 100 ≤ (n : Int) / 4 := by omega
      have p400' : 0 ≤ (n : Int) / 400 := by omega
      generalize tbl [0, 3, 2, 5, 0, 3, 5, 1, 4, 6, 2, 4] (m - 1) = tv at ht ht0 ⊢
      generalize mon_yday (if isLeapYear (n : Int) then 1 else 0) (m - 1) = yd at ht hyd ⊢
      generalize (if isLeapYear (n : Int) then (1 : Int) else 0) = l at *
      generalize ((n : Int) - 1) / 4 = q4 at *
      generalize ((n : Int) - 1) / 100 = q100 at *
      generalize ((n : Int) - 1) / 400 = q400 at *
      generalize (n : Int) / 4 = r4 at *
      generalize (n : Int) / 100 = r100 at *
      generalize (n : Int) / 400 = r400 at *
      rw [u8_tmod7 _ (by omega)]
      omega
  · have hn0 : n = 0 := by omega
    subst hn0
    rw [if_neg hpos]
    have hl0 : isLeapYear ((0 : Nat) : Int) = true := by decide
    rw [hl0]
    have hyd := mon_yday_bounds 1 m hm0 hm1
    simp only [if_true, daysBeforeYear]
    have hdm := daysInMonth_bounds m ((0 : Nat) : Int) hm0 hm1
    generalize mon_yday 1 (m - 1) = yd at hyd ⊢
    have e1 : u32 (yd + d + 5) = yd + d + 5 := by unfold u32; omega
    have e2 : u8 ((yd + d + 5) % 7) = (yd + d + 5) % 7 := by unfold u8; omega
    rw [e1, e2]
    omega


/-! ## Time zone parsing -/

theorem TZState.slot_setSlot (st : TZState) (index : Int) (s : TZSlot) :
    (st.setSlot index s).slot index = s := by
  unfold TZState.setSlot TZState.slot
  by_cases h0 : index = 0
  · simp [h0]
  · by_cases h1 : index = 1
    · simp [h1]
    · simp [h0, h1]

theorem parseTZSlot_empty (tz : List Char) (currYear : Int) (doparseDST : Bool)
    (h : tz = []) :
    parseTZSlot tz currYear doparseDST TZSlot.initial
      = some (true, { TZSlot.initial with tzHasDST := 0 }) := by
  subst h
  rfl

theorem parseTZNorm_of_peek_NUL (tz : List Char) (h : peek tz = NUL) :
    parseTZNorm tz = Flow.retFalse := by
  cases tz with
  | nil => rfl
  | cons c cs =>
    have hc : c = NUL := h
    subst hc
    rfl

theorem parseTZSlot_degenerate (tz t1 r1 r2 u2 : List Char) (currYear diffNorm diff : Int)
    (dOn dOff : DSTDate)
    (hbal : parseTZCount '>' tz.length tz 0 = parseTZCount '<' tz.length tz 0)
    (hnorm : parseTZNorm tz = Flow.next (t1, diffNorm))
    (hdiff : parseTZDiff t1 diffNorm = Flow.next (',' :: r1, diff))
    (hon : parseTZRule r1 currYear = some (',' :: r2, dOn))
    (hoff : parseTZRule r2 currYear = some (u2, dOff))
    (hsame : dOff.DSTmonth = dOn.DSTmonth ∧ dOff.DSTday = dOn.DSTday) :
    ∃ s, parseTZSlot tz currYear true TZSlot.initial = some (true, s) ∧
      s.tzHasDST = 1 ∧ s.couldDST = false := by
  have hne : ¬ peek tz = NUL := by
    intro h
    rw [parseTZNorm_of_peek_NUL tz h] at hnorm
    cases hnorm
  have hcomma : ¬ (peek (',' :: r1) = NUL ∨ peek (',' :: r1) ≠ ',') := by
    simp only [peek, List.headD_cons]; decide
  have hcomma2 : ¬ (peek (',' :: r2) = NUL ∨ peek (',' :: r2) ≠ ',') := by
    simp only [peek, List.headD_cons]; decide
  have hv1 : ¬ ((-1 : Int) < 1 ∧ (-1 : Int) = 0) := by decide
  have hv2 : decide ((-1 : Int) < 1) = true := by decide
  have hd : ¬ ((-1 : Int) = 0 ∨ true = false) := by decide
  simp only [parseTZSlot, TZSlot.initial, if_neg hne, if_true, hnorm, hdiff, hbal,
    parseTZRules, hon, hoff, hsame, hcomma, hcomma2, hv1, hv2, hd, if_false, List.tail_cons,
    ne_eq, not_true_eq_false, and_false, and_self]
  exact ⟨_, rfl, rfl, rfl⟩

theorem parseTZ_of_tz (index currYear : Int) (doparseDST : Bool) (st : TZState)
    (buf : List Char) (hbuf : st.tz index = some buf) :
    parseTZ index currYear doparseDST st
      = match parseTZSlot (cstr buf) currYear doparseDST (st.slot index) with
        | none => none
        | some (b, s) => some (b, st.setSlot index s) := by
  unfold parseTZ
  rw [hbuf]

theorem parseTZSlot_CST6CDT :
    parseTZSlot (cstr ("CST6CDT,M3.2.0,M11.1.0").toList) 2023 true TZSlot.initial
      = some (true, slotCST6CDT2023) := by
  decide

/-! ## Decimal numerals and `parseInt` -/

theorem digitChar_spec (d : Nat) (hd : d < 10) :
    isDigit (digitChar d) = true ∧ (((digitChar d).toNat : Int) - 48 = d) ∧
    digitChar d ≠ '-' ∧ digitChar d ≠ '+' := by
  interval_cases d <;> decide

theorem decimalAux_append (fuel : Nat) : ∀ (n : Nat) (acc : List Char),
    decimalAux fuel n acc = decimalAux fuel n [] ++ acc := by
  induction fuel with
  | zero => intro n acc; simp [decimalAux]
  | succ f ih =>
    intro n acc
    simp only [decimalAux]
    split
    · simp
    · rw [ih (n / 10) (digitChar (n % 10) :: acc), ih (n / 10) [digitChar (n % 10)]]
      simp

theorem parseIntDigits_of_not_digit (rest : List Char) (a : Int)
    (h : isDigit (peek rest) = false) : parseIntDigits rest a = (rest, a) := by
  cases rest with
  | nil => rfl
  | cons c cs =>
    have hc : isDigit c = false := h
    simp [parseIntDigits, hc]

theorem parseIntDigits_append (ds : List Char) : ∀ (rest : List Char) (a : Int),
    (∀ c ∈ ds, isDigit c = true) →
    parseIntDigits (ds ++ rest) a = parseIntDigits rest (digitsVal a ds) := by
  induction ds with
  | nil => intro rest a _; rfl
  | cons c cs ih =>
    intro rest a h
    have hc : isDigit c = true := h c (List.mem_cons_self c cs)
    have hcs : ∀ x ∈ cs, isDigit x = true := fun x hx => h x (List.mem_cons_of_mem c hx)
    rw [List.cons_append, parseIntDigits, if_pos hc, ih rest _ hcs]
    rfl

theorem decimalAux_spec (fuel : Nat) : ∀ (n : Nat), n < fuel →
    (∀ c ∈ decimalAux fuel n [], isDigit c = true) ∧
    (∃ d tl, d < 10 ∧ decimalAux fuel n [] = digitChar d :: tl) ∧
    ((n : Int) < 2147483648 → digitsVal 0 (decimalAux fuel n []) = n) := by
  induction fuel with
  | zero => intro n h; omega
  | succ f ih =>
    intro n hn
    have hd := digitChar_spec (n % 10) (Nat.mod_lt n (by omega))
    by_cases h0 : n / 10 = 0
    · have e : decimalAux (f + 1) n [] = [digitChar (n % 10)] := by
        simp [decimalAux, h0]
      rw [e]
      refine ⟨?_, ⟨n % 10, [], Nat.mod_lt n (by omega), rfl⟩, ?_⟩
      · intro c hc
        rw [List.mem_singleton] at hc
        rw [hc]; exact hd.1
      · intro _
        simp only [digitsVal, List.foldl_cons, List.foldl_nil]
        rw [hd.2.1]
        unfold i32
        omega
    · have e : decimalAux (f + 1) n [] = decimalAux f (n / 10) [] ++ [digitChar (n % 10)] := by
        simp only [decimalAux, if_neg h0]
        exact decimalAux_append f (n / 10) [digitChar (n % 10)]
      obtain ⟨a1, ⟨d, tl, hd10, a2⟩, a3⟩ := ih (n / 10) (by omega)
      rw [e]
      refine ⟨?_, ⟨d, tl ++ [digitChar (n % 10)], hd10, by rw [a2]; rfl⟩, ?_⟩
      · intro c hc
        rw [List.mem_append, List.mem_singleton] at hc
        rcases hc with hc | hc
        · exact a1 c hc
        · rw [hc]; exact hd.1
      · intro hb
        have hv := a3 (by omega)
        simp only [digitsVal, List.foldl_append, List.foldl_cons, List.foldl_nil] at hv ⊢
        rw [hv, hd.2.1]
        unfold i32
        omega

/-- `parseInt` reads a decimal numeral: the value is the number written and
the pointer is left behind the digits. -/
theorem parseInt_decimal (n : Nat) (rest : List Char) (hn : (n : Int) < 2147483648)
    (hrest : isDigit (peek rest) = false) :
    parseInt (decimal n ++ rest) = (some rest, (n : Int)) := by
  obtain ⟨a1, ⟨d, tl, hd10, a2⟩, a3⟩ := decimalAux_spec (n + 1) n (by omega)
  have hd := digitChar_spec d hd10
  have hpk : peek (decimal n ++ rest) = digitChar d := by
    unfold decimal; rw [a2]; rfl
  unfold parseInt
  simp only [hpk, if_neg hd.2.2.1, if_neg hd.2.2.2, hd.1]
  have hneg : decide (digitChar d = '-') = false := by simp [hd.2.2.1]
  simp only [hneg, Bool.false_eq_true, if_false]
  unfold decimal
  rw [parseIntDigits_append _ rest 0 a1, parseIntDigits_of_not_digit rest _ hrest, a3 hn]
  simp

theorem parseInt_minus (t : List Char) (h : isDigit (peek t) = true) :
    parseInt ('-' :: t)
      = (some (parseIntDigits t 0).1, i32 ((parseIntDigits t 0).2 * -1)) := by
  unfold parseInt
  have hp1 : peek ('-' :: t) = '-' := rfl
  simp only [hp1, if_true, List.tail_cons, h, decide_True, Bool.true_eq_false, if_false]

/-- `parseInt` reads a signed decimal numeral. -/
theorem parseInt_decimalInt (x : Int) (rest : List Char)
    (hx : -2147483648 < x ∧ x < 2147483648) (hrest : isDigit (peek rest) = false) :
    parseInt (decimalInt x ++ rest) = (some rest, x) := by
  unfold decimalInt
  by_cases hneg : x < 0
  · rw [if_pos hneg]
    obtain ⟨a1, ⟨d, tl, hd10, a2⟩, a3⟩ := decimalAux_spec ((-x).toNat + 1) (-x).toNat (by omega)
    have hd := digitChar_spec d hd10
    have hpk : peek (decimal (-x).toNat ++ rest) = digitChar d := by
      unfold decimal; rw [a2]; rfl
    rw [List.cons_append, parseInt_minus _ (by rw [hpk]; exact hd.1)]
    unfold decimal
    rw [parseIntDigits_append _ rest 0 a1, parseIntDigits_of_not_digit rest _ hrest,
      a3 (by omega)]
    have e : i32 (((-x).toNat : Int) * -1) = x := by unfold i32; omega
    simp only [e]
  · rw [if_neg hneg]
    have h := parseInt_decimal x.toNat rest (by omega) hrest
    rw [h]
    congr 1
    omega

/-! ## DST rules -/

theorem parseDSTWeeks_eq (tw DSTday : Int) (h1 : 1 ≤ tw) (h2 : tw ≤ 5) :
    parseDSTWeeks tw.toNat tw DSTday = DSTday + 7 * (tw - 1) := by
  interval_cases tw <;> simp [parseDSTWeeks] <;> ring

theorem parseDSTTime_default (t : List Char) (h : peek t ≠ '/') :
    parseDSTTime t = some (t, 2, 0) := by
  unfold parseDSTTime
  rw [if_neg h]

theorem parseDST_of_rule_default (t u : List Char) (currYear DSTmonth DSTday : Int)
    (hr : parseDSTRule t currYear = some (u, DSTmonth, DSTday)) (h : peek u ≠ '/') :
    parseDST t currYear = some (u, ⟨currYear, DSTmonth, DSTday, 2, 0⟩) := by
  unfold parseDST
  rw [hr]
  simp only [parseDSTTime_default u h]
  rfl

/-- The day that the `M` rule of `parseDST` computes from the week `tw` and
the weekday `it`. -/
theorem parseDSTRule_M (t u1 u2 u3 : List Char) (y m w k : Int)
    (hm0 : 1 ≤ m) (hm1 : m ≤ 12) (hw0 : 1 ≤ w) (hw1 : w ≤ 5) (hk0 : 0 ≤ k) (hk1 : k ≤ 6)
    (hM : peek t = 'M') (h1 : parseInt t.tail = (some u1, m)) (hd1 : peek u1 = '.')
    (h2 : parseInt u1.tail = (some u2, w)) (hd2 : peek u2 = '.')
    (h3 : parseInt u2.tail = (some u3, k)) :
    parseDSTRule t y = some (u3, m,
      (if ((if (k + 1) - (if dayOfWeek 1 m y = 0 then 7 else dayOfWeek 1 m y) < 1
              then (k + 1) - (if dayOfWeek 1 m y = 0 then 7 else dayOfWeek 1 m y) + 7
              else (k + 1) - (if dayOfWeek 1 m y = 0 then 7 else dayOfWeek 1 m y))
            + 7 * (w - 1)) > daysInMonth m y
        then ((if (k + 1) - (if dayOfWeek 1 m y = 0 then 7 else dayOfWeek 1 m y) < 1
              then (k + 1) - (if dayOfWeek 1 m y = 0 then 7 else dayOfWeek 1 m y) + 7
              else (k + 1) - (if dayOfWeek 1 m y = 0 then 7 else dayOfWeek 1 m y))
            + 7 * (w - 1)) - 7
        else ((if (k + 1) - (if dayOfWeek 1 m y = 0 then 7 else dayOfWeek 1 m y) < 1
              then (k + 1) - (if dayOfWeek 1 m y = 0 then 7 else dayOfWeek 1 m y) + 7
              else (k + 1) - (if dayOfWeek 1 m y = 0 then 7 else dayOfWeek 1 m y))
            + 7 * (w - 1)))) := by
  unfold parseDSTRule
  have c1 : m ≥ 1 ∧ m ≤ 12 := ⟨hm0, hm1⟩
  have c2 : ¬ (w < 1 ∨ w > 5) := by omega
  have c3 : ¬ (k < 0 ∨ k > 6) := by omega
  have n1 : ¬ (peek u1 ≠ '.') := by simp [hd1]
  have n2 : ¬ (peek u2 ≠ '.') := by simp [hd2]
  simp only [hM, if_true, h1, c1, n1, if_false, h2, c2, n2, h3, c3, and_self,
    parseDSTWeeks_eq w _ hw0 hw1]

theorem parseDST_M_spec (t u1 u2 u3 : List Char) (y m w k : Int)
    (hy0 : 1 ≤ y) (hy1 : y ≤ 9999)
    (hm0 : 1 ≤ m) (hm1 : m ≤ 12) (hw0 : 1 ≤ w) (hw1 : w ≤ 5) (hk0 : 0 ≤ k) (hk1 : k ≤ 6)
    (hM : peek t = 'M') (h1 : parseInt t.tail = (some u1, m)) (hd1 : peek u1 = '.')
    (h2 : parseInt u1.tail = (some u2, w)) (hd2 : peek u2 = '.')
    (h3 : parseInt u2.tail = (some u3, k)) (hnt : peek u3 ≠ '/') :
    ∃ D, parseDST t y = some (u3, ⟨y, m, D, 2, 0⟩) ∧ 1 ≤ D ∧ D ≤ daysInMonth m y ∧
      dayOfWeek D m y = k ∧ (w ≤ 4 → 7 * (w - 1) < D ∧ D ≤ 7 * w) ∧
      (w = 5 → D + 7 > daysInMonth m y) := by
  have hr := parseDSTRule_M t u1 u2 u3 y m w k hm0 hm1 hw0 hw1 hk0 hk1 hM h1 hd1 h2 hd2 h3
  refine ⟨_, parseDST_of_rule_default t u3 y m _ hr hnt, ?_⟩
  have hdm := daysInMonth_bounds m y hm0 hm1
  have hv1 : ValidDateTime y m 1 0 0 := by
    unfold ValidDateTime; omega
  have hdow := dayOfWeek_eq y m 1 hv1
  have hD : ∀ D : Int, 1 ≤ D → D ≤ daysInMonth m y →
      dayOfWeek D m y = (daysBeforeYear y.toNat
        + mon_yday (if isLeapYear y then 1 else 0) (m - 1) + D - 1 + 6) % 7 := by
    intro D hD0 hD1
    exact dayOfWeek_eq y m D (by unfold ValidDateTime; omega)
  generalize daysBeforeYear y.toNat
    + mon_yday (if isLeapYear y then 1 else 0) (m - 1) = A at hdow hD
  generalize dayOfWeek 1 m y = dow at hdow ⊢
  generalize daysInMonth m y = dim at hdm hD ⊢
  have hdow' : 0 ≤ dow ∧ dow ≤ 6 := by omega
  by_cases hz : dow = 0
  · simp only [hz, if_true]
    by_cases hf : k + 1 - 7 < 1
    · simp only [hf, if_true]
      by_cases hc : k + 1 - 7 + 7 + 7 * (w - 1) > dim
      · simp only [hc, if_true]
        refine ⟨by omega, by omega, ?_, by omega, by omega⟩
        rw [hD _ (by omega) (by omega)]; omega
      · simp only [hc, if_false]
        refine ⟨by omega, by omega, ?_, by omega, by omega⟩
        rw [hD _ (by omega) (by omega)]; omega
    · omega
  · simp only [hz, if_false]
    by_cases hf : k + 1 - dow < 1
    · simp only [hf, if_true]
      by_cases hc : k + 1 - dow + 7 + 7 * (w - 1) > dim
      · simp only [hc, if_true]
        refine ⟨by omega, by omega, ?_, by omega, by omega⟩
        rw [hD _ (by omega) (by omega)]; omega
      · simp only [hc, if_false]
        refine ⟨by omega, by omega, ?_, by omega, by omega⟩
        rw [hD _ (by omega) (by omega)]; omega
    · simp only [hf, if_false]
      by_cases hc : k + 1 - dow + 7 * (w - 1) > dim
      · simp only [hc, if_true]
        refine ⟨by omega, by omega, ?_, by omega, by omega⟩
        rw [hD _ (by omega) (by omega)]; omega
      · simp only [hc, if_false]
        refine ⟨by omega, by omega, ?_, by omega, by omega⟩
        rw [hD _ (by omega) (by omega)]; omega

theorem monthDays_step (i : Int) (h0 : 0 ≤ i) (h1 : i ≤ 11) :
    tbl mon_yday0 (i + 1) = tbl mon_yday0 i + tbl monthDays i ∧ 28 ≤ tbl monthDays i ∧
    tbl mon_yday0 i ≤ 334 := by
  interval_cases i <;> decide

theorem parseDSTJulian_spec (fuel : Nat) : ∀ (i it : Int), 0 ≤ i → i ≤ 11 → 1 ≤ it →
    it + tbl mon_yday0 i ≤ 365 → it ≤ fuel →
    0 ≤ (parseDSTJulian fuel i it).1 ∧ (parseDSTJulian fuel i it).1 ≤ 11 ∧
    1 ≤ (parseDSTJulian fuel i it).2 ∧
    (parseDSTJulian fuel i it).2 ≤ tbl monthDays (parseDSTJulian fuel i it).1 ∧
    tbl mon_yday0 (parseDSTJulian fuel i it).1 + (parseDSTJulian fuel i it).2
      = tbl mon_yday0 i + it := by
  induction fuel with
  | zero => intro i it _ _ h1 _ hf; simp at hf; omega
  | succ f ih =>
    intro i it hi0 hi1 hit hsum hf
    obtain ⟨s1, s2, s3⟩ := monthDays_step i hi0 hi1
    rw [parseDSTJulian]
    by_cases hgt : it > tbl monthDays i
    · rw [if_pos hgt]
      have hi10 : i ≤ 10 := by
        by_contra hc
        have : i = 11 := by omega
        subst this
        have e1 : tbl mon_yday0 11 = 334 := by decide
        have e2 : tbl monthDays 11 = 31 := by decide
        omega
      have hf' : it - tbl monthDays i ≤ (f : Int) := by push_cast at hf; omega
      obtain ⟨a1, a2, a3, a4, a5⟩ := ih (i + 1) (it - tbl monthDays i) (by omega) (by omega)
        (by omega) (by omega) hf'
      exact ⟨a1, a2, a3, a4, by omega⟩
    · rw [if_neg hgt]
      exact ⟨hi0, hi1, hit, le_of_not_gt hgt, rfl⟩

theorem parseDSTYearDay_spec (y : Int) (fuel : Nat) : ∀ (m it : Int), 1 ≤ m → m ≤ 12 →
    1 ≤ it →
    it + mon_yday (if isLeapYear y then 1 else 0) (m - 1)
      ≤ 365 + (if isLeapYear y then 1 else 0) →
    it ≤ fuel →
    1 ≤ (parseDSTYearDay y fuel m it).1 ∧ (parseDSTYearDay y fuel m it).1 ≤ 12 ∧
    1 ≤ (parseDSTYearDay y fuel m it).2 ∧
    (parseDSTYearDay y fuel m it).2 ≤ daysInMonth (parseDSTYearDay y fuel m it).1 y ∧
    mon_yday (if isLeapYear y then 1 else 0) ((parseDSTYearDay y fuel m it).1 - 1)
        + (parseDSTYearDay y fuel m it).2
      = mon_yday (if isLeapYear y then 1 else 0) (m - 1) + it := by
  induction fuel with
  | zero => intro m it _ _ h1 _ hf; simp at hf; omega
  | succ f ih =>
    intro m it hm0 hm1 hit hsum hf
    have hs := mon_yday_succ m y hm0 hm1
    have hdm := daysInMonth_bounds m y hm0 hm1
    rw [parseDSTYearDay]
    by_cases hgt : it > daysInMonth m y
    · rw [if_pos hgt]
      have hm11 : m ≤ 11 := by
        by_contra hc
        have : m = 12 := by omega
        subst this
        have e1 : mon_yday (if isLeapYear y then 1 else 0) 12
            = 365 + (if isLeapYear y then 1 else 0) := by
          cases isLeapYear y <;> decide
        omega
      have hf' : it - daysInMonth m y ≤ (f : Int) := by push_cast at hf; omega
      have e : m + 1 - 1 = m := by ring
      obtain ⟨a1, a2, a3, a4, a5⟩ := ih (m + 1) (it - daysInMonth m y) (by omega) (by omega)
        (by omega) (by rw [e]; omega) hf'
      rw [e] at a5
      exact ⟨a1, a2, a3, a4, by omega⟩
    · rw [if_neg hgt]
      exact ⟨hm0, hm1, hit, le_of_not_gt hgt, rfl⟩

theorem parseDSTRule_J (t u : List Char) (y n : Int) (hJ : peek t = 'J')
    (h1 : parseInt t.tail = (some u, n)) (hn0 : 1 ≤ n) (hn1 : n ≤ 365) :
    ∃ mo d, parseDSTRule t y = some (u, mo, d) ∧ 1 ≤ mo ∧ mo ≤ 12 ∧ 1 ≤ d ∧
      d ≤ tbl monthDays (mo - 1) ∧ mon_yday 0 (mo - 1) + d = n := by
  have hM : ¬ peek t = 'M' := by rw [hJ]; decide
  have hr : ¬ (n < 1 ∨ n > 365) := by omega
  have hf : n ≤ (n.toNat : Int) := by omega
  have e0 : tbl mon_yday0 0 = 0 := by decide
  obtain ⟨a1, a2, a3, a4, a5⟩ := parseDSTJulian_spec n.toNat 0 n (le_refl _) (by omega) hn0
    (by omega) hf
  refine ⟨(parseDSTJulian n.toNat 0 n).1 + 1, (parseDSTJulian n.toNat 0 n).2, ?_, by omega,
    by omega, a3, ?_, ?_⟩
  · unfold parseDSTRule
    rw [if_neg hM, if_pos hJ]
    simp only [h1, if_neg hr]
  · have e : (parseDSTJulian n.toNat 0 n).1 + 1 - 1 = (parseDSTJulian n.toNat 0 n).1 := by ring
    rw [e]; exact a4
  · have e : (parseDSTJulian n.toNat 0 n).1 + 1 - 1 = (parseDSTJulian n.toNat 0 n).1 := by ring
    rw [e]
    have e2 : mon_yday 0 (parseDSTJulian n.toNat 0 n).1
        = tbl mon_yday0 (parseDSTJulian n.toNat 0 n).1 := by
      unfold mon_yday; rw [if_pos rfl]
    rw [e2]; omega

theorem parseDSTRule_yearDay (t u : List Char) (y n : Int) (hdig : isDigit (peek t) = true)
    (h1 : parseInt t = (some u, n)) (hn0 : 0 ≤ n) (hn1 : n ≤ 365)
    (hleap : n = 365 → isLeapYear y = true) :
    ∃ mo d, parseDSTRule t y = some (u, mo, d) ∧ 1 ≤ mo ∧ mo ≤ 12 ∧ 1 ≤ d ∧
      d ≤ daysInMonth mo y ∧
      mon_yday (if isLeapYear y then 1 else 0) (mo - 1) + d - 1 = n := by
  have hM : ¬ peek t = 'M' := by
    intro h; rw [h] at hdig; exact absurd hdig (by decide)
  have hJ : ¬ peek t = 'J' := by
    intro h; rw [h] at hdig; exact absurd hdig (by decide)
  have hr : ¬ (n < 0 ∨ n > 365) := by omega
  have hr2 : ¬ (n > 364 ∧ isLeapYear y = false) := by
    intro ⟨h364, hl⟩
    have := hleap (by omega)
    rw [this] at hl; exact absurd hl (by decide)
  have hf : n + 1 ≤ ((n + 1).toNat : Int) := by omega
  have e0 : mon_yday (if isLeapYear y then 1 else 0) (1 - 1) = 0 := by
    cases isLeapYear y <;> decide
  have hb : n + 1 + mon_yday (if isLeapYear y then 1 else 0) (1 - 1)
      ≤ 365 + (if isLeapYear y then 1 else 0) := by
    rw [e0]
    by_cases h365 : n = 365
    · rw [hleap h365]; simp; omega
    · have : (0 : Int) ≤ (if isLeapYear y then 1 else 0) := by
        cases isLeapYear y <;> simp
      omega
  obtain ⟨a1, a2, a3, a4, a5⟩ := parseDSTYearDay_spec y (n + 1).toNat 1 (n + 1) (le_refl _)
    (by omega) (by omega) hb hf
  refine ⟨_, _, ?_, a1, a2, a3, a4, ?_⟩
  · unfold parseDSTRule
    rw [if_neg hM, if_neg hJ, if_pos hdig]
    simp only [h1, if_neg hr, if_neg hr2]
  · rw [a5, e0]; ring

/-! ## Validity of the TZ string -/

theorem strchr_spec (ch : Char) : ∀ t : List Char,
    (strchr t ch = none ∧ t.count ch = 0) ∨
    (∃ u, strchr t ch = some (ch :: u) ∧ t.count ch = u.count ch + 1 ∧
      u.length < t.length) := by
  intro t
  induction t with
  | nil => left; exact ⟨rfl, rfl⟩
  | cons c cs ih =>
    by_cases h : c = ch
    · right
      subst h
      refine ⟨cs, ?_, ?_, ?_⟩
      · simp [strchr]
      · simp
      · simp
    · rcases ih with ⟨h1, h2⟩ | ⟨u, h1, h2, h3⟩
      · left
        refine ⟨?_, ?_⟩
        · simp [strchr, h, h1]
        · rw [List.count_cons_of_ne (Ne.symm h)]; exact h2
      · right
        refine ⟨u, ?_, ?_, ?_⟩
        · simp [strchr, h, h1]
        · rw [List.count_cons_of_ne (Ne.symm h)]; exact h2
        · simp; omega

theorem parseTZCount_eq (ch : Char) (fuel : Nat) : ∀ (t : List Char) (n : Int),
    t.length ≤ fuel → parseTZCount ch fuel t n = n + (t.count ch : Nat) := by
  induction fuel with
  | zero =>
    intro t n h
    have : t = [] := List.length_eq_zero.mp (by omega)
    subst this
    simp [parseTZCount]
  | succ f ih =>
    intro t n h
    rw [parseTZCount]
    rcases strchr_spec ch t with ⟨h1, h2⟩ | ⟨u, h1, h2, h3⟩
    · rw [h1, h2]; simp
    · rw [h1]
      simp only [List.tail_cons]
      rw [ih u (n + 1) (by omega), h2]
      push_cast; ring

theorem peek_cstr (buf : List Char) (h : cstr buf ≠ []) : peek (cstr buf) ≠ NUL := by
  cases buf with
  | nil => exact absurd rfl h
  | cons c cs =>
    by_cases hc : c = NUL
    · exfalso; apply h; simp [cstr, hc]
    · have e : cstr (c :: cs) = c :: cstr cs := by simp [cstr, hc]
      rw [e]; exact hc

theorem TZState.tz_setSlot (st : TZState) (index i : Int) (s : TZSlot) :
    (st.setSlot index s).tz i = st.tz i := by
  have h : (st.setSlot index s).timeZone = st.timeZone ∧
      (st.setSlot index s).timeZoneDest = st.timeZoneDest ∧
      (st.setSlot index s).timeZoneDep = st.timeZoneDep := by
    unfold TZState.setSlot
    by_cases h0 : index = 0
    · simp [h0]
    · by_cases h1 : index = 1
      · simp [h1]
      · simp [h0, h1]
  unfold TZState.tz
  rw [h.1, h.2.1, h.2.2]

theorem parseTZSlot_unbalanced (tz : List Char) (currYear : Int) (doparseDST : Bool)
    (hne : peek tz ≠ NUL) (hcount : tz.count '<' ≠ tz.count '>') :
    ∃ s, parseTZSlot tz currYear doparseDST TZSlot.initial = some (false, s) ∧
      s.tzIsValid = 0 := by
  have hc : parseTZCount '>' tz.length tz 0 ≠ parseTZCount '<' tz.length tz 0 := by
    rw [parseTZCount_eq _ _ _ _ (le_refl _), parseTZCount_eq _ _ _ _ (le_refl _)]
    intro h
    apply hcount
    have : ((tz.count '>' : Nat) : Int) = ((tz.count '<' : Nat) : Int) := by omega
    exact (Int.ofNat_inj.mp this).symm
  have hv1 : ¬ ((-1 : Int) < 1 ∧ (-1 : Int) = 0) := by decide
  have hv2 : decide ((-1 : Int) < 1) = true := by decide
  simp only [parseTZSlot, TZSlot.initial, if_neg hne, if_true, hv1, hv2, if_false, ne_eq, hc,
    not_false_eq_true, and_self]
  exact ⟨_, rfl, rfl⟩

theorem parseTZSlot_sticky (tz : List Char) (currYear : Int) (doparseDST : Bool) (s : TZSlot)
    (hne : peek tz ≠ NUL) (hinv : s.tzIsValid = 0) :
    ∃ s1, parseTZSlot tz currYear doparseDST s = some (false, s1) ∧ s1.tzIsValid = 0 := by
  unfold parseTZSlot
  by_cases hp : s.tzDSTpart = none
  · simp only [hp, if_true, if_neg hne, hinv]
    exact ⟨_, rfl, rfl⟩
  · simp only [hp, if_false, if_neg hne, hinv]
    exact ⟨_, rfl, rfl⟩

theorem parseTZ_sticky (index currYear : Int) (doparseDST : Bool) (st : TZState)
    (buf : List Char) (hbuf : st.tz index = some buf) (hne : cstr buf ≠ [])
    (hinv : (st.slot index).tzIsValid = 0) :
    ∃ st1, parseTZ index currYear doparseDST st = some (false, st1) ∧
      st1.tz index = some buf ∧ (st1.slot index).tzIsValid = 0 := by
  obtain ⟨s1, h1, h2⟩ := parseTZSlot_sticky (cstr buf) currYear doparseDST (st.slot index)
    (peek_cstr buf hne) hinv
  have h := parseTZ_of_tz index currYear doparseDST st buf hbuf
  rw [h1] at h
  refine ⟨_, h, ?_, ?_⟩
  · rw [TZState.tz_setSlot]; exact hbuf
  · rw [TZState.slot_setSlot]; exact h2

theorem parseTZCalls_sticky (index : Int) (buf : List Char) (hne : cstr buf ≠ [])
    (calls : List (Int × Bool)) : ∀ st : TZState, st.tz index = some buf →
    (st.slot index).tzIsValid = 0 →
    ∃ st2, parseTZCalls index calls st = some (List.replicate calls.length false, st2) := by
  induction calls with
  | nil => intro st _ _; exact ⟨st, rfl⟩
  | cons c cs ih =>
    intro st hbuf hinv
    obtain ⟨y, b⟩ := c
    obtain ⟨st1, h1, h2, h3⟩ := parseTZ_sticky index y b st buf hbuf hne hinv
    obtain ⟨st2, h4⟩ := ih st1 h2 h3
    refine ⟨st2, ?_⟩
    simp only [parseTZCalls, h1, h4, List.length_cons, List.replicate_succ]

theorem parseTZ_preserves_tz (index currYear : Int) (doparseDST : Bool) (st st1 : TZState)
    (b : Bool) (h : parseTZ index currYear doparseDST st = some (b, st1)) :
    st1.tz index = st.tz index := by
  unfold parseTZ at h
  cases htz : st.tz index with
  | none =>
    rw [htz] at h
    simp only [Option.some.injEq, Prod.mk.injEq] at h
    rw [← h.2, htz]
  | some buf =>
    rw [htz] at h
    simp only at h
    cases hs : parseTZSlot (cstr buf) currYear doparseDST (st.slot index) with
    | none => rw [hs] at h; cases h
    | some r =>
      rw [hs] at h
      simp only [Option.some.injEq, Prod.mk.injEq] at h
      rw [← h.2, TZState.tz_setSlot, htz]

/-! ## A bad DST part -/

theorem peek_comma (r : List Char) :
    ¬ (peek (',' :: r) = NUL ∨ peek (',' :: r) ≠ ',') := by
  simp only [peek, List.headD_cons]; decide

theorem parseTZRules_malformed (r1 : List Char) (currYear : Int) (s : TZSlot)
    (hhas : s.tzHasDST ≠ 0) (hbad : RulesMalformed currYear r1) :
    parseTZRules (',' :: r1) currYear true s
      = (false, { s with tzForYear := currYear, tzHasDST := 0 }) := by
  unfold parseTZRules
  have hd : ¬ (s.tzHasDST = 0 ∨ true = false) := by simp [hhas]
  rw [if_neg hd, if_neg (peek_comma r1)]
  simp only [List.tail_cons]
  rcases hbad with h | ⟨u, dOn, h, hu⟩
  · simp only [h]
  · simp only [h]
    rcases hu with hu | ⟨r2, rfl, h2⟩
    · have : peek u = NUL ∨ peek u ≠ ',' := Or.inr hu
      rw [if_pos this]
    · rw [if_neg (peek_comma r2)]
      simp only [List.tail_cons, h2]

theorem parseTZSlot_badDST (tz t1 r1 : List Char) (currYear diffNorm diff : Int)
    (hbal : parseTZCount '>' tz.length tz 0 = parseTZCount '<' tz.length tz 0)
    (hnorm : parseTZNorm tz = Flow.next (t1, diffNorm))
    (hdiff : parseTZDiff t1 diffNorm = Flow.next (',' :: r1, diff))
    (hbad : RulesMalformed currYear r1) :
    ∃ s1, parseTZSlot tz currYear true TZSlot.initial = some (false, s1) ∧
      DSTIgnored s1 diffNorm (diffNorm - diff) diff := by
  have hne : ¬ peek tz = NUL := by
    intro h
    rw [parseTZNorm_of_peek_NUL tz h] at hnorm
    cases hnorm
  have hv1 : ¬ ((-1 : Int) < 1 ∧ (-1 : Int) = 0) := by decide
  have hv2 : decide ((-1 : Int) < 1) = true := by decide
  simp only [parseTZSlot, TZSlot.initial, if_neg hne, if_true, hnorm, hdiff, hbal, hv1, hv2,
    if_false, ne_eq, not_true_eq_false, and_false]
  rw [parseTZRules_malformed r1 currYear _ (by simp) hbad]
  refine ⟨_, rfl, ?_⟩
  unfold DSTIgnored
  simp

theorem parseTZSlot_ignoreDST (tz : List Char) (currYear : Int) (doparseDST : Bool)
    (s : TZSlot) (a b c : Int) (hne : peek tz ≠ NUL) (hs : DSTIgnored s a b c) :
    ∃ s1, parseTZSlot tz currYear doparseDST s = some (true, s1) ∧ DSTIgnored s1 a b c := by
  obtain ⟨h1, h2, h3, h4, h5, h6, h7⟩ := hs
  obtain ⟨t, ht⟩ := Option.ne_none_iff_exists'.mp h2
  have hv1 : ¬ ((1 : Int) < 1 ∧ (1 : Int) = 0) := by decide
  have hv2 : decide ((1 : Int) < 1) = false := by decide
  have hp : ¬ (some t = (none : Option (List Char))) := by simp
  simp only [parseTZSlot, ht, if_neg hp, if_neg hne, h1, hv1, hv2, Bool.false_eq_true,
    if_false, false_and, parseTZRules, h3, true_or, if_true]
  refine ⟨_, rfl, ?_⟩
  unfold DSTIgnored
  simp [h5, h6, h7]

theorem parseTZCalls_ignoreDST (index : Int) (buf : List Char) (a b c : Int)
    (hne : cstr buf ≠ []) (calls : List (Int × Bool)) : ∀ st : TZState,
    st.tz index = some buf → DSTIgnored (st.slot index) a b c →
    ∃ st2, parseTZCalls index calls st = some (List.replicate calls.length true, st2) ∧
      DSTIgnored (st2.slot index) a b c := by
  induction calls with
  | nil => intro st _ h; exact ⟨st, rfl, h⟩
  | cons cl cs ih =>
    intro st hbuf hinv
    obtain ⟨y, bb⟩ := cl
    obtain ⟨s1, h1, h2⟩ := parseTZSlot_ignoreDST (cstr buf) y bb (st.slot index) a b c
      (peek_cstr buf hne) hinv
    have h := parseTZ_of_tz index y bb st buf hbuf
    rw [h1] at h
    obtain ⟨st2, h4, h5⟩ := ih (st.setSlot index s1)
      (by rw [TZState.tz_setSlot]; exact hbuf) (by rw [TZState.slot_setSlot]; exact h2)
    refine ⟨st2, ?_, h5⟩
    simp only [parseTZCalls, h, h4, List.length_cons, List.replicate_succ]

/-! ## DST evaluation -/

theorem timeIsDST_spec (index year month day hour mins : Int) (st : TZState) :
    (timeIsDST index year month day hour mins st).2 = mins2Date year month day hour mins ∧
    ((timeIsDST index year month day hour mins st).1 = 0 ∨
      (timeIsDST index year month day hour mins st).1 = 1) ∧
    ((st.slot index).DSTonMins < (st.slot index).DSToffMins →
      ((timeIsDST index year month day hour mins st).1 = 1 ↔
        (st.slot index).DSTonMins ≤ mins2Date year month day hour mins ∧
        mins2Date year month day hour mins < (st.slot index).DSToffMins)) ∧
    (¬ (st.slot index).DSTonMins < (st.slot index).DSToffMins →
      ((timeIsDST index year month day hour mins st).1 = 0 ↔
        (st.slot index).DSToffMins ≤ mins2Date year month day hour mins ∧
        mins2Date year month day hour mins < (st.slot index).DSTonMins)) := by
  unfold timeIsDST
  simp only []
  split_ifs with h h2 h2
  · exact ⟨rfl, Or.inr rfl, fun _ => ⟨fun _ => h2, fun _ => rfl⟩, fun hc => absurd h hc⟩
  · refine ⟨rfl, Or.inl rfl, fun _ => ⟨fun hc => ?_, fun hc => absurd hc h2⟩,
      fun hc => absurd h hc⟩
    have hc' : (0 : Int) = 1 := hc
    exact absurd hc' (by decide)
  · exact ⟨rfl, Or.inl rfl, fun hc => absurd hc h, fun _ => ⟨fun _ => h2, fun _ => rfl⟩⟩
  · refine ⟨rfl, Or.inr rfl, fun hc => absurd hc h,
      fun _ => ⟨fun hc => ?_, fun hc => absurd hc h2⟩⟩
    have hc' : (1 : Int) = 0 := hc
    exact absurd hc' (by decide)

/-! ## `minsToDate` on every minute count of the years 0..9999 -/

theorem exists_year (k : Nat) : ∀ q : Int, 0 ≤ q → q < daysBeforeYear k →
    ∃ n : Nat, n < k ∧ daysBeforeYear n ≤ q ∧ q < daysBeforeYear (n + 1) := by
  induction k with
  | zero => intro q h0 h1; simp only [daysBeforeYear] at h1; omega
  | succ k ih =>
    intro q h0 h1
    by_cases h : q < daysBeforeYear k
    · obtain ⟨n, a, b, c⟩ := ih q h0 h
      exact ⟨n, by omega, b, c⟩
    · exact ⟨k, by omega, by omega, h1⟩

theorem exists_month (l doy : Int) (hl : l = 0 ∨ l = 1) (k : Nat) : k ≤ 12 →
    0 ≤ doy → doy < mon_yday l k →
    ∃ m : Int, 1 ≤ m ∧ m ≤ k ∧ mon_yday l (m - 1) ≤ doy ∧ doy < mon_yday l m := by
  induction k with
  | zero =>
    intro _ h0 h1
    have e : mon_yday l ((0 : Nat) : Int) = 0 := by rcases hl with rfl | rfl <;> decide
    rw [e] at h1; omega
  | succ k ih =>
    intro hk h0 h1
    by_cases h : doy < mon_yday l k
    · obtain ⟨m, a, b, c, d⟩ := ih (by omega) h0 h
      exact ⟨m, a, by push_cast; omega, c, d⟩
    · refine ⟨((k + 1 : Nat) : Int), by push_cast; omega, le_refl _, ?_, h1⟩
      have e : ((k + 1 : Nat) : Int) - 1 = (k : Int) := by push_cast; ring
      rw [e]; omega

theorem dateToMins_surj (M : Int) (h0 : 0 ≤ M) (h1 : M ≤ 5259491999) :
    ∃ y m d h mi, ValidDateTime y m d h mi ∧ dateToMins y m d h mi = M := by
  have hD : daysBeforeYear 10000 = 3652425 := by
    rw [daysBeforeYear_closed]; norm_num
  obtain ⟨n, hn, hq0, hq1⟩ := exists_year 10000 (M / 1440) (by omega) (by omega)
  have hl : (if isLeapYear (n : Int) then (1 : Int) else 0) = 0 ∨
      (if isLeapYear (n : Int) then (1 : Int) else 0) = 1 := by
    cases isLeapYear (n : Int) <;> simp
  have hstep : daysBeforeYear (n + 1) - daysBeforeYear n
      = 365 + (if isLeapYear (n : Int) then (1 : Int) else 0) := by
    rw [daysBeforeYear]; cases isLeapYear (n : Int) <;> simp
  have e12 : mon_yday (if isLeapYear (n : Int) then 1 else 0) ((12 : Nat) : Int)
      = 365 + (if isLeapYear (n : Int) then (1 : Int) else 0) := by
    cases isLeapYear (n : Int) <;> decide
  obtain ⟨m, hm0, hm1, hm2, hm3⟩ := exists_month _ (M / 1440 - daysBeforeYear n) hl 12
    (le_refl _) (by omega) (by rw [e12]; omega)
  have hm1' : m ≤ 12 := by exact_mod_cast hm1
  have hsucc := mon_yday_succ m n hm0 hm1'
  have hv : ValidDateTime (n : Int) m
      (M / 1440 - daysBeforeYear n - mon_yday (if isLeapYear (n : Int) then 1 else 0) (m - 1)
        + 1) (M % 1440 / 60) (M % 1440 % 60) := by
    unfold ValidDateTime
    refine ⟨by omega, by omega, hm0, hm1', by omega, by omega, by omega, by omega, by omega,
      by omega⟩
  refine ⟨_, _, _, _, _, hv, ?_⟩
  rw [dateToMins_eq _ _ _ _ _ hv, Int.toNat_ofNat]
  omega

theorem minsToDate_inRange (M : Int) (h0 : 0 ≤ M) (h1 : M ≤ 5259491999) :
    ∃ y m d h mi, minsToDate M = some (y, m, d, h, mi) ∧ ValidDateTime y m d h mi ∧
      dateToMins y m d h mi = M := by
  obtain ⟨y, m, d, h, mi, hv, he⟩ := dateToMins_surj M h0 h1
  refine ⟨y, m, d, h, mi, ?_, hv, he⟩
  rw [← he]
  exact minsToDate_dateToMins y m d h mi hv

/-! ## `localToDST` -/

theorem localToDST_spec (index year month day hour minute isDST : Int) (st : TZState) :
    ((st.slot index).couldDST = false →
      localToDST index year month day hour minute isDST st
        = some (year, month, day, hour, minute, isDST)) ∧
    ((st.slot index).couldDST = true →
      ¬ (if (st.slot index).DSTonMins < (st.slot index).DSToffMins
          then (st.slot index).DSTonMins ≤ mins2Date year month day hour minute ∧
            mins2Date year month day hour minute
              < (st.slot index).DSToffMins - (st.slot index).tzDiff
          else ¬ ((st.slot index).DSToffMins - (st.slot index).tzDiff
              ≤ mins2Date year month day hour minute ∧
            mins2Date year month day hour minute < (st.slot index).DSTonMins)) →
      localToDST index year month day hour minute isDST st
        = some (year, month, day, hour, minute, 0)) ∧
    ((st.slot index).couldDST = true →
      (if (st.slot index).DSTonMins < (st.slot index).DSToffMins
          then (st.slot index).DSTonMins ≤ mins2Date year month day hour minute ∧
            mins2Date year month day hour minute
              < (st.slot index).DSToffMins - (st.slot index).tzDiff
          else ¬ ((st.slot index).DSToffMins - (st.slot index).tzDiff
              ≤ mins2Date year month day hour minute ∧
            mins2Date year month day hour minute < (st.slot index).DSTonMins)) →
      0 ≤ dateToMins year month day hour minute + (st.slot index).tzDiff →
      dateToMins year month day hour minute + (st.slot index).tzDiff ≤ 5259491999 →
      ∃ y m d h mi, localToDST index year month day hour minute isDST st
          = some (y, m, d, h, mi, 1) ∧ ValidDateTime y m d h mi ∧
        dateToMins y m d h mi
          = dateToMins year month day hour minute + (st.slot index).tzDiff) := by
  refine ⟨?_, ?_, ?_⟩
  · intro hc
    unfold localToDST
    simp only [hc, Bool.false_eq_true, if_false]
  · intro hc hn
    unfold localToDST
    simp only [hc, if_true]
    split_ifs at hn ⊢ with h1 h2 h3 h4 h5 <;> first | rfl | (exfalso; simp_all)
  · intro hc hin hlo hhi
    obtain ⟨y, m, d, h, mi, hm, hv, he⟩ := minsToDate_inRange _ hlo hhi
    have hu : u64 (dateToMins year month day hour minute + (st.slot index).tzDiff)
        = dateToMins year month day hour minute + (st.slot index).tzDiff := by
      unfold u64; omega
    refine ⟨y, m, d, h, mi, ?_, hv, he⟩
    unfold localToDST
    simp only [hc, if_true, hu, hm]
    split_ifs at hin ⊢ with h1 h2 h3 h4 h5 <;> first | rfl | (exfalso; simp_all)

/-! ## Numbers out of range -/

theorem isDigit_toNat (c : Char) (h : isDigit c = true) : 48 ≤ c.toNat ∧ c.toNat ≤ 57 := by
  unfold isDigit at h
  rw [decide_eq_true_iff] at h
  obtain ⟨h1, h2⟩ := h
  rw [Char.le_def] at h1 h2
  have e1 : ('0' : Char).val.toNat = 48 := by decide
  have e2 : ('9' : Char).val.toNat = 57 := by decide
  have g1 : ('0' : Char).val.toNat ≤ c.val.toNat := h1
  have g2 : c.val.toNat ≤ ('9' : Char).val.toNat := h2
  rw [e1] at g1
  rw [e2] at g2
  exact ⟨g1, g2⟩

theorem writtenDigits_ge : ∀ (t : List Char) (a : Nat), a ≤ writtenDigits t a := by
  intro t
  induction t with
  | nil => intro a; exact le_refl _
  | cons c cs ih =>
    intro a
    unfold writtenDigits
    split_ifs with hd
    · have := ih (a * 10 + (c.toNat - 48))
      omega
    · exact le_refl _

theorem parseIntDigits_written : ∀ (t : List Char) (a : Nat),
    writtenDigits t a ≤ 2147483647 →
    (parseIntDigits t (a : Int)).2 = (writtenDigits t a : Int) := by
  intro t
  induction t with
  | nil => intro a _; rfl
  | cons c cs ih =>
    intro a hb
    unfold parseIntDigits writtenDigits
    unfold writtenDigits at hb
    by_cases hd : isDigit c = true
    · rw [if_pos hd] at hb ⊢
      rw [if_pos hd]
      have hge := writtenDigits_ge cs (a * 10 + (c.toNat - 48))
      obtain ⟨c1, c2⟩ := isDigit_toNat c hd
      have e : i32 (i32 ((a : Int) * 10) + ((c.toNat : Int) - 48))
          = ((a * 10 + (c.toNat - 48) : Nat) : Int) := by
        unfold i32
        omega
      rw [e]
      exact ih _ hb
    · rw [if_neg hd] at hb ⊢
      rw [if_neg hd]

theorem parseInt_written (t : List Char) (x : Int) (hw : writtenInt t = some x)
    (hf : FitsInt x) : (parseInt t).2 = x := by
  obtain ⟨hf1, hf2⟩ := hf
  unfold writtenInt at hw
  unfold parseInt
  simp only []
  by_cases hd : isDigit (peek (if peek t = '-' then t.tail
      else if peek t = '+' then t.tail else t)) = false
  · rw [if_pos hd] at hw
    cases hw
  · rw [if_neg hd] at hw
    rw [if_neg hd]
    by_cases hm : peek t = '-'
    · rw [if_pos hm] at hw
      injection hw with hw
      simp only [hm, if_true, decide_True]
      have hb : writtenDigits t.tail 0 ≤ 2147483647 := by omega
      have hp := parseIntDigits_written t.tail 0 hb
      have hp' : (parseIntDigits t.tail 0).2 = (writtenDigits t.tail 0 : Int) := hp
      rw [hp']
      unfold i32
      omega
    · rw [if_neg hm] at hw
      by_cases hpl : peek t = '+'
      · rw [if_pos hpl] at hw
        injection hw with hw
        simp only [hm, if_false, hpl, if_true, decide_False]
        have hb : writtenDigits t.tail 0 ≤ 2147483647 := by omega
        have hp : (parseIntDigits t.tail 0).2 = (writtenDigits t.tail 0 : Int) :=
          parseIntDigits_written t.tail 0 hb
        simp [hp, hw]
      · rw [if_neg hpl] at hw
        injection hw with hw
        simp only [hm, if_false, hpl, decide_False]
        have hb : writtenDigits t 0 ≤ 2147483647 := by omega
        have hp : (parseIntDigits t 0).2 = (writtenDigits t 0 : Int) :=
          parseIntDigits_written t 0 hb
        simp [hp, hw]

theorem parseInt_of_not_start (t : List Char) (h1 : peek t ≠ '-') (h2 : peek t ≠ '+')
    (h3 : isDigit (peek t) = false) : parseInt t = (none, 0) := by
  unfold parseInt
  simp only [if_neg h1, if_neg h2, h3, if_true]

theorem parseTZNorm_stdHours (tz t0 : List Char) (h0 : stdOffsetStart tz = some t0)
    (hr : (parseInt t0).2 < -24 ∨ 24 < (parseInt t0).2) :
    parseTZNorm tz = Flow.retFalse := by
  have hr' : ¬ ((parseInt t0).2 ≥ -24 ∧ (parseInt t0).2 ≤ 24) := by omega
  unfold parseTZNorm
  simp only []
  generalize hsk : ite (peek tz = '<') _ _ = sk
  have hsk' : sk = some t0 := by rw [← hsk]; exact h0
  subst hsk'
  simp only [if_neg hr']
  split_ifs <;> rfl

theorem parseTZNorm_stdMinutes (tz t0 u : List Char) (h : Int)
    (h0 : stdOffsetStart tz = some t0) (hp : parseInt t0 = (some u, h)) (hc : peek u = ':')
    (hr : (parseInt u.tail).2 < 0 ∨ 59 < (parseInt u.tail).2) :
    parseTZNorm tz = Flow.retFalse := by
  have hr' : ¬ ((parseInt u.tail).2 ≥ 0 ∧ (parseInt u.tail).2 ≤ 59) := by omega
  unfold parseTZNorm
  simp only []
  generalize hsk : ite (peek tz = '<') _ _ = sk
  have hsk' : sk = some t0 := by rw [← hsk]; exact h0
  subst hsk'
  cases hq : parseInt u.tail with
  | mk p v =>
    rw [hq] at hr'
    cases p with
    | none => simp only [hp, hc, if_true, hq]; split_ifs <;> rfl
    | some u2 => simp only [hp, hc, if_true, hq, if_neg hr']; split_ifs <;> rfl

theorem parseTZDiff_dstHours (t1 t2 : List Char) (diffNorm : Int)
    (h0 : dstOffsetStart t1 = some t2)
    (hr : (parseInt t2).2 < -24 ∨ 24 < (parseInt t2).2) :
    parseTZDiff t1 diffNorm = Flow.retFalse := by
  have hr' : ¬ ((parseInt t2).2 ≥ -24 ∧ (parseInt t2).2 ≤ 24) := by omega
  have hstart : ¬ (peek t2 ≠ '-' ∧ peek t2 ≠ '+' ∧ isDigit (peek t2) = false) := by
    intro ⟨a, b, c⟩
    rw [parseInt_of_not_start t2 a b c] at hr
    simp at hr
  have hnul : ¬ peek t2 = NUL := by
    intro hn
    apply hstart
    rw [hn]; decide
  unfold parseTZDiff
  simp only []
  generalize hsk : ite (peek t1 = '<') _ _ = sk
  have hsk' : sk = some t2 := by rw [← hsk]; exact h0
  subst hsk'
  simp only [if_neg hnul, if_neg hstart, if_neg hr']

theorem parseTZDiff_dstMinutes (t1 t2 u : List Char) (diffNorm h : Int)
    (h0 : dstOffsetStart t1 = some t2) (hp : parseInt t2 = (some u, h)) (hc : peek u = ':')
    (hr : (parseInt u.tail).2 < 0 ∨ 59 < (parseInt u.tail).2) :
    parseTZDiff t1 diffNorm = Flow.retFalse := by
  have hr' : ¬ ((parseInt u.tail).2 ≥ 0 ∧ (parseInt u.tail).2 ≤ 59) := by omega
  have hstart : ¬ (peek t2 ≠ '-' ∧ peek t2 ≠ '+' ∧ isDigit (peek t2) = false) := by
    intro ⟨a, b, c⟩
    rw [parseInt_of_not_start t2 a b c] at hp
    cases hp
  have hnul : ¬ peek t2 = NUL := by
    intro hn
    apply hstart
    rw [hn]; decide
  unfold parseTZDiff
  simp only []
  generalize hsk : ite (peek t1 = '<') _ _ = sk
  have hsk' : sk = some t2 := by rw [← hsk]; exact h0
  subst hsk'
  cases hq : parseInt u.tail with
  | mk p v =>
    rw [hq] at hr'
    cases p with
    | none => simp only [if_neg hnul, if_neg hstart, hp, hc, if_true, hq]; split_ifs <;> rfl
    | some u2 =>
      simp only [if_neg hnul, if_neg hstart, hp, hc, if_true, hq, if_neg hr']
      split_ifs <;> rfl

theorem stdOffsetStart_of_peek_NUL (tz : List Char) (h : peek tz = NUL) :
    stdOffsetStart tz = some tz ∧ parseInt tz = (none, 0) := by
  cases tz with
  | nil => exact ⟨rfl, rfl⟩
  | cons c cs =>
    have hc : c = NUL := h
    subst hc
    exact ⟨rfl, rfl⟩

theorem OffsetOutOfRange.peek_ne (tz : List Char) (h : OffsetOutOfRange tz) :
    ¬ peek tz = NUL := by
  intro hn
  obtain ⟨e1, e2⟩ := stdOffsetStart_of_peek_NUL tz hn
  cases h with
  | stdHours h0 hw hf hr =>
    rw [e1] at h0; cases h0
    have hv := parseInt_written _ _ hw hf
    rw [e2] at hv
    have hv' : (0 : Int) = _ := hv
    omega
  | stdMinutes h0 hp _ _ _ _ =>
    rw [e1] at h0; cases h0
    rw [e2] at hp; cases hp
  | dstHours hnorm _ _ _ _ => rw [parseTZNorm_of_peek_NUL tz hn] at hnorm; cases hnorm
  | dstMinutes hnorm _ _ _ _ _ _ => rw [parseTZNorm_of_peek_NUL tz hn] at hnorm; cases hnorm

theorem parseTZSlot_offsetOutOfRange (tz : List Char) (currYear : Int) (doparseDST : Bool)
    (h : OffsetOutOfRange tz) :
    ∃ s, parseTZSlot tz currYear doparseDST TZSlot.initial = some (false, s) := by
  have hne := OffsetOutOfRange.peek_ne tz h
  have hv1 : ¬ ((-1 : Int) < 1 ∧ (-1 : Int) = 0) := by decide
  have hv2 : decide ((-1 : Int) < 1) = true := by decide
  simp only [parseTZSlot, TZSlot.initial, if_neg hne, if_true, hv1, hv2, if_false, true_and]
  split_ifs with hb
  · exact ⟨_, rfl⟩
  · cases h with
    | stdHours h0 hw hf hr =>
      rw [← parseInt_written _ _ hw hf] at hr
      rw [parseTZNorm_stdHours tz _ h0 hr]; exact ⟨_, rfl⟩
    | stdMinutes h0 hp hc hw hf hr =>
      rw [← parseInt_written _ _ hw hf] at hr
      rw [parseTZNorm_stdMinutes tz _ _ _ h0 hp hc hr]; exact ⟨_, rfl⟩
    | dstHours hnorm h0 hw hf hr =>
      rw [← parseInt_written _ _ hw hf] at hr
      rw [hnorm]
      simp only [parseTZDiff_dstHours _ _ _ h0 hr]
      exact ⟨_, rfl⟩
    | dstMinutes hnorm h0 hp hc hw hf hr =>
      rw [← parseInt_written _ _ hw hf] at hr
      rw [hnorm]
      simp only [parseTZDiff_dstMinutes _ _ _ _ _ h0 hp hc hr]
      exact ⟨_, rfl⟩

theorem parseDSTTime_hour (t2 : List Char) (hs : peek t2 = '/')
    (hr : (parseInt t2.tail).2 < -167 ∨ 167 < (parseInt t2.tail).2) :
    parseDSTTime t2 = none := by
  have hr' : ¬ ((parseInt t2.tail).2 ≥ -167 ∧ (parseInt t2.tail).2 ≤ 167) := by omega
  unfold parseDSTTime
  rw [if_pos hs]
  cases hq : parseInt t2.tail with
  | mk p v =>
    rw [hq] at hr'
    have hv : ¬ (v ≥ -167 ∧ v ≤ 167) := hr'
    cases p with
    | none => simp only [hq]
    | some u => simp only [hq, if_neg hv]

theorem parseDSTTime_minute (t2 u : List Char) (h : Int) (hs : peek t2 = '/')
    (hp : parseInt t2.tail = (some u, h)) (hc : peek u = ':')
    (hr : (parseInt u.tail).2 < 0 ∨ 59 < (parseInt u.tail).2) :
    parseDSTTime t2 = none := by
  have hr' : ¬ ((parseInt u.tail).2 ≥ 0 ∧ (parseInt u.tail).2 ≤ 59) := by omega
  unfold parseDSTTime
  rw [if_pos hs]
  cases hq : parseInt u.tail with
  | mk p v =>
    rw [hq] at hr'
    have hv : ¬ (v ≥ 0 ∧ v ≤ 59) := hr'
    cases p with
    | none => simp only [hp, hc, if_true, hq]; split_ifs <;> rfl
    | some u2 => simp only [hp, hc, if_true, hq, if_neg hv]; split_ifs <;> rfl

theorem parseDSTRule_outOfRange (currYear : Int) (t : List Char)
    (h : RuleOutOfRange currYear t) : parseDST t currYear = none := by
  cases h with
  | month hM hw hf hr =>
    rw [← parseInt_written _ _ hw hf] at hr
    have hr' : ¬ ((parseInt t.tail).2 ≥ 1 ∧ (parseInt t.tail).2 ≤ 12) := by omega
    have : parseDSTRule t currYear = none := by
      unfold parseDSTRule
      rw [if_pos hM]
      cases hq : parseInt t.tail with
      | mk p v =>
        rw [hq] at hr'
        have hv : ¬ (v ≥ 1 ∧ v ≤ 12) := hr'
        cases p with
        | none => simp only [hq]
        | some u => simp only [hq, if_neg hv]
    unfold parseDST; rw [this]
  | week hM h1 hd1 hw hf hr =>
    rename_i u1 m x
    rw [← parseInt_written _ _ hw hf] at hr
    have hr' : (parseInt u1.tail).2 < 1 ∨ (parseInt u1.tail).2 > 5 := by omega
    have : parseDSTRule t currYear = none := by
      unfold parseDSTRule
      rw [if_pos hM]
      cases hq : parseInt u1.tail with
      | mk p v =>
        rw [hq] at hr'
        have hv : v < 1 ∨ v > 5 := hr'
        cases p with
        | none => simp only [h1, hd1, hq]; split_ifs <;> rfl
        | some u => simp only [h1, hd1, hq, if_pos hv]; split_ifs <;> rfl
    unfold parseDST; rw [this]
  | weekday hM h1 hd1 h2 hd2 hw hf hr =>
    rename_i u1 u2 m w x
    rw [← parseInt_written _ _ hw hf] at hr
    have hr' : (parseInt u2.tail).2 < 0 ∨ (parseInt u2.tail).2 > 6 := by omega
    have : parseDSTRule t currYear = none := by
      unfold parseDSTRule
      rw [if_pos hM]
      cases hq : parseInt u2.tail with
      | mk p v =>
        rw [hq] at hr'
        have hv : v < 0 ∨ v > 6 := hr'
        cases p with
        | none => simp only [h1, hd1, h2, hd2, hq]; split_ifs <;> rfl
        | some u => simp only [h1, hd1, h2, hd2, hq, if_pos hv]; split_ifs <;> rfl
    unfold parseDST; rw [this]
  | julian hJ hw hf hr =>
    rw [← parseInt_written _ _ hw hf] at hr
    have hM : ¬ peek t = 'M' := by rw [hJ]; decide
    have hr' : (parseInt t.tail).2 < 1 ∨ (parseInt t.tail).2 > 365 := by omega
    have : parseDSTRule t currYear = none := by
      unfold parseDSTRule
      rw [if_neg hM, if_pos hJ]
      cases hq : parseInt t.tail with
      | mk p v =>
        rw [hq] at hr'
        have hv : v < 1 ∨ v > 365 := hr'
        cases p with
        | none => simp only [hq]
        | some u => simp only [hq, if_pos hv]
    unfold parseDST; rw [this]
  | yearDay hdig hw hf hr =>
    rw [← parseInt_written _ _ hw hf] at hr
    have hM : ¬ peek t = 'M' := by
      intro h; rw [h] at hdig; exact absurd hdig (by decide)
    have hJ : ¬ peek t = 'J' := by
      intro h; rw [h] at hdig; exact absurd hdig (by decide)
    have : parseDSTRule t currYear = none := by
      unfold parseDSTRule
      rw [if_neg hM, if_neg hJ, if_pos hdig]
      cases hq : parseInt t with
      | mk p v =>
        rw [hq] at hr
        have hv : 365 < v ∨ (v = 365 ∧ isLeapYear currYear = false) := hr
        cases p with
        | none => simp only [hq]
        | some u =>
          simp only [hq]
          split_ifs with a b
          · rfl
          · rfl
          · exfalso
            rcases hv with hv | ⟨hr1, hr2⟩
            · omega
            · exact b ⟨by omega, hr2⟩
    unfold parseDST; rw [this]
  | hour hrule hs hw hf hr =>
    rw [← parseInt_written _ _ hw hf] at hr
    unfold parseDST
    rw [hrule]
    simp only [parseDSTTime_hour _ hs hr]
  | minute hrule hs hp hc hw hf hr =>
    rw [← parseInt_written _ _ hw hf] at hr
    unfold parseDST
    rw [hrule]
    simp only [parseDSTTime_minute _ _ _ hs hp hc hr]

theorem parseTZRule_outOfRange (currYear : Int) (t : List Char)
    (h : RuleOutOfRange currYear t) : parseTZRule t currYear = none := by
  unfold parseTZRule
  rw [parseDSTRule_outOfRange currYear t h]

theorem RulesMalformed_of_outOfRange (currYear : Int) (r1 : List Char)
    (h : RuleOutOfRange currYear r1 ∨
      ∃ r2 dOn, parseTZRule r1 currYear = some (',' :: r2, dOn) ∧ RuleOutOfRange currYear r2) :
    RulesMalformed currYear r1 := by
  rcases h with h | ⟨r2, dOn, h1, h2⟩
  · exact Or.inl (parseTZRule_outOfRange currYear r1 h)
  · exact Or.inr ⟨_, dOn, h1, Or.inr ⟨r2, rfl, parseTZRule_outOfRange currYear r2 h2⟩⟩

theorem parseTZSlot_rulesOutOfRange (tz : List Char) (currYear : Int)
    (h : RulesOutOfRange currYear tz) :
    ∃ s, parseTZSlot tz currYear true TZSlot.initial = some (false, s) := by
  obtain ⟨t1, r1, diffNorm, diff, hnorm, hdiff, hr⟩ := h
  by_cases hbal : parseTZCount '>' tz.length tz 0 = parseTZCount '<' tz.length tz 0
  · obtain ⟨s, hs, _⟩ := parseTZSlot_badDST tz t1 r1 currYear diffNorm diff hbal hnorm hdiff
      (RulesMalformed_of_outOfRange currYear r1 hr)
    exact ⟨s, hs⟩
  · have hne : ¬ peek tz = NUL := by
      intro hn
      rw [parseTZNorm_of_peek_NUL tz hn] at hnorm
      cases hnorm
    have hv1 : ¬ ((-1 : Int) < 1 ∧ (-1 : Int) = 0) := by decide
    have hv2 : decide ((-1 : Int) < 1) = true := by decide
    simp only [parseTZSlot, TZSlot.initial, if_neg hne, if_true, hv1, hv2, if_false, ne_eq,
      hbal, not_false_eq_true, and_self]
    exact ⟨_, rfl⟩

theorem peek_decimal_append (n : Nat) (rest : List Char) :
    isDigit (peek (decimal n ++ rest)) = true := by
  obtain ⟨_, ⟨d, tl, hd10, a2⟩, _⟩ := decimalAux_spec (n + 1) n (by omega)
  have hpk : peek (decimal n ++ rest) = digitChar d := by
    unfold decimal; rw [a2]; rfl
  rw [hpk]
  exact (digitChar_spec d hd10).1

theorem isDigit_dot (r : List Char) : isDigit (peek ('.' :: r)) = false := by
  have : peek ('.' :: r) = '.' := rfl
  rw [this]; decide

/-! ## `mins2Date`, the sentinels and the roll-over constant -/

theorem mins2Date_eq (y m d h mi : Int) (hm0 : 1 ≤ m) (hm1 : m ≤ 12) (hd0 : 1 ≤ d)
    (hd1 : d ≤ daysInMonth m y) (hh0 : 0 ≤ h) (hh1 : h ≤ 23) (hi0 : 0 ≤ mi) (hi1 : mi ≤ 59) :
    mins2Date y m d h mi
      = ((mon_yday (if isLeapYear y then 1 else 0) (m - 1) + (d - 1)) * 24 + h) * 60 + mi ∧
    0 ≤ mins2Date y m d h mi ∧ mins2Date y m d h mi < 527040 := by
  have hl : (if isLeapYear y then (1 : Int) else 0) = 0 ∨
      (if isLeapYear y then (1 : Int) else 0) = 1 := by
    cases isLeapYear y <;> simp
  have hb := mon_yday_bounds (if isLeapYear y then 1 else 0) m hm0 hm1
  have hs := mon_yday_succ m y hm0 hm1
  have hle := mon_yday_le_yearLen _ m hl hm0 hm1
  unfold mins2Date
  generalize mon_yday (if isLeapYear y then 1 else 0) (m - 1) = a at hb hs ⊢
  generalize mon_yday (if isLeapYear y then 1 else 0) m = b at hs hle
  have hle2 : b ≤ 366 := by rcases hl with e | e <;> rw [e] at hle <;> omega
  have e1 : u32 (((a + (d - 1)) * 24 + h) * 60 + mi) = ((a + (d - 1)) * 24 + h) * 60 + mi := by
    unfold u32; omega
  rw [e1]
  have e2 : i32 (((a + (d - 1)) * 24 + h) * 60 + mi) = ((a + (d - 1)) * 24 + h) * 60 + mi := by
    unfold i32; omega
  rw [e2]
  refine ⟨rfl, ?_, ?_⟩ <;> omega

theorem mins2Date_dateToMins (y m d h mi : Int) (hv : ValidDateTime y m d h mi) :
    mins2Date y m d h mi = dateToMins y m d h mi - dateToMins y 1 1 0 0 := by
  have hv1 : ValidDateTime y 1 1 0 0 := by
    obtain ⟨hy0, hy1, -⟩ := hv
    refine ⟨hy0, hy1, by decide, by decide, by decide, ?_, by decide, by decide, by decide,
      by decide⟩
    have := daysInMonth_bounds 1 y (by decide) (by decide)
    omega
  rw [dateToMins_eq _ _ _ _ _ hv, dateToMins_eq _ _ _ _ _ hv1]
  obtain ⟨hy0, hy1, hm0, hm1, hd0, hd1, hh0, hh1, hi0, hi1⟩ := hv
  rw [(mins2Date_eq y m d h mi hm0 hm1 hd0 hd1 hh0 hh1 hi0 hi1).1]
  have e0 : mon_yday (if isLeapYear y then 1 else 0) (1 - 1) = 0 := by
    cases isLeapYear y <;> decide
  rw [e0]
  ring

theorem timeIsDST_sentinels (index y m d h mi : Int) (st : TZState) (hm0 : 1 ≤ m)
    (hm1 : m ≤ 12) (hd0 : 1 ≤ d) (hd1 : d ≤ daysInMonth m y) (hh0 : 0 ≤ h) (hh1 : h ≤ 23)
    (hi0 : 0 ≤ mi) (hi1 : mi ≤ 59) :
    ((st.slot index).DSTonMins = -1 → (st.slot index).DSToffMins = 600000 →
      (timeIsDST index y m d h mi st).1 = 1) ∧
    ((st.slot index).DSTonMins = 600000 → (st.slot index).DSToffMins = -1 →
      (timeIsDST index y m d h mi st).1 = 0) := by
  obtain ⟨-, h0, h1⟩ := mins2Date_eq y m d h mi hm0 hm1 hd0 hd1 hh0 hh1 hi0 hi1
  obtain ⟨-, -, ha, hb⟩ := timeIsDST_spec index y m d h mi st
  constructor
  · intro e1 e2
    rw [e1, e2] at ha
    exact (ha (by decide)).2 ⟨by omega, by omega⟩
  · intro e1 e2
    rw [e1, e2] at hb
    exact (hb (by decide)).2 ⟨by omega, by omega⟩

theorem dateToMins_endOfRange : dateToMins 9999 12 31 23 59 = 5259491999 := by
  rw [dateToMins_eq 9999 12 31 23 59 (by decide)]
  have e : (9999 : Int).toNat = 9999 := by decide
  rw [e, daysBeforeYear_closed]
  have e2 : mon_yday (if isLeapYear 9999 then 1 else 0) (12 - 1) = 334 := by decide
  rw [e2]
  norm_num

theorem dateToMins_year1 : dateToMins 1 1 1 0 0 = 527040 := by
  rw [dateToMins_eq 1 1 1 0 0 (by decide)]
  have e : (1 : Int).toNat = 1 := by decide
  rw [e, daysBeforeYear_closed]
  have e2 : mon_yday (if isLeapYear 1 then 1 else 0) (1 - 1) = 0 := by decide
  rw [e2]
  norm_num

/-! ## The clock tick: resync, year change and DST check -/

theorem dateToMins_range (y m d h mi : Int) :
    0 ≤ dateToMins y m d h mi ∧ dateToMins y m d h mi < 18446744073709551616 := by
  unfold dateToMins
  simp only []
  unfold u64
  constructor
  · exact Int.emod_nonneg _ (by decide)
  · exact Int.emod_lt_of_pos _ (by decide)

theorem resyncBlock_success (r : SyncResult) (powerup5Min : Bool) (s : LoopState)
    (hauto : s.autoReadjust = false) :
    resyncBlock true (some r) powerup5Min s =
      { s with dt := r.dt, rtc := r.rtc, yearOffset := r.yearOffset, isDST := r.isDST,
               tz := r.tz, autoReadjust := true, resyncInt := 5, syncTrigger := false,
               checkDST := false, haveAuthTime := true, authTimeExpired := false,
               lastYear := u16 (r.dt.year - r.yearOffset),
               timeDifference := (resyncBlock true (some r) powerup5Min s).timeDifference } := by
  unfold resyncBlock
  simp only [hauto, if_true]

theorem resyncBlock_timeDifference (r : SyncResult) (powerup5Min : Bool) (s : LoopState)
    (hauto : s.autoReadjust = false) (htd : s.timeDifference ≠ 0)
    (hdiff : (r.tz.slot 0).couldDST = true →
      0 ≤ (r.tz.slot 0).tzDiff ∧ (r.tz.slot 0).tzDiff ≤ 2147483647) :
    ((resyncBlock true (some r) powerup5Min s).timeDifference = 0 ↔
      |dateToMins (r.dt.year - r.yearOffset) r.dt.m r.dt.d r.dt.hh r.dt.mm
          - dateToMins s.realYear s.dt.m s.dt.d s.dt.hh s.dt.mm|
        > (if (r.tz.slot 0).couldDST = true then (r.tz.slot 0).tzDiff + 1 else 61)) ∧
    (¬ |dateToMins (r.dt.year - r.yearOffset) r.dt.m r.dt.d r.dt.hh r.dt.mm
          - dateToMins s.realYear s.dt.m s.dt.d s.dt.hh s.dt.mm|
        > (if (r.tz.slot 0).couldDST = true then (r.tz.slot 0).tzDiff + 1 else 61) →
      (resyncBlock true (some r) powerup5Min s).timeDifference = s.timeDifference) := by
  have hn := dateToMins_range (r.dt.year - r.yearOffset) r.dt.m r.dt.d r.dt.hh r.dt.mm
  have ho := dateToMins_range s.realYear s.dt.m s.dt.d s.dt.hh s.dt.mm
  unfold resyncBlock
  simp only [hauto, if_true, htd, ne_eq, not_false_eq_true]
  generalize dateToMins (r.dt.year - r.yearOffset) r.dt.m r.dt.d r.dt.hh r.dt.mm = newT at hn ⊢
  generalize dateToMins s.realYear s.dt.m s.dt.d s.dt.hh s.dt.mm = oldT at ho ⊢
  have hallow : (if (r.tz.slot 0).couldDST = true then u64 ((r.tz.slot 0).tzDiff + 1) else 61)
      = (if (r.tz.slot 0).couldDST = true then (r.tz.slot 0).tzDiff + 1 else 61) := by
    by_cases hc : (r.tz.slot 0).couldDST = true
    · have := hdiff hc
      rw [if_pos hc, if_pos hc]; unfold u64; omega
    · rw [if_neg hc, if_neg hc]
  rw [hallow]
  generalize (if (r.tz.slot 0).couldDST = true then (r.tz.slot 0).tzDiff + 1 else 61) = A
  by_cases hgt : newT > oldT
  · have e1 : u64 (newT - oldT) = newT - oldT := by unfold u64; omega
    have e2 : |newT - oldT| = newT - oldT := abs_of_nonneg (by omega)
    simp only [hgt, if_true, e1, e2]
    by_cases hw : newT - oldT > A
    · simp [hw]
    · simp [hw, htd]
  · have e1 : u64 (oldT - newT) = oldT - newT := by unfold u64; omega
    have e2 : |newT - oldT| = oldT - newT := by
      rw [abs_of_nonpos (by omega)]; ring
    simp only [hgt, if_false, e1, e2]
    by_cases hw : oldT - newT > A
    · simp [hw]
    · simp [hw, htd]

theorem resyncBlock_failure (powerup5Min : Bool) (s : LoopState)
    (hauto : s.autoReadjust = false) :
    resyncBlock true none powerup5Min s = { s with checkDST := (s.tz.slot 0).couldDST } := by
  unfold resyncBlock
  simp only [hauto, if_true]

theorem dstCheckBlock_noCheck (s : LoopState) (hc : s.checkDST = false) :
    ∃ s1, dstCheckBlock s = some s1 ∧ s1.isDST = s.isDST ∧ s1.dt = s.dt ∧ s1.rtc = s.rtc ∧
      s1.yearOffset = s.yearOffset ∧ s1.haveAuthTime = s.haveAuthTime ∧
      s1.authTimeExpired = s.authTimeExpired ∧ s1.resyncInt = s.resyncInt ∧
      s1.syncTrigger = s.syncTrigger ∧ s1.checkDST = s.checkDST := by
  unfold dstCheckBlock
  simp only [hc, Bool.false_eq_true, if_false]
  split_ifs <;> refine ⟨_, rfl, rfl, rfl, rfl, rfl, rfl, rfl, rfl, rfl, ?_⟩ <;>
    first | rfl | exact hc

theorem yearChangeBlock_flags (s s1 : LoopState) (h : yearChangeBlock s = some s1) :
    s1.isDST = s.isDST ∧ s1.haveAuthTime = s.haveAuthTime ∧
    s1.authTimeExpired = s.authTimeExpired ∧ s1.resyncInt = s.resyncInt ∧
    s1.syncTrigger = s.syncTrigger ∧ s1.checkDST = s.checkDST := by
  unfold yearChangeBlock at h
  simp only [] at h
  split_ifs at h <;> first
    | (injection h with h; subst h; exact ⟨rfl, rfl, rfl, rfl, rfl, rfl⟩)
    | (split at h
       · exact absurd h (by simp)
       · injection h with h; subst h; exact ⟨rfl, rfl, rfl, rfl, rfl, rfl⟩)

theorem yearChangeBlock_sameYear (s : LoopState) (h1 : u16 s.realYear = s.lastYear)
    (h2 : u16 s.realYear ≤ 9999) : yearChangeBlock s = some s := by
  unfold yearChangeBlock
  simp only []
  rw [if_neg]
  omega

theorem yearChangeBlock_rollover (s : LoopState) (b : Bool) (tz1 : TZState)
    (hover : u16 s.realYear > 9999) (hp : parseTZ 0 1 true s.tz = some (b, tz1))
    (htd : 0 ≤ s.timeDifference ∧ s.timeDifference < 18446744073709551616) :
    ∃ s1, yearChangeBlock s = some s1 ∧ u16 s1.realYear = 1 ∧ s1.dt.year = 2001 ∧
      s1.yearOffset = 2000 ∧ s1.tz = tz1 ∧
      (s.timeDifference = 0 → s1.timeDifference = 0 ∧ s1.timeDiffUp = s.timeDiffUp) ∧
      (s.timeDifference ≠ 0 → s.timeDifference ≥ rolloverMins →
        s1.timeDifference = s.timeDifference - rolloverMins ∧
        s1.timeDiffUp = s.timeDiffUp) ∧
      (s.timeDifference ≠ 0 → s.timeDifference < rolloverMins →
        s1.timeDifference = rolloverMins - s.timeDifference ∧
        s1.timeDiffUp = !s.timeDiffUp) := by
  have hd : decide (u16 s.realYear > 9999) = true := decide_eq_true hover
  have hc : correctYr4RTC 1 = (2001, 2000) := by decide
  have hadj : (2001 : Int) ≠ s.dt.year ∨ (2000 : Int) ≠ s.yearOffset := by
    by_contra hcon
    have h1 : s.dt.year = 2001 := by omega
    have h2 : s.yearOffset = 2000 := by omega
    have h3 : s.realYear = 1 := by unfold LoopState.realYear; omega
    rw [h3] at hover
    exact absurd hover (by decide)
  unfold yearChangeBlock
  simp only []
  rw [if_pos (Or.inr hover)]
  simp only [hd, if_true, hp, hc, hadj, Bool.true_and]
  refine ⟨_, rfl, ?_, ?_, rfl, rfl, ?_, ?_, ?_⟩
  · show u16 (u16 (2000 + u8 (2001 - 2000)) - 2000) = 1
    decide
  · show u16 (2000 + u8 (2001 - 2000)) = 2001
    decide
  · intro h0
    simp [h0]
  · intro h0 hge
    have e : u64 (s.timeDifference - rolloverMins) = s.timeDifference - rolloverMins := by
      unfold rolloverMins at hge ⊢; unfold u64; omega
    simp [h0, hge, e]
  · intro h0 hlt
    have hge : ¬ s.timeDifference ≥ rolloverMins := by omega
    have e : u64 (rolloverMins - s.timeDifference) = rolloverMins - s.timeDifference := by
      unfold rolloverMins at hlt ⊢; unfold u64; omega
    simp [h0, hge, e]

theorem blockDSTChange_iff (t : Int) (s : LoopState) :
    blockDSTChange t s = true ↔
      s.isDST ≤ 0 ∧ 0 < (s.tz.slot 0).DSToffMins - t ∧
        (s.tz.slot 0).DSToffMins - t ≤ (s.tz.slot 0).tzDiff := by
  unfold blockDSTChange
  rw [decide_eq_true_iff]
  constructor
  · rintro ⟨h1, h2, h3⟩; exact ⟨h1, by omega, h3⟩
  · rintro ⟨h1, h2, h3⟩; exact ⟨h1, by omega, h3⟩

theorem dstCheckBlock_blocked (s : LoopState) (hflag : s.isDST = 0)
    (h1 : (s.tz.slot 0).DSToffMins - (s.tz.slot 0).tzDiff
      ≤ mins2Date s.realYear s.dt.m s.dt.d s.dt.hh s.dt.mm)
    (h2 : mins2Date s.realYear s.dt.m s.dt.d s.dt.hh s.dt.mm < (s.tz.slot 0).DSToffMins)
    (h3 : (s.tz.slot 0).DSTonMins ≤ mins2Date s.realYear s.dt.m s.dt.d s.dt.hh s.dt.mm) :
    (timeIsDST 0 s.realYear s.dt.m s.dt.d s.dt.hh s.dt.mm s.tz).1 = 1 ∧
    blockDSTChange (mins2Date s.realYear s.dt.m s.dt.d s.dt.hh s.dt.mm) s = true ∧
    ∃ s1, dstCheckBlock s = some s1 ∧ s1.isDST = 0 ∧ s1.rtc = s.rtc ∧ s1.dt = s.dt ∧
      s1.yearOffset = s.yearOffset := by
  obtain ⟨ht2, ht01, ha, hb⟩ := timeIsDST_spec 0 s.realYear s.dt.m s.dt.d s.dt.hh s.dt.mm s.tz
  have hblock : blockDSTChange (mins2Date s.realYear s.dt.m s.dt.d s.dt.hh s.dt.mm) s = true := by
    rw [blockDSTChange_iff]
    exact ⟨by omega, by omega, by omega⟩
  have hone : (timeIsDST 0 s.realYear s.dt.m s.dt.d s.dt.hh s.dt.mm s.tz).1 = 1 := by
    by_cases hlt : (s.tz.slot 0).DSTonMins < (s.tz.slot 0).DSToffMins
    · exact (ha hlt).2 ⟨h3, h2⟩
    · rcases ht01 with h0 | h0
      · have := (hb hlt).1 h0
        omega
      · exact h0
  refine ⟨hone, hblock, ?_⟩
  unfold dstCheckBlock
  simp only [ht2, hblock, Bool.true_eq_false, and_false, if_false]
  split_ifs <;> exact ⟨_, rfl, hflag, rfl, rfl, rfl⟩

theorem correctYr4RTC_fits (y : Int) (h0 : 0 ≤ y) (h1 : y ≤ 9999) :
    2000 ≤ (correctYr4RTC y).1 ∧ (correctYr4RTC y).1 ≤ 2098 ∧
    (correctYr4RTC y).1 - (correctYr4RTC y).2 = y := by
  obtain ⟨ha, hb, hc⟩ := correctYr4RTC_spec y h0 h1
  by_cases hr : 2000 ≤ y ∧ y ≤ 2098
  · rw [ha hr]; simp only []; omega
  · cases hl : isLeapYear y
    · rw [hc hr hl]; simp only []; omega
    · rw [hb hr hl]; simp only []; omega

theorem dstCheckBlock_switch (s : LoopState) (myDST cur : Int)
    (hmin : s.dt.mm.tmod s.dstChkInt = 0)
    (hdone : s.DSTcheckDone = false) (hchk : s.checkDST = true)
    (hmy : (timeIsDST 0 s.realYear s.dt.m s.dt.d s.dt.hh s.dt.mm s.tz).1 = myDST)
    (hcur : dateToMins s.realYear s.dt.m s.dt.d s.dt.hh s.dt.mm = cur)
    (hne : myDST ≠ s.isDST)
    (hnb : blockDSTChange (mins2Date s.realYear s.dt.m s.dt.d s.dt.hh s.dt.mm) s = false) :
    (myDST = 0 ∨ myDST = 1) ∧
    (s.isDST < 0 →
      ∃ s1, dstCheckBlock s = some s1 ∧ s1.isDST = myDST ∧ s1.rtc = s.rtc ∧ s1.dt = s.dt ∧
        s1.yearOffset = s.yearOffset) ∧
    (s.isDST ≥ 0 →
      0 ≤ (if myDST = 1 then cur + (s.tz.slot 0).tzDiff else cur - (s.tz.slot 0).tzDiff) →
      (if myDST = 1 then cur + (s.tz.slot 0).tzDiff else cur - (s.tz.slot 0).tzDiff)
        ≤ 5259491999 →
      ∃ y m d h mi s1,
        minsToDate
          (if myDST = 1 then cur + (s.tz.slot 0).tzDiff else cur - (s.tz.slot 0).tzDiff)
          = some (y, m, d, h, mi) ∧
        ValidDateTime y m d h mi ∧
        dstCheckBlock s = some s1 ∧ s1.isDST = myDST ∧
        s1.rtc = rtcAdjust s.dt.ss mi h (dayOfWeek d m y) d m ((correctYr4RTC y).1 - 2000) ∧
        s1.yearOffset = (correctYr4RTC y).2 ∧
        s1.dt = DateTime.set ((correctYr4RTC y).1 - 2000) m d h mi s.dt.ss ∧
        s1.dt.year = (correctYr4RTC y).1 ∧ s1.realYear = y ∧ s1.dt.m = m ∧ s1.dt.d = d ∧
        s1.dt.hh = h ∧ s1.dt.mm = mi ∧ s1.dt.ss = u8 s.dt.ss) := by
  obtain ⟨ht2, ht01, -, -⟩ := timeIsDST_spec 0 s.realYear s.dt.m s.dt.d s.dt.hh s.dt.mm s.tz
  subst hmy hcur
  have hcond : (timeIsDST 0 s.realYear s.dt.m s.dt.d s.dt.hh s.dt.mm s.tz).1 ≠ s.isDST ∧
      blockDSTChange (timeIsDST 0 s.realYear s.dt.m s.dt.d s.dt.hh s.dt.mm s.tz).2 s = false := by
    rw [ht2]; exact ⟨hne, hnb⟩
  refine ⟨ht01, ?_, ?_⟩
  · intro hneg
    have hn : ¬ s.isDST ≥ 0 := by omega
    unfold dstCheckBlock
    simp only []
    rw [if_pos hmin, if_pos hdone, if_pos hchk, if_pos hcond, if_neg hn]
    exact ⟨_, rfl, rfl, rfl, rfl, rfl⟩
  · intro hpos h0 h1
    have hM : (if (timeIsDST 0 s.realYear s.dt.m s.dt.d s.dt.hh s.dt.mm s.tz).1 = 1
        then dateToMins s.realYear s.dt.m s.dt.d s.dt.hh s.dt.mm + (s.tz.slot 0).tzDiff
        else dateToMins s.realYear s.dt.m s.dt.d s.dt.hh s.dt.mm - (s.tz.slot 0).tzDiff)
        = u64 (dateToMins s.realYear s.dt.m s.dt.d s.dt.hh s.dt.mm
            + (if (timeIsDST 0 s.realYear s.dt.m s.dt.d s.dt.hh s.dt.mm s.tz).1 = 0
                then (s.tz.slot 0).tzDiff * -1 else (s.tz.slot 0).tzDiff)) := by
      rcases ht01 with e | e
      · rw [e] at h0 h1 ⊢
        simp only [show ¬ ((0 : Int) = 1) by decide, if_false, if_true] at h0 h1 ⊢
        unfold u64; omega
      · rw [e] at h0 h1 ⊢
        simp only [show ¬ ((1 : Int) = 0) by decide, if_false, if_true] at h0 h1 ⊢
        unfold u64; omega
    obtain ⟨y, m, d, h, mi, hmd, hv, -⟩ := minsToDate_inRange _ h0 h1
    have hmd2 := hmd
    rw [hM] at hmd2
    have hu : u16 y = y := by
      obtain ⟨hy0, hy1, -⟩ := hv
      unfold u16; omega
    have hrun : ∃ s1, dstCheckBlock s = some s1 ∧
        s1.isDST = (timeIsDST 0 s.realYear s.dt.m s.dt.d s.dt.hh s.dt.mm s.tz).1 ∧
        s1.rtc = rtcAdjust s.dt.ss mi h (dayOfWeek d m y) d m ((correctYr4RTC y).1 - 2000) ∧
        s1.yearOffset = (correctYr4RTC y).2 ∧
        s1.dt = DateTime.set ((correctYr4RTC y).1 - 2000) m d h mi s.dt.ss := by
      unfold dstCheckBlock
      simp only []
      rw [if_pos hmin, if_pos hdone, if_pos hchk, if_pos hcond, if_pos hpos]
      simp only [hmd2, hu]
      exact ⟨_, rfl, rfl, rfl, rfl, rfl⟩
    obtain ⟨s1, hs1, e1, e2, e3, e4⟩ := hrun
    refine ⟨y, m, d, h, mi, s1, hmd, hv, hs1, e1, e2, e3, e4, ?_⟩
    obtain ⟨hy0, hy1, hm0, hm1, hd0, hd1, hh0, hh1, hi0, hi1⟩ := hv
    have hdm := daysInMonth_bounds m y hm0 hm1
    obtain ⟨c0, c1, c2⟩ := correctYr4RTC_fits y hy0 hy1
    unfold LoopState.realYear
    rw [e4, e3]
    unfold DateTime.set DateTime.year
    simp only []
    unfold u8 u16
    refine ⟨by omega, by omega, by omega, by omega, by omega, by omega, ?_⟩
    trivial

/-! ## `localToDST` against `timeIsDST` and `blockDSTChange` -/

theorem dateToMins_yearStart (y : Int) (h0 : 0 ≤ y) (h1 : y ≤ 9999) :
    dateToMins y 1 1 0 0 = daysBeforeYear y.toNat * 1440 := by
  have hv1 : ValidDateTime y 1 1 0 0 := by
    refine ⟨h0, h1, by decide, by decide, by decide, ?_, by decide, by decide, by decide,
      by decide⟩
    have := daysInMonth_bounds 1 y (by decide) (by decide)
    omega
  rw [dateToMins_eq _ _ _ _ _ hv1]
  have e0 : mon_yday (if isLeapYear y then 1 else 0) (1 - 1) = 0 := by
    cases isLeapYear y <;> decide
  rw [e0]
  ring

theorem dateToMins_sameYear (y y1 m1 d1 h1 i1 T : Int) (hy0 : 0 ≤ y) (hy1 : y ≤ 9999)
    (hv1 : ValidDateTime y1 m1 d1 h1 i1) (hT0 : 0 ≤ T)
    (hT1 : T < (if isLeapYear y then 366 else 365) * 1440)
    (he : dateToMins y1 m1 d1 h1 i1 = dateToMins y 1 1 0 0 + T) : y1 = y := by
  rw [dateToMins_eq _ _ _ _ _ hv1, dateToMins_yearStart y hy0 hy1] at he
  obtain ⟨ky0, ky1, km0, km1, kd0, kd1, kh0, kh1, ki0, ki1⟩ := hv1
  obtain ⟨n, rfl⟩ := Int.eq_ofNat_of_zero_le hy0
  obtain ⟨n1, rfl⟩ := Int.eq_ofNat_of_zero_le ky0
  simp only [Int.toNat_ofNat] at he
  have hl : (if isLeapYear (n1 : Int) then (1 : Int) else 0) = 0 ∨
      (if isLeapYear (n1 : Int) then (1 : Int) else 0) = 1 := by
    cases isLeapYear (n1 : Int) <;> simp
  have hb := mon_yday_bounds (if isLeapYear (n1 : Int) then 1 else 0) m1 km0 km1
  have hs := mon_yday_succ m1 n1 km0 km1
  have hle := mon_yday_le_yearLen _ m1 hl km0 km1
  have s1 : daysBeforeYear (n1 + 1)
      = daysBeforeYear n1 + (if isLeapYear (n1 : Int) then 366 else 365) := rfl
  have s2 : daysBeforeYear (n + 1)
      = daysBeforeYear n + (if isLeapYear (n : Int) then 366 else 365) := rfl
  have c1 : (if isLeapYear (n1 : Int) then (366 : Int) else 365)
      = 365 + (if isLeapYear (n1 : Int) then 1 else 0) := by
    cases isLeapYear (n1 : Int) <;> simp
  generalize mon_yday (if isLeapYear (n1 : Int) then 1 else 0) (m1 - 1) = a at hb hs he
  generalize mon_yday (if isLeapYear (n1 : Int) then 1 else 0) m1 = b at hs hle
  generalize (if isLeapYear (n1 : Int) then (1 : Int) else 0) = l1 at hl hle c1
  generalize (if isLeapYear (n1 : Int) then (366 : Int) else 365) = L1 at s1 c1
  generalize (if isLeapYear (n : Int) then (366 : Int) else 365) = L at s2 hT1
  have g1 : daysBeforeYear n1 < daysBeforeYear (n + 1) := by omega
  have g2 : daysBeforeYear n < daysBeforeYear (n1 + 1) := by omega
  have := daysBeforeYear_lt _ _ g1
  have := daysBeforeYear_lt _ _ g2
  omega

theorem localToDST_consistent (y m d h mi f0 : Int) (s : LoopState)
    (hv : ValidDateTime y m d h mi) (hc : (s.tz.slot 0).couldDST = true)
    (hd : 0 ≤ (s.tz.slot 0).tzDiff)
    (hsame : mins2Date y m d h mi + (s.tz.slot 0).tzDiff
      < (if isLeapYear y then 366 else 365) * 1440) :
    ∃ y1 m1 d1 h1 mi1 f, localToDST 0 y m d h mi f0 s.tz = some (y1, m1, d1, h1, mi1, f) ∧
      (f = 0 ∨ f = 1) ∧
      (f = 1 → y1 = y ∧ ValidDateTime y1 m1 d1 h1 mi1 ∧
        mins2Date y1 m1 d1 h1 mi1 = mins2Date y m d h mi + (s.tz.slot 0).tzDiff ∧
        (timeIsDST 0 y1 m1 d1 h1 mi1 s.tz).1 = 1) ∧
      (f = 0 → y1 = y ∧ m1 = m ∧ d1 = d ∧ h1 = h ∧ mi1 = mi ∧
        ((timeIsDST 0 y m d h mi s.tz).1 = 0 ∨
          (s.isDST = 0 → blockDSTChange (mins2Date y m d h mi) s = true))) := by
  obtain ⟨-, hA, hB⟩ := localToDST_spec 0 y m d h mi f0 s.tz
  obtain ⟨-, ht01, ta, tb⟩ := timeIsDST_spec 0 y m d h mi s.tz
  have hm2 := mins2Date_dateToMins y m d h mi hv
  obtain ⟨hy0, hy1, hm0, hm1, hd0, hd1, hh0, hh1, hi0, hi1⟩ := hv
  obtain ⟨-, ht0, ht1⟩ := mins2Date_eq y m d h mi hm0 hm1 hd0 hd1 hh0 hh1 hi0 hi1
  by_cases hcond : (if (s.tz.slot 0).DSTonMins < (s.tz.slot 0).DSToffMins
          then (s.tz.slot 0).DSTonMins ≤ mins2Date y m d h mi ∧
            mins2Date y m d h mi < (s.tz.slot 0).DSToffMins - (s.tz.slot 0).tzDiff
          else ¬ ((s.tz.slot 0).DSToffMins - (s.tz.slot 0).tzDiff ≤ mins2Date y m d h mi ∧
            mins2Date y m d h mi < (s.tz.slot 0).DSTonMins))
  · have hys := dateToMins_yearStart y hy0 hy1
    have hDb := daysBeforeYear_bounds y.toNat
    have hDn : daysBeforeYear (y.toNat + 1)
        = daysBeforeYear y.toNat + (if isLeapYear ((y.toNat : Nat) : Int) then 366 else 365) :=
      rfl
    have hcast : ((y.toNat : Nat) : Int) = y := Int.toNat_of_nonneg hy0
    rw [hcast] at hDn
    have hDb1 := daysBeforeYear_closed (y.toNat + 1)
    have hr0 : 0 ≤ dateToMins y m d h mi + (s.tz.slot 0).tzDiff := by omega
    have hr1 : dateToMins y m d h mi + (s.tz.slot 0).tzDiff ≤ 5259491999 := by
      have e : dateToMins y m d h mi + (s.tz.slot 0).tzDiff
          < daysBeforeYear (y.toNat + 1) * 1440 := by
        rw [hDn]; omega
      push_cast at hDb1
      omega
    obtain ⟨y1, m1, d1, h1, mi1, hl, hv1, he⟩ := hB hc hcond hr0 hr1
    have hyy : y1 = y := by
      refine dateToMins_sameYear y y1 m1 d1 h1 mi1
        (mins2Date y m d h mi + (s.tz.slot 0).tzDiff) hy0 hy1 hv1 (by omega) hsame ?_
      rw [he]; omega
    have hm1 : mins2Date y1 m1 d1 h1 mi1 = mins2Date y m d h mi + (s.tz.slot 0).tzDiff := by
      rw [mins2Date_dateToMins y1 m1 d1 h1 mi1 hv1, he, hyy]; omega
    refine ⟨y1, m1, d1, h1, mi1, 1, hl, Or.inr rfl, fun _ => ⟨hyy, hv1, hm1, ?_⟩,
      fun hf => absurd hf (by decide)⟩
    obtain ⟨-, ht01', ta', tb'⟩ := timeIsDST_spec 0 y1 m1 d1 h1 mi1 s.tz
    rw [hm1] at ta' tb'
    by_cases hlt : (s.tz.slot 0).DSTonMins < (s.tz.slot 0).DSToffMins
    · rw [if_pos hlt] at hcond
      exact (ta' hlt).2 ⟨by omega, by omega⟩
    · rw [if_neg hlt] at hcond
      rcases ht01' with e0 | e1
      · have := (tb' hlt).1 e0
        omega
      · exact e1
  · refine ⟨y, m, d, h, mi, 0, hA hc hcond, Or.inl rfl, fun hf => absurd hf (by decide),
      fun _ => ⟨rfl, rfl, rfl, rfl, rfl, ?_⟩⟩
    rcases ht01 with e0 | e1
    · exact Or.inl e0
    · right
      intro hflag
      rw [blockDSTChange_iff]
      by_cases hlt : (s.tz.slot 0).DSTonMins < (s.tz.slot 0).DSToffMins
      · rw [if_pos hlt] at hcond
        have := (ta hlt).1 e1
        exact ⟨by omega, by omega, by omega⟩
      · rw [if_neg hlt] at hcond
        have hcond' := not_not.mp hcond
        have hn0 : ¬ ((s.tz.slot 0).DSToffMins ≤ mins2Date y m d h mi ∧
            mins2Date y m d h mi < (s.tz.slot 0).DSTonMins) := by
          intro hx
          have := (tb hlt).2 hx
          omega
        exact ⟨by omega, by omega, by omega⟩

/-! ## The tick after a resync -/

theorem resyncBlock_success_fields (r : SyncResult) (powerup5Min : Bool) (s : LoopState)
    (hauto : s.autoReadjust = false) :
    (resyncBlock true (some r) powerup5Min s).haveAuthTime = true ∧
    (resyncBlock true (some r) powerup5Min s).authTimeExpired = false ∧
    (resyncBlock true (some r) powerup5Min s).resyncInt = 5 ∧
    (resyncBlock true (some r) powerup5Min s).syncTrigger = false ∧
    (resyncBlock true (some r) powerup5Min s).checkDST = false ∧
    (resyncBlock true (some r) powerup5Min s).isDST = r.isDST ∧
    (resyncBlock true (some r) powerup5Min s).dt = r.dt ∧
    (resyncBlock true (some r) powerup5Min s).rtc = r.rtc ∧
    (resyncBlock true (some r) powerup5Min s).yearOffset = r.yearOffset ∧
    (resyncBlock true (some r) powerup5Min s).lastYear = u16 (r.dt.year - r.yearOffset) := by
  rw [resyncBlock_success r powerup5Min s hauto]
  exact ⟨rfl, rfl, rfl, rfl, rfl, rfl, rfl, rfl, rfl, rfl⟩

theorem expireAuthTime_autoReadjust (a : Bool) (s : LoopState) :
    (expireAuthTime a s).autoReadjust = s.autoReadjust := by
  unfold expireAuthTime
  split_ifs <;> rfl

theorem clockTick_sync (a : Bool) (now : DateTime) (r : SyncResult) (powerup5Min : Bool)
    (s : LoopState) (hauto : s.autoReadjust = false) :
    (∀ s1, clockTick a now true (some r) powerup5Min s = some s1 →
      s1.haveAuthTime = true ∧ s1.authTimeExpired = false ∧ s1.resyncInt = 5 ∧
      s1.syncTrigger = false ∧ s1.checkDST = false ∧ s1.isDST = r.isDST) ∧
    (u16 (r.dt.year - r.yearOffset) ≤ 9999 →
      ∃ s1, clockTick a now true (some r) powerup5Min s = some s1 ∧
        s1.haveAuthTime = true ∧ s1.authTimeExpired = false ∧ s1.resyncInt = 5 ∧
        s1.syncTrigger = false ∧ s1.checkDST = false ∧ s1.isDST = r.isDST ∧
        s1.dt = r.dt ∧ s1.rtc = r.rtc ∧ s1.yearOffset = r.yearOffset) := by
  have hauto1 : ({ expireAuthTime a s with dt := now } : LoopState).autoReadjust = false := by
    show (expireAuthTime a s).autoReadjust = false
    rw [expireAuthTime_autoReadjust]; exact hauto
  obtain ⟨f1, f2, f3, f4, f5, f6, f7, f8, f9, f10⟩ :=
    resyncBlock_success_fields r powerup5Min _ hauto1
  constructor
  · intro s1 h
    unfold clockTick at h
    simp only [] at h
    generalize resyncBlock true (some r) powerup5Min { expireAuthTime a s with dt := now } = s2
      at h f1 f2 f3 f4 f5 f6 f7 f8 f9 f10
    cases hy : yearChangeBlock s2 with
    | none => rw [hy] at h; exact absurd h (by simp)
    | some s3 =>
      rw [hy] at h
      simp only [] at h
      obtain ⟨g1, g2, g3, g4, g5, g6⟩ := yearChangeBlock_flags s2 s3 hy
      obtain ⟨s4, hd, k1, k2, k3, k4, k5, k6, k7, k8, k9⟩ :=
        dstCheckBlock_noCheck s3 (by rw [g6]; exact f5)
      rw [hd] at h
      simp only [] at h
      injection h with h
      subst h
      refine ⟨?_, ?_, ?_, ?_, ?_, ?_⟩
      · show s4.haveAuthTime = true
        rw [k5, g2]; exact f1
      · show s4.authTimeExpired = false
        rw [k6, g3]; exact f2
      · show s4.resyncInt = 5
        rw [k7, g4]; exact f3
      · show s4.syncTrigger = false
        rw [k8, g5]; exact f4
      · show s4.checkDST = false
        rw [k9, g6]; exact f5
      · show s4.isDST = r.isDST
        rw [k1, g1]; exact f6
  · intro hyr
    unfold clockTick
    simp only []
    generalize resyncBlock true (some r) powerup5Min { expireAuthTime a s with dt := now } = s2
      at f1 f2 f3 f4 f5 f6 f7 f8 f9 f10
    have hy : yearChangeBlock s2 = some s2 := by
      apply yearChangeBlock_sameYear
      · unfold LoopState.realYear; rw [f7, f9, f10]
      · unfold LoopState.realYear; rw [f7, f9]; exact hyr
    obtain ⟨s4, hd, k1, k2, k3, k4, k5, k6, k7, k8, k9⟩ := dstCheckBlock_noCheck s2 f5
    rw [hy]
    simp only [hd]
    refine ⟨_, rfl, ?_, ?_, ?_, ?_, ?_, ?_, ?_, ?_, ?_⟩
    · show s4.haveAuthTime = true
      rw [k5]; exact f1
    · show s4.authTimeExpired = false
      rw [k6]; exact f2
    · show s4.resyncInt = 5
      rw [k7]; exact f3
    · show s4.syncTrigger = false
      rw [k8]; exact f4
    · show s4.checkDST = false
      rw [k9]; exact f5
    · show s4.isDST = r.isDST
      rw [k1]; exact f6
    · show s4.dt = r.dt
      rw [k2]; exact f7
    · show s4.rtc = r.rtc
      rw [k3]; exact f8
    · show s4.yearOffset = r.yearOffset
      rw [k4]; exact f9

/-! ## The time zone of the example in the source for 2023 -/

theorem parseTZ_crazy_eval :
    (parseTZ 0 2023 true
      (TZState.initial ("CRAZY-3:30<C3ACY>4:56,M1.1.0/-48,M12.5.0/48").toList [] [])).map
        (fun r => (r.1, (r.2.slot 0).couldDST, (r.2.slot 0).DSTonMins, (r.2.slot 0).DSToffMins))
      = some (true, true, 600000, -1) := by
  decide

/-! ## Normalisation of the transition time in `parseDST` -/

theorem mRule_day_bounds (k w dow dim : Int) (hk0 : 0 ≤ k) (hk1 : k ≤ 6) (hw0 : 1 ≤ w)
    (hw1 : w ≤ 5) (hdow0 : 0 ≤ dow) (hdow1 : dow ≤ 6) (hdim0 : 28 ≤ dim) (hdim1 : dim ≤ 31) :
    1 ≤ (if ((if (k + 1) - (if dow = 0 then 7 else dow) < 1
              then (k + 1) - (if dow = 0 then 7 else dow) + 7
              else (k + 1) - (if dow = 0 then 7 else dow))
            + 7 * (w - 1)) > dim
        then ((if (k + 1) - (if dow = 0 then 7 else dow) < 1
              then (k + 1) - (if dow = 0 then 7 else dow) + 7
              else (k + 1) - (if dow = 0 then 7 else dow))
            + 7 * (w - 1)) - 7
        else ((if (k + 1) - (if dow = 0 then 7 else dow) < 1
              then (k + 1) - (if dow = 0 then 7 else dow) + 7
              else (k + 1) - (if dow = 0 then 7 else dow))
            + 7 * (w - 1))) ∧
    (if ((if (k + 1) - (if dow = 0 then 7 else dow) < 1
              then (k + 1) - (if dow = 0 then 7 else dow) + 7
              else (k + 1) - (if dow = 0 then 7 else dow))
            + 7 * (w - 1)) > dim
        then ((if (k + 1) - (if dow = 0 then 7 else dow) < 1
              then (k + 1) - (if dow = 0 then 7 else dow) + 7
              else (k + 1) - (if dow = 0 then 7 else dow))
            + 7 * (w - 1)) - 7
        else ((if (k + 1) - (if dow = 0 then 7 else dow) < 1
              then (k + 1) - (if dow = 0 then 7 else dow) + 7
              else (k + 1) - (if dow = 0 then 7 else dow))
            + 7 * (w - 1))) ≤ dim := by
  split_ifs <;> constructor <;> omega

theorem parseDSTRule_valid (t u : List Char) (y m0 d0 : Int) (hy0 : 1 ≤ y) (hy1 : y ≤ 9999)
    (hr : parseDSTRule t y = some (u, m0, d0)) :
    1 ≤ m0 ∧ m0 ≤ 12 ∧ 1 ≤ d0 ∧ d0 ≤ daysInMonth m0 y := by
  by_cases hM : peek t = 'M'
  · cases e1 : parseInt t.tail with
    | mk p1 m =>
    cases p1 with
    | none => simp [parseDSTRule, hM, e1] at hr
    | some u1 =>
    by_cases c1 : m ≥ 1 ∧ m ≤ 12
    swap
    · simp [parseDSTRule, hM, e1, c1] at hr
    by_cases hd1 : peek u1 = '.'
    swap
    · simp [parseDSTRule, hM, e1, c1, hd1] at hr
    cases e2 : parseInt u1.tail with
    | mk p2 w =>
    cases p2 with
    | none => simp [parseDSTRule, hM, e1, c1, hd1, e2] at hr
    | some u2 =>
    by_cases c2 : w < 1 ∨ w > 5
    · simp [parseDSTRule, hM, e1, c1, hd1, e2, c2] at hr
    by_cases hd2 : peek u2 = '.'
    swap
    · simp [parseDSTRule, hM, e1, c1, hd1, e2, c2, hd2] at hr
    cases e3 : parseInt u2.tail with
    | mk p3 k =>
    cases p3 with
    | none => simp [parseDSTRule, hM, e1, c1, hd1, e2, c2, hd2, e3] at hr
    | some u3 =>
    by_cases c3 : k < 0 ∨ k > 6
    · simp [parseDSTRule, hM, e1, c1, hd1, e2, c2, hd2, e3, c3] at hr
    have hrule := parseDSTRule_M t u1 u2 u3 y m w k c1.1 c1.2 (by omega) (by omega) (by omega)
      (by omega) hM e1 hd1 e2 hd2 e3
    rw [hrule] at hr
    injection hr with hr
    injection hr with hr1 hr2
    injection hr2 with hr2 hr3
    subst hr2
    have hdm := daysInMonth_bounds m y c1.1 c1.2
    have hv1 : ValidDateTime y m 1 0 0 := by
      unfold ValidDateTime; omega
    have hdow := dayOfWeek_eq y m 1 hv1
    have hdow' : 0 ≤ dayOfWeek 1 m y ∧ dayOfWeek 1 m y ≤ 6 := by
      rw [hdow]; omega
    have hb := mRule_day_bounds k w (dayOfWeek 1 m y) (daysInMonth m y) (by omega) (by omega)
      (by omega) (by omega) hdow'.1 hdow'.2 hdm.1 hdm.2
    rw [hr3] at hb
    exact ⟨c1.1, c1.2, hb.1, hb.2⟩
  · by_cases hJ : peek t = 'J'
    · cases e1 : parseInt t.tail with
      | mk p1 n =>
      cases p1 with
      | none => simp [parseDSTRule, hM, hJ, e1] at hr
      | some u1 =>
      by_cases c1 : n < 1 ∨ n > 365
      · simp [parseDSTRule, hM, hJ, e1, c1] at hr
      obtain ⟨mo, d, hrule, a1, a2, a3, a4, -⟩ :=
        parseDSTRule_J t u1 y n hJ e1 (by omega) (by omega)
      rw [hrule] at hr
      injection hr with hr
      injection hr with hr1 hr2
      injection hr2 with hr2 hr3
      subst hr2 hr3
      refine ⟨a1, a2, a3, ?_⟩
      unfold daysInMonth
      split_ifs with hfeb
      · obtain ⟨e, -⟩ := hfeb
        rw [e] at a4
        have : tbl monthDays (2 - 1) = 28 := by decide
        omega
      · exact a4
    · by_cases hD : isDigit (peek t) = true
      · cases e1 : parseInt t with
        | mk p1 n =>
        cases p1 with
        | none => simp [parseDSTRule, hM, hJ, hD, e1] at hr
        | some u1 =>
        by_cases c1 : n < 0 ∨ n > 365
        · simp [parseDSTRule, hM, hJ, hD, e1, c1] at hr
        by_cases c2 : n > 364 ∧ isLeapYear y = false
        · simp [parseDSTRule, hM, hJ, hD, e1, c1, c2] at hr
        have hleap : n = 365 → isLeapYear y = true := by
          intro hn
          cases hl : isLeapYear y
          · exact absurd ⟨by omega, hl⟩ c2
          · rfl
        obtain ⟨mo, d, hrule, a1, a2, a3, a4, -⟩ :=
          parseDSTRule_yearDay t u1 y n hD e1 (by omega) (by omega) hleap
        rw [hrule] at hr
        injection hr with hr
        injection hr with hr1 hr2
        injection hr2 with hr2 hr3
        subst hr2 hr3
        exact ⟨a1, a2, a3, a4⟩
      · simp [parseDSTRule, hM, hJ, hD] at hr

theorem parseDSTTime_range (t u : List Char) (h mi : Int)
    (ht : parseDSTTime t = some (u, h, mi)) :
    -167 ≤ h ∧ h ≤ 167 ∧ 0 ≤ mi ∧ mi ≤ 59 := by
  by_cases hs : peek t = '/'
  · cases e1 : parseInt t.tail with
    | mk p1 v1 =>
    cases p1 with
    | none => simp [parseDSTTime, hs, e1] at ht
    | some u1 =>
    by_cases c1 : v1 ≥ -167 ∧ v1 ≤ 167
    swap
    · simp [parseDSTTime, hs, e1, c1] at ht
    by_cases hc : peek u1 = ':'
    · cases e2 : parseInt u1.tail with
      | mk p2 v2 =>
      cases p2 with
      | none => simp [parseDSTTime, hs, e1, c1, hc, e2] at ht
      | some u2 =>
      by_cases c2 : v2 ≥ 0 ∧ v2 ≤ 59
      swap
      · simp [parseDSTTime, hs, e1, c1, hc, e2, c2] at ht
      by_cases hc2 : peek u2 = ':'
      · cases e3 : parseInt u2.tail with
        | mk p3 v3 =>
        cases p3 with
        | none => simp [parseDSTTime, hs, e1, c1, hc, e2, c2, hc2, e3] at ht
        | some u3 =>
          simp [parseDSTTime, hs, e1, c1, hc, e2, c2, hc2, e3] at ht
          obtain ⟨-, rfl, rfl⟩ := ht
          omega
      · simp [parseDSTTime, hs, e1, c1, hc, e2, c2, hc2] at ht
        obtain ⟨-, rfl, rfl⟩ := ht
        omega
    · simp [parseDSTTime, hs, e1, c1, hc] at ht
      obtain ⟨-, rfl, rfl⟩ := ht
      omega
  · rw [parseDSTTime_default t hs] at ht
    injection ht with ht
    injection ht with ht1 ht2
    injection ht2 with ht2 ht3
    subst ht2 ht3
    omega

theorem parseDSTHourDown_spec (fuel : Nat) : ∀ d h : Int, 0 ≤ h → h ≤ 24 * (fuel : Int) + 23 →
    parseDSTHourDown fuel d h = (d + h / 24, h % 24) := by
  induction fuel with
  | zero =>
    intro d h h0 h1
    have e1 : h / 24 = 0 := by omega
    have e2 : h % 24 = h := by omega
    simp only [parseDSTHourDown, e1, e2, add_zero]
  | succ f ih =>
    intro d h h0 h1
    unfold parseDSTHourDown
    by_cases hc : h > 23
    · rw [if_pos hc, ih (d + 1) (h - 24) (by omega) (by push_cast at h1; omega)]
      have e1 : (h - 24) / 24 = h / 24 - 1 := by omega
      have e2 : (h - 24) % 24 = h % 24 := by omega
      rw [e1, e2]
      congr 1
      ring
    · rw [if_neg hc]
      have e1 : h / 24 = 0 := by omega
      have e2 : h % 24 = h := by omega
      rw [e1, e2, add_zero]

theorem parseDSTHourUp_spec (fuel : Nat) : ∀ d h : Int, h ≤ 23 → -24 * (fuel : Int) ≤ h →
    parseDSTHourUp fuel d h = (d + h / 24, h % 24) := by
  induction fuel with
  | zero =>
    intro d h h0 h1
    have e1 : h / 24 = 0 := by omega
    have e2 : h % 24 = h := by omega
    simp only [parseDSTHourUp, e1, e2, add_zero]
  | succ f ih =>
    intro d h h0 h1
    unfold parseDSTHourUp
    by_cases hc : h < 0
    · rw [if_pos hc, ih (d - 1) (h + 24) (by omega) (by push_cast at h1; omega)]
      have e1 : (h + 24) / 24 = h / 24 + 1 := by omega
      have e2 : (h + 24) % 24 = h % 24 := by omega
      rw [e1, e2]
      congr 1
      ring
    · rw [if_neg hc]
      have e1 : h / 24 = 0 := by omega
      have e2 : h % 24 = h := by omega
      rw [e1, e2, add_zero]

theorem parseDSTDayDown_stop (fuel : Nat) (y m day : Int) (h : ¬ day > daysInMonth m y) :
    parseDSTDayDown fuel y m day = (y, m, day) := by
  cases fuel with
  | zero => rfl
  | succ f => unfold parseDSTDayDown; rw [if_neg h]

theorem parseDSTDayUp_stop (fuel : Nat) (y m day : Int) (h : ¬ day < 1) :
    parseDSTDayUp fuel y m day = (y, m, day) := by
  cases fuel with
  | zero => rfl
  | succ f => unfold parseDSTDayUp; rw [if_neg h]

theorem parseDSTDayDown_once (f : Nat) (y m day : Int) (hm0 : 1 ≤ m) (hm1 : m ≤ 12)
    (hd : day ≤ daysInMonth m y + 28) :
    parseDSTDayDown (f + 1) y m day =
      if day > daysInMonth m y then
        (if m + 1 > 12 then (y + 1, 1, day - daysInMonth m y)
         else (y, m + 1, day - daysInMonth m y))
      else (y, m, day) := by
  unfold parseDSTDayDown
  by_cases hc : day > daysInMonth m y
  · simp only [hc, if_true]
    by_cases hmm : m + 1 > 12
    · have hb := daysInMonth_bounds 1 (y + 1) (by decide) (by decide)
      rw [if_pos hmm, if_pos hmm, parseDSTDayDown_stop f (y + 1) 1 _ (by omega)]
    · have hb := daysInMonth_bounds (m + 1) y (by omega) (by omega)
      rw [if_neg hmm, if_neg hmm, parseDSTDayDown_stop f y (m + 1) _ (by omega)]
  · rw [if_neg hc, if_neg hc]

theorem parseDSTDayUp_once (f : Nat) (y m day : Int) (hm0 : 1 ≤ m) (hm1 : m ≤ 12)
    (hd : -27 ≤ day) :
    parseDSTDayUp (f + 1) y m day =
      if day < 1 then
        (if m - 1 < 1 then (y - 1, 12, day + daysInMonth 12 (y - 1))
         else (y, m - 1, day + daysInMonth (m - 1) y))
      else (y, m, day) := by
  unfold parseDSTDayUp
  by_cases hc : day < 1
  · simp only [hc, if_true]
    by_cases hmm : m - 1 < 1
    · have hb := daysInMonth_bounds 12 (y - 1) (by decide) (by decide)
      rw [if_pos hmm, if_pos hmm, parseDSTDayUp_stop f (y - 1) 12 _ (by omega)]
    · have hb := daysInMonth_bounds (m - 1) y (by omega) (by omega)
      rw [if_neg hmm, if_neg hmm, parseDSTDayUp_stop f y (m - 1) _ (by omega)]
  · rw [if_neg hc, if_neg hc]

theorem daysBeforeYear_succ_int (y : Int) (hy : 0 ≤ y) :
    daysBeforeYear (y + 1).toNat
      = daysBeforeYear y.toNat + 365 + (if isLeapYear y then 1 else 0) := by
  obtain ⟨n, rfl⟩ := Int.eq_ofNat_of_zero_le hy
  have e : ((n : Int) + 1).toNat = n + 1 := by omega
  rw [e, Int.toNat_ofNat]
  show daysBeforeYear n + (if isLeapYear (n : Int) then 366 else 365) = _
  cases isLeapYear (n : Int) <;> first | (simp; done) | (simp; ring)

theorem mon_yday_ends (l : Int) (hl : l = 0 ∨ l = 1) :
    mon_yday l 0 = 0 ∧ mon_yday l 12 = 365 + l := by
  rcases hl with rfl | rfl <;> decide

theorem dateToMins_days (y m d h mi : Int) (hv : ValidDateTime y m d h mi) :
    dateToMins y m d h mi
      = (daysBeforeYear y.toNat + mon_yday (if isLeapYear y then 1 else 0) (m - 1) + d - 1)
          * 1440 + 60 * h + mi := by
  rw [dateToMins_eq y m d h mi hv]; ring

theorem parseDST_normalised (t t1 t2 : List Char) (y m0 d0 h mi : Int) (hy0 : 1 ≤ y)
    (hy1 : y ≤ 9998) (hr : parseDSTRule t y = some (t1, m0, d0))
    (ht : parseDSTTime t1 = some (t2, h, mi)) :
    ∃ D : DSTDate, parseDST t y = some (t2, D) ∧
      0 ≤ D.DSThour ∧ D.DSThour ≤ 23 ∧ 1 ≤ D.DSTmonth ∧ D.DSTmonth ≤ 12 ∧
      1 ≤ D.DSTday ∧ D.DSTday ≤ daysInMonth D.DSTmonth D.DSTyear ∧
      |D.DSTyear - y| ≤ 1 ∧ D.DSTmin = mi ∧
      dateToMins D.DSTyear D.DSTmonth D.DSTday D.DSThour D.DSTmin
        = dateToMins y m0 d0 0 0 + 60 * h + mi := by
  obtain ⟨hm0, hm1, hd0, hd1⟩ := parseDSTRule_valid t t1 y m0 d0 hy0 (by omega) hr
  obtain ⟨hh0, hh1, hi0, hi1⟩ := parseDSTTime_range t1 t2 h mi ht
  have hdm := daysInMonth_bounds m0 y hm0 hm1
  have hv0 : ValidDateTime y m0 d0 0 0 :=
    ⟨by omega, by omega, hm0, hm1, hd0, hd1, by decide, by decide, by decide, by decide⟩
  have hl : (if isLeapYear y then (1 : Int) else 0) = 0 ∨
      (if isLeapYear y then (1 : Int) else 0) = 1 := by
    cases isLeapYear y <;> simp
  have hR := dateToMins_days y m0 d0 0 0 hv0
  have key : ∀ D : DSTDate, ValidDateTime D.DSTyear D.DSTmonth D.DSTday D.DSThour D.DSTmin →
      |D.DSTyear - y| ≤ 1 → D.DSTmin = mi →
      (daysBeforeYear D.DSTyear.toNat
          + mon_yday (if isLeapYear D.DSTyear then 1 else 0) (D.DSTmonth - 1) + D.DSTday - 1)
          * 1440 + 60 * D.DSThour
        = (daysBeforeYear y.toNat + mon_yday (if isLeapYear y then 1 else 0) (m0 - 1)
            + d0 - 1) * 1440 + 60 * h →
      0 ≤ D.DSThour ∧ D.DSThour ≤ 23 ∧ 1 ≤ D.DSTmonth ∧ D.DSTmonth ≤ 12 ∧
      1 ≤ D.DSTday ∧ D.DSTday ≤ daysInMonth D.DSTmonth D.DSTyear ∧
      |D.DSTyear - y| ≤ 1 ∧ D.DSTmin = mi ∧
      dateToMins D.DSTyear D.DSTmonth D.DSTday D.DSThour D.DSTmin
        = dateToMins y m0 d0 0 0 + 60 * h + mi := by
    intro D hv hyr hmin he
    have hL := dateToMins_days _ _ _ _ _ hv
    obtain ⟨ky0, ky1, km0, km1, kd0, kd1, kh0, kh1, ki0, ki1⟩ := hv
    refine ⟨kh0, kh1, km0, km1, kd0, kd1, hyr, hmin, ?_⟩
    rw [hL, hR, hmin]
    omega
  unfold parseDST
  rw [hr]
  simp only [ht]
  by_cases hgt : h > 23
  · rw [if_pos hgt]
    rw [parseDSTHourDown_spec h.toNat d0 h (by omega) (by omega)]
    simp only []
    have hq : 1 ≤ h / 24 ∧ h / 24 ≤ 6 := by omega
    have hq2 : 0 ≤ h % 24 ∧ h % 24 ≤ 23 := by omega
    have hq3 : h = 24 * (h / 24) + h % 24 := by omega
    generalize h / 24 = q at hq hq3
    generalize h % 24 = h' at hq2 hq3
    rw [parseDSTDayDown_once _ y m0 (d0 + q) hm0 hm1 (by omega)]
    by_cases hc : d0 + q > daysInMonth m0 y
    · rw [if_pos hc]
      by_cases hmm : m0 + 1 > 12
      · rw [if_pos hmm]
        have e12 : m0 = 12 := by omega
        subst e12
        have hb1 := daysInMonth_bounds 1 (y + 1) (by decide) (by decide)
        have hs := mon_yday_succ 12 y (by decide) (by decide)
        have he := (mon_yday_ends _ hl).2
        have hl1 : (if isLeapYear (y + 1) then (1 : Int) else 0) = 0 ∨
            (if isLeapYear (y + 1) then (1 : Int) else 0) = 1 := by
          cases isLeapYear (y + 1) <;> simp
        have he1 := (mon_yday_ends _ hl1).1
        have hD := daysBeforeYear_succ_int y (by omega)
        refine ⟨_, rfl, key ⟨y + 1, 1, d0 + q - daysInMonth 12 y, h', mi⟩
          ⟨by show 0 ≤ y + 1; omega, by show y + 1 ≤ 9999; omega,
            by show (1 : Int) ≤ 1; decide, by show (1 : Int) ≤ 12; decide,
            by show 1 ≤ d0 + q - daysInMonth 12 y; omega,
            by show d0 + q - daysInMonth 12 y ≤ daysInMonth 1 (y + 1); omega,
            hq2.1, hq2.2, hi0, hi1⟩ ?_ rfl ?_⟩
        · show |y + 1 - y| ≤ 1
          rw [abs_le]; constructor <;> omega
        · show (daysBeforeYear (y + 1).toNat
              + mon_yday (if isLeapYear (y + 1) then 1 else 0) (1 - 1)
              + (d0 + q - daysInMonth 12 y) - 1) * 1440 + 60 * h' = _
          have e0 : ((1 : Int) - 1) = 0 := by decide
          rw [e0, he1, hD]
          have e11 : ((12 : Int) - 1) = 11 := by decide
          rw [e11]
          have e11' : ((12 : Int) - 1) = 11 := by decide
          rw [e11'] at hs
          omega
      · rw [if_neg hmm]
        have hb1 := daysInMonth_bounds (m0 + 1) y (by omega) (by omega)
        have hs := mon_yday_succ m0 y hm0 hm1
        refine ⟨_, rfl, key ⟨y, m0 + 1, d0 + q - daysInMonth m0 y, h', mi⟩
          ⟨by show 0 ≤ y; omega, by show y ≤ 9999; omega, by show 1 ≤ m0 + 1; omega,
            by show m0 + 1 ≤ 12; omega,
            by show 1 ≤ d0 + q - daysInMonth m0 y; omega,
            by show d0 + q - daysInMonth m0 y ≤ daysInMonth (m0 + 1) y; omega,
            hq2.1, hq2.2, hi0, hi1⟩ ?_ rfl ?_⟩
        · show |y - y| ≤ 1
          rw [abs_le]; constructor <;> omega
        · show (daysBeforeYear y.toNat
              + mon_yday (if isLeapYear y then 1 else 0) (m0 + 1 - 1)
              + (d0 + q - daysInMonth m0 y) - 1) * 1440 + 60 * h' = _
          have e0 : m0 + 1 - 1 = m0 := by ring
          rw [e0]
          omega
    · rw [if_neg hc]
      refine ⟨_, rfl, key ⟨y, m0, d0 + q, h', mi⟩
        ⟨by show 0 ≤ y; omega, by show y ≤ 9999; omega, hm0, hm1,
          by show 1 ≤ d0 + q; omega, by show d0 + q ≤ daysInMonth m0 y; omega,
          hq2.1, hq2.2, hi0, hi1⟩ ?_ rfl ?_⟩
      · show |y - y| ≤ 1
        rw [abs_le]; constructor <;> omega
      · show (daysBeforeYear y.toNat + mon_yday (if isLeapYear y then 1 else 0) (m0 - 1)
            + (d0 + q) - 1) * 1440 + 60 * h' = _
        omega
  · rw [if_neg hgt]
    by_cases hlt : h < 0
    · rw [if_pos hlt]
      rw [parseDSTHourUp_spec (-h).toNat d0 h (by omega) (by omega)]
      simp only []
      have hq : -7 ≤ h / 24 ∧ h / 24 ≤ -1 := by omega
      have hq2 : 0 ≤ h % 24 ∧ h % 24 ≤ 23 := by omega
      have hq3 : h = 24 * (h / 24) + h % 24 := by omega
      generalize h / 24 = q at hq hq3
      generalize h % 24 = h' at hq2 hq3
      rw [parseDSTDayUp_once _ y m0 (d0 + q) hm0 hm1 (by omega)]
      by_cases hc : d0 + q < 1
      · rw [if_pos hc]
        by_cases hmm : m0 - 1 < 1
        · rw [if_pos hmm]
          have e1 : m0 = 1 := by omega
          subst e1
          have hb1 := daysInMonth_bounds 12 (y - 1) (by decide) (by decide)
          have hl1 : (if isLeapYear (y - 1) then (1 : Int) else 0) = 0 ∨
              (if isLeapYear (y - 1) then (1 : Int) else 0) = 1 := by
            cases isLeapYear (y - 1) <;> simp
          have hs := mon_yday_succ 12 (y - 1) (by decide) (by decide)
          have he := (mon_yday_ends _ hl1).2
          have he0 := (mon_yday_ends _ hl).1
          have hD := daysBeforeYear_succ_int (y - 1) (by omega)
          have eyy : y - 1 + 1 = y := by ring
          rw [eyy] at hD
          refine ⟨_, rfl, key ⟨y - 1, 12, d0 + q + daysInMonth 12 (y - 1), h', mi⟩
            ⟨by show 0 ≤ y - 1; omega, by show y - 1 ≤ 9999; omega,
              by show (1 : Int) ≤ 12; decide, by show (12 : Int) ≤ 12; decide,
              by show 1 ≤ d0 + q + daysInMonth 12 (y - 1); omega,
              by show d0 + q + daysInMonth 12 (y - 1) ≤ daysInMonth 12 (y - 1); omega,
              hq2.1, hq2.2, hi0, hi1⟩ ?_ rfl ?_⟩
          · show |y - 1 - y| ≤ 1
            rw [abs_le]; constructor <;> omega
          · show (daysBeforeYear (y - 1).toNat
                + mon_yday (if isLeapYear (y - 1) then 1 else 0) (12 - 1)
                + (d0 + q + daysInMonth 12 (y - 1)) - 1) * 1440 + 60 * h' = _
            have e0 : ((1 : Int) - 1) = 0 := by decide
            rw [e0, he0, hD]
            omega
        · rw [if_neg hmm]
          have hb1 := daysInMonth_bounds (m0 - 1) y (by omega) (by omega)
          have hs := mon_yday_succ (m0 - 1) y (by omega) (by omega)
          refine ⟨_, rfl, key ⟨y, m0 - 1, d0 + q + daysInMonth (m0 - 1) y, h', mi⟩
            ⟨by show 0 ≤ y; omega, by show y ≤ 9999; omega, by show 1 ≤ m0 - 1; omega,
              by show m0 - 1 ≤ 12; omega,
              by show 1 ≤ d0 + q + daysInMonth (m0 - 1) y; omega,
              by show d0 + q + daysInMonth (m0 - 1) y ≤ daysInMonth (m0 - 1) y; omega,
              hq2.1, hq2.2, hi0, hi1⟩ ?_ rfl ?_⟩
          · show |y - y| ≤ 1
            rw [abs_le]; constructor <;> omega
          · show (daysBeforeYear y.toNat
                + mon_yday (if isLeapYear y then 1 else 0) (m0 - 1 - 1)
                + (d0 + q + daysInMonth (m0 - 1) y) - 1) * 1440 + 60 * h' = _
            omega
      · rw [if_neg hc]
        refine ⟨_, rfl, key ⟨y, m0, d0 + q, h', mi⟩
          ⟨by show 0 ≤ y; omega, by show y ≤ 9999; omega, hm0, hm1,
            by show 1 ≤ d0 + q; omega, by show d0 + q ≤ daysInMonth m0 y; omega,
            hq2.1, hq2.2, hi0, hi1⟩ ?_ rfl ?_⟩
        · show |y - y| ≤ 1
          rw [abs_le]; constructor <;> omega
        · show (daysBeforeYear y.toNat + mon_yday (if isLeapYear y then 1 else 0) (m0 - 1)
              + (d0 + q) - 1) * 1440 + 60 * h' = _
          omega
    · rw [if_neg hlt]
      refine ⟨_, rfl, key ⟨y, m0, d0, h, mi⟩
        ⟨by show 0 ≤ y; omega, by show y ≤ 9999; omega, hm0, hm1, hd0, hd1,
          by show 0 ≤ h; omega, by show h ≤ 23; omega, hi0, hi1⟩ ?_ rfl rfl⟩
      show |y - y| ≤ 1
      rw [abs_le]; constructor <;> omega

theorem parseDST_accepted (t u : List Char) (y : Int) (D : DSTDate) (hy0 : 1 ≤ y)
    (hy1 : y ≤ 9998) (hacc : parseDST t y = some (u, D)) :
    ∃ t1 m0 d0 h mi, parseDSTRule t y = some (t1, m0, d0) ∧
      parseDSTTime t1 = some (u, h, mi) ∧ -167 ≤ h ∧ h ≤ 167 ∧ 0 ≤ mi ∧ mi ≤ 59 ∧
      1 ≤ m0 ∧ m0 ≤ 12 ∧ 1 ≤ d0 ∧ d0 ≤ daysInMonth m0 y ∧
      0 ≤ D.DSThour ∧ D.DSThour ≤ 23 ∧ 1 ≤ D.DSTmonth ∧ D.DSTmonth ≤ 12 ∧
      1 ≤ D.DSTday ∧ D.DSTday ≤ daysInMonth D.DSTmonth D.DSTyear ∧
      |D.DSTyear - y| ≤ 1 ∧ D.DSTmin = mi ∧
      dateToMins D.DSTyear D.DSTmonth D.DSTday D.DSThour D.DSTmin
        = dateToMins y m0 d0 0 0 + 60 * h + mi := by
  cases hr : parseDSTRule t y with
  | none =>
    unfold parseDST at hacc
    rw [hr] at hacc
    exact absurd hacc (by simp)
  | some p =>
    obtain ⟨t1, m0, d0⟩ := p
    cases ht : parseDSTTime t1 with
    | none =>
      unfold parseDST at hacc
      rw [hr] at hacc
      simp only [ht] at hacc
      exact absurd hacc (by simp)
    | some q =>
      obtain ⟨t2, h, mi⟩ := q
      obtain ⟨D1, hD1, hprops⟩ := parseDST_normalised t t1 t2 y m0 d0 h mi hy0 hy1 hr ht
      rw [hD1] at hacc
      injection hacc with hacc
      injection hacc with e1 e2
      subst e1 e2
      obtain ⟨hm0, hm1, hd0, hd1⟩ := parseDSTRule_valid t t1 y m0 d0 hy0 (by omega) hr
      obtain ⟨hh0, hh1, hi0, hi1⟩ := parseDSTTime_range t1 t2 h mi ht
      exact ⟨t1, m0, d0, h, mi, rfl, ht, hh0, hh1, hi0, hi1, hm0, hm1, hd0, hd1, hprops⟩

theorem yearChangeBlock_rollover_isSome (s : LoopState) (hover : u16 s.realYear > 9999)
    (hp : (parseTZ 0 1 true s.tz).isSome = true)
    (htd : 0 ≤ s.timeDifference ∧ s.timeDifference < 18446744073709551616) :
    ∃ s1, yearChangeBlock s = some s1 ∧ u16 s1.realYear = 1 ∧ s1.dt.year = 2001 ∧
      s1.yearOffset = 2000 ∧
      (s.timeDifference = 0 → s1.timeDifference = 0 ∧ s1.timeDiffUp = s.timeDiffUp) ∧
      (s.timeDifference ≠ 0 → s.timeDifference ≥ rolloverMins →
        s1.timeDifference = s.timeDifference - rolloverMins ∧
        s1.timeDiffUp = s.timeDiffUp) ∧
      (s.timeDifference ≠ 0 → s.timeDifference < rolloverMins →
        s1.timeDifference = rolloverMins - s.timeDifference ∧
        s1.timeDiffUp = !s.timeDiffUp) := by
  obtain ⟨p, hp1⟩ := Option.isSome_iff_exists.mp hp
  obtain ⟨b, tz1⟩ := p
  obtain ⟨s1, h1, h2, h3, h4, -, h6, h7, h8⟩ := yearChangeBlock_rollover s b tz1 hover hp1 htd
  exact ⟨s1, h1, h2, h3, h4, h6, h7, h8⟩

theorem parseTZ_crazy_notDST (m d h mi : Int) (hm0 : 1 ≤ m) (hm1 : m ≤ 12) (hd0 : 1 ≤ d)
    (hd1 : d ≤ daysInMonth m 2023) (hh0 : 0 ≤ h) (hh1 : h ≤ 23) (hi0 : 0 ≤ mi)
    (hi1 : mi ≤ 59) :
    ∃ st, parseTZ 0 2023 true
        (TZState.initial ("CRAZY-3:30<C3ACY>4:56,M1.1.0/-48,M12.5.0/48").toList [] [])
        = some (true, st) ∧
      (st.slot 0).couldDST = true ∧ (st.slot 0).DSTonMins = 600000 ∧
      (st.slot 0).DSToffMins = -1 ∧ (timeIsDST 0 2023 m d h mi st).1 = 0 := by
  have hev := parseTZ_crazy_eval
  cases hp : parseTZ 0 2023 true
      (TZState.initial ("CRAZY-3:30<C3ACY>4:56,M1.1.0/-48,M12.5.0/48").toList [] []) with
  | none => rw [hp] at hev; exact absurd hev (by simp)
  | some p =>
    obtain ⟨b, st⟩ := p
    rw [hp] at hev
    simp only [Option.map_some', Option.some.injEq, Prod.mk.injEq] at hev
    obtain ⟨e1, e2, e3, e4⟩ := hev
    subst e1
    exact ⟨st, rfl, e2, e3, e4,
      (timeIsDST_sentinels 0 2023 m d h mi st hm0 hm1 hd0 hd1 hh0 hh1 hi0 hi1).2 e3 e4⟩

/-! ## The claims -/

/-- C1. Round trip: for every valid civil date-time (year 0..9999, month
1..12, day 1..daysInMonth(month, year), hour 0..23, minute 0..59),
`minsToDate (dateToMins year month day hour minute)` returns exactly
`(year, month, day, hour, minute)`; this covers the instants on a 500-year
table boundary and 9999-12-31 23:59. -/
theorem minsToDate_dateToMins_roundTrip (y m d h mi : Int)
    (hv : ValidDateTime y m d h mi) :
    minsToDate (dateToMins y m d h mi) = some (y, m, d, h, mi) :=
  minsToDate_dateToMins y m d h mi hv

theorem minsToDate_dateToMins_roundTrip_witness :
    (ValidDateTime 500 1 1 0 0 ∧
      minsToDate (dateToMins 500 1 1 0 0) = some (500, 1, 1, 0, 0)) ∧
    (ValidDateTime 9999 12 31 23 59 ∧
      minsToDate (dateToMins 9999 12 31 23 59) = some (9999, 12, 31, 23, 59)) :=
  ⟨⟨by decide, minsToDate_dateToMins_roundTrip 500 1 1 0 0 (by decide)⟩,
   ⟨by decide, minsToDate_dateToMins_roundTrip 9999 12 31 23 59 (by decide)⟩⟩

/-- C2. Monotonicity: for two valid civil date-times with years in 0..9999,
if the first precedes the second in lexicographic (year, month, day, hour,
minute) order, then `dateToMins` of the first is less than `dateToMins` of
the second. -/
theorem dateToMins_strictMono (y1 m1 d1 h1 i1 y2 m2 d2 h2 i2 : Int)
    (hv1 : ValidDateTime y1 m1 d1 h1 i1) (hv2 : ValidDateTime y2 m2 d2 h2 i2)
    (hlt : DateTimeLt y1 m1 d1 h1 i1 y2 m2 d2 h2 i2) :
    dateToMins y1 m1 d1 h1 i1 < dateToMins y2 m2 d2 h2 i2 :=
  dateToMins_lt y1 m1 d1 h1 i1 y2 m2 d2 h2 i2 hv1 hv2 hlt

theorem dateToMins_strictMono_witness :
    ValidDateTime 1999 12 31 23 59 ∧ ValidDateTime 2000 1 1 0 0 ∧
    DateTimeLt 1999 12 31 23 59 2000 1 1 0 0 ∧
    dateToMins 1999 12 31 23 59 < dateToMins 2000 1 1 0 0 :=
  ⟨by decide, by decide, by decide,
   dateToMins_strictMono 1999 12 31 23 59 2000 1 1 0 0 (by decide) (by decide) (by decide)⟩

/-- C3. `dateToMins` is the exact linear minute count since 0000-01-01 00:00
with no 32-bit wrap-around: for every valid date-time with year y in 0..9999
it equals `((D(y) + mon_yday[leap(y)][m-1] + d - 1) * 24 + h) * 60 + mi` in
unbounded integers, where `D(y) = daysBeforeYear y` is the sum over the years
k < y of 366 if `isLeapYear k` else 365; the hour total held in the `uint32_t`
accumulator is at most 2^32 - 1; and every entry `hours1kYears[i]` is the
number of hours in the years 0..500*i-1. -/
theorem dateToMins_linear (y m d h mi : Int) (hv : ValidDateTime y m d h mi) :
    dateToMins y m d h mi
      = ((daysBeforeYear y.toNat + mon_yday (if isLeapYear y then 1 else 0) (m - 1)
          + d - 1) * 24 + h) * 60 + mi ∧
    (daysBeforeYear y.toNat + mon_yday (if isLeapYear y then 1 else 0) (m - 1)
          + d - 1) * 24 + h ≤ 4294967295 ∧
    ∀ i : Nat, i < 20 → tbl hours1kYears (i : Int) = 24 * daysBeforeYear (500 * i) := by
  refine ⟨dateToMins_eq y m d h mi hv, ?_, hours1kYears_eq⟩
  obtain ⟨hy0, hy1, hm0, hm1, hd0, hd1, hh0, hh1, hi0, hi1⟩ := hv
  have hyd := mon_yday_bounds (if isLeapYear y then 1 else 0) m hm0 hm1
  have hdm := daysInMonth_bounds m y hm0 hm1
  have hD := daysBeforeYear_bounds y.toNat
  have hn : ((y.toNat : Nat) : Int) = y := Int.toNat_of_nonneg hy0
  omega

theorem dateToMins_linear_witness :
    ValidDateTime 9999 12 31 23 59 ∧
    (dateToMins 9999 12 31 23 59
      = ((daysBeforeYear (9999 : Int).toNat
          + mon_yday (if isLeapYear 9999 then 1 else 0) (12 - 1)
          + 31 - 1) * 24 + 23) * 60 + 59 ∧
    (daysBeforeYear (9999 : Int).toNat + mon_yday (if isLeapYear 9999 then 1 else 0) (12 - 1)
          + 31 - 1) * 24 + 23 ≤ 4294967295 ∧
    ∀ i : Nat, i < 20 → tbl hours1kYears (i : Int) = 24 * daysBeforeYear (500 * i)) :=
  ⟨by decide, dateToMins_linear 9999 12 31 23 59 (by decide)⟩

/-- C4. `isLeapYear` implements the Gregorian rule: for every year y >= 0,
`isLeapYear y` is true iff (y mod 4 = 0 and y mod 100 != 0) or y mod 400 = 0;
in particular 2000 and 2024 are leap years and 1900 and 2023 are not. -/
theorem isLeapYear_gregorian (y : Int) (hy : 0 ≤ y) :
    (isLeapYear y = true ↔ ((y % 4 = 0 ∧ y % 100 ≠ 0) ∨ y % 400 = 0)) ∧
    isLeapYear 2000 = true ∧ isLeapYear 2024 = true ∧
    isLeapYear 1900 = false ∧ isLeapYear 2023 = false :=
  ⟨isLeapYear_iff y hy, by decide, by decide, by decide, by decide⟩

theorem isLeapYear_gregorian_witness :
    (0 : Int) ≤ 2100 ∧
    ((isLeapYear 2100 = true ↔ (((2100 : Int) % 4 = 0 ∧ (2100 : Int) % 100 ≠ 0)
        ∨ (2100 : Int) % 400 = 0)) ∧
    isLeapYear 2000 = true ∧ isLeapYear 2024 = true ∧
    isLeapYear 1900 = false ∧ isLeapYear 2023 = false) :=
  ⟨by decide, isLeapYear_gregorian 2100 (by decide)⟩

/-- C5. `dayOfWeek` agrees with the calendar for every valid date of the
years 0..9999, year 0 included: `dayOfWeek d m y` is in 0..6 and equals
`(dateToMins y m d 0 0 / 1440 + 6) mod 7`, with 0 = Sunday, 0000-01-01 a
Saturday and 0001-01-01 a Monday; so the branch for y = 0 and Sakamoto's
formula for y >= 1 form one weekday sequence. -/
theorem dayOfWeek_calendar (y m d : Int) (hv : ValidDateTime y m d 0 0) :
    0 ≤ dayOfWeek d m y ∧ dayOfWeek d m y ≤ 6 ∧
    dayOfWeek d m y = (dateToMins y m d 0 0 / 1440 + 6) % 7 ∧
    dayOfWeek 1 1 0 = 6 ∧ dayOfWeek 1 1 1 = 1 := by
  have h1 := dayOfWeek_eq y m d hv
  have h2 := dateToMins_eq y m d 0 0 hv
  have h3 : dayOfWeek 1 1 0 = 6 := by decide
  have h4 : dayOfWeek 1 1 1 = 1 := by decide
  generalize dayOfWeek d m y = w at h1 ⊢
  generalize dateToMins y m d 0 0 = M at h2 ⊢
  generalize daysBeforeYear y.toNat
    + mon_yday (if isLeapYear y then 1 else 0) (m - 1) = a at h1 h2
  refine ⟨by omega, by omega, by omega, h3, h4⟩

theorem dayOfWeek_calendar_witness :
    ValidDateTime 0 12 31 0 0 ∧
    (0 ≤ dayOfWeek 31 12 0 ∧ dayOfWeek 31 12 0 ≤ 6 ∧
    dayOfWeek 31 12 0 = (dateToMins 0 12 31 0 0 / 1440 + 6) % 7 ∧
    dayOfWeek 1 1 0 = 6 ∧ dayOfWeek 1 1 1 = 1) :=
  ⟨by decide, dayOfWeek_calendar 0 12 31 (by decide)⟩

/-- C6. Postcondition of `correctYr4RTC`: for every real year y in 0..9999,
if 2000 <= y <= 2098 the result is (rtcYear = y, offs = 0); otherwise it is
(2000, 2000 - y) when `isLeapYear y` and (2001, 2001 - y) when not; 1885
gives (2001, 116) and 2024 gives (2024, 0). Consequently rtcYear is in
[2000, 2098] and `isLeapYear rtcYear = isLeapYear y`. -/
theorem correctYr4RTC_postcondition (y : Int) (h0 : 0 ≤ y) (h1 : y ≤ 9999) :
    (2000 ≤ y ∧ y ≤ 2098 → correctYr4RTC y = (y, 0)) ∧
    (¬ (2000 ≤ y ∧ y ≤ 2098) → isLeapYear y = true →
      correctYr4RTC y = (2000, 2000 - y)) ∧
    (¬ (2000 ≤ y ∧ y ≤ 2098) → isLeapYear y = false →
      correctYr4RTC y = (2001, 2001 - y)) ∧
    correctYr4RTC 1885 = (2001, 116) ∧ correctYr4RTC 2024 = (2024, 0) ∧
    2000 ≤ (correctYr4RTC y).1 ∧ (correctYr4RTC y).1 ≤ 2098 ∧
    isLeapYear (correctYr4RTC y).1 = isLeapYear y := by
  obtain ⟨a, b, c⟩ := correctYr4RTC_spec y h0 h1
  refine ⟨a, b, c, by decide, by decide, ?_⟩
  by_cases hr : 2000 ≤ y ∧ y ≤ 2098
  · rw [a hr]; exact ⟨hr.1, hr.2, rfl⟩
  · cases hl : isLeapYear y
    · rw [c hr hl]
      show (2000 : Int) ≤ 2001 ∧ (2001 : Int) ≤ 2098 ∧ isLeapYear 2001 = false
      decide
    · rw [b hr hl]
      show (2000 : Int) ≤ 2000 ∧ (2000 : Int) ≤ 2098 ∧ isLeapYear 2000 = true
      decide

theorem correctYr4RTC_postcondition_witness :
    (0 : Int) ≤ 1885 ∧ (1885 : Int) ≤ 9999 ∧
    ((2000 ≤ (1885 : Int) ∧ (1885 : Int) ≤ 2098 → correctYr4RTC 1885 = (1885, 0)) ∧
    (¬ (2000 ≤ (1885 : Int) ∧ (1885 : Int) ≤ 2098) → isLeapYear 1885 = true →
      correctYr4RTC 1885 = (2000, 2000 - 1885)) ∧
    (¬ (2000 ≤ (1885 : Int) ∧ (1885 : Int) ≤ 2098) → isLeapYear 1885 = false →
      correctYr4RTC 1885 = (2001, 2001 - 1885)) ∧
    correctYr4RTC 1885 = (2001, 116) ∧ correctYr4RTC 2024 = (2024, 0) ∧
    2000 ≤ (correctYr4RTC 1885).1 ∧ (correctYr4RTC 1885).1 ≤ 2098 ∧
    isLeapYear (correctYr4RTC 1885).1 = isLeapYear 1885) :=
  ⟨by decide, by decide, correctYr4RTC_postcondition 1885 (by decide) (by decide)⟩

/-- C7, as stated, fails: for the real year 1885 `correctYr4RTC` gives the RTC
year 2001 and the offset 116, and 2001 + 116 is not 1885. -/
theorem correctYr4RTC_sum_counterexample :
    (0 : Int) ≤ 1885 ∧ (1885 : Int) ≤ 9999 ∧
    (correctYr4RTC 1885).1 + (correctYr4RTC 1885).2 ≠ 1885 := by
  decide

/-- C7, amended. For every real year y in 0..9999 the pair (rtcStoredYear,
yearOffset) produced by `correctYr4RTC` satisfies rtcStoredYear - yearOffset
= y: the offset is subtracted from the RTC-stored year to get the real year,
as `time_loop` does in `thisYear`. -/
theorem correctYr4RTC_difference (y : Int) (h0 : 0 ≤ y) (h1 : y ≤ 9999) :
    (correctYr4RTC y).1 - (correctYr4RTC y).2 = y ∧
    thisYear (correctYr4RTC y).1 (correctYr4RTC y).2 = y := by
  obtain ⟨a, b, c⟩ := correctYr4RTC_spec y h0 h1
  have hu : u16 y = y := by unfold u16; omega
  unfold thisYear
  by_cases hr : 2000 ≤ y ∧ y ≤ 2098
  · rw [a hr]; simpa using hu
  · cases hl : isLeapYear y
    · rw [c hr hl]
      have e : (2001 : Int) - (2001 - y) = y := by ring
      simp only [e]; exact ⟨trivial, hu⟩
    · rw [b hr hl]
      have e : (2000 : Int) - (2000 - y) = y := by ring
      simp only [e]; exact ⟨trivial, hu⟩

theorem correctYr4RTC_difference_witness :
    (0 : Int) ≤ 1885 ∧ (1885 : Int) ≤ 9999 ∧
    ((correctYr4RTC 1885).1 - (correctYr4RTC 1885).2 = 1885 ∧
    thisYear (correctYr4RTC 1885).1 (correctYr4RTC 1885).2 = 1885) :=
  ⟨by decide, by decide, correctYr4RTC_difference 1885 (by decide) (by decide)⟩

/-- C8. Known-good TZ parse: from the initial (never parsed) state of slot 0
with the TZ string "CST6CDT,M3.2.0,M11.1.0", `parseTZ 0 2023 true` returns
true and leaves tzDiff = 60, tzDiffGMT = 360, couldDST = true, DSTonMins =
mins2Date(2023, 3, 12, 2, 0) = 100920 and DSToffMins = mins2Date(2023, 11, 5,
2, 0) = 443640; March 12 and November 5 of 2023 are Sundays. -/
theorem parseTZ_known_good (st : TZState)
    (htz : st.timeZone = ("CST6CDT,M3.2.0,M11.1.0").toList)
    (hinit : st.slot0 = TZSlot.initial) :
    ∃ st', parseTZ 0 2023 true st = some (true, st') ∧
      st'.slot0.tzDiff = 60 ∧ st'.slot0.tzDiffGMT = 360 ∧ st'.slot0.couldDST = true ∧
      st'.slot0.DSTonMins = mins2Date 2023 3 12 2 0 ∧ mins2Date 2023 3 12 2 0 = 100920 ∧
      st'.slot0.DSToffMins = mins2Date 2023 11 5 2 0 ∧ mins2Date 2023 11 5 2 0 = 443640 ∧
      dayOfWeek 12 3 2023 = 0 ∧ dayOfWeek 5 11 2023 = 0 := by
  have h := parseTZ_of_tz 0 2023 true st st.timeZone rfl
  have hs : st.slot 0 = st.slot0 := rfl
  rw [hs, hinit, htz, parseTZSlot_CST6CDT] at h
  refine ⟨_, h, ?_⟩
  have hs' : (st.setSlot 0 slotCST6CDT2023).slot0 = slotCST6CDT2023 := rfl
  rw [hs']
  decide

theorem parseTZ_known_good_witness :
    ∃ st', parseTZ 0 2023 true
        (TZState.initial ("CST6CDT,M3.2.0,M11.1.0").toList [] []) = some (true, st') ∧
      st'.slot0.tzDiff = 60 ∧ st'.slot0.tzDiffGMT = 360 ∧ st'.slot0.couldDST = true ∧
      st'.slot0.DSTonMins = mins2Date 2023 3 12 2 0 ∧ mins2Date 2023 3 12 2 0 = 100920 ∧
      st'.slot0.DSToffMins = mins2Date 2023 11 5 2 0 ∧ mins2Date 2023 11 5 2 0 = 443640 ∧
      dayOfWeek 12 3 2023 = 0 ∧ dayOfWeek 5 11 2023 = 0 :=
  parseTZ_known_good (TZState.initial ("CST6CDT,M3.2.0,M11.1.0").toList [] []) rfl rfl

/-- C10. Empty TZ string: for every slot index 0..2 (the indices for which
`parseTZ` selects a settings buffer) and every year, `parseTZ` on an empty
string, starting from the initial slot state, returns true and
leaves tzHasDST = 0, couldDST = false and both UTC offsets tzDiffGMT and
tzDiffGMTDST equal to 0. -/
theorem parseTZ_empty (index currYear : Int) (doparseDST : Bool) (st : TZState)
    (buf : List Char) (hbuf : st.tz index = some buf) (hempty : cstr buf = [])
    (hinit : st.slot index = TZSlot.initial) :
    ∃ st', parseTZ index currYear doparseDST st = some (true, st') ∧
      (st'.slot index).tzHasDST = 0 ∧ (st'.slot index).couldDST = false ∧
      (st'.slot index).tzDiffGMT = 0 ∧ (st'.slot index).tzDiffGMTDST = 0 := by
  have h := parseTZ_of_tz index currYear doparseDST st buf hbuf
  rw [hinit, parseTZSlot_empty _ currYear doparseDST hempty] at h
  refine ⟨_, h, ?_⟩
  rw [TZState.slot_setSlot]
  exact ⟨rfl, rfl, rfl, rfl⟩

theorem parseTZ_empty_witness :
    ∃ st', parseTZ 2 1985 true (TZState.initial [] [] []) = some (true, st') ∧
      (st'.slot 2).tzHasDST = 0 ∧ (st'.slot 2).couldDST = false ∧
      (st'.slot 2).tzDiffGMT = 0 ∧ (st'.slot 2).tzDiffGMTDST = 0 :=
  parseTZ_empty 2 1985 true (TZState.initial [] [] []) [] rfl rfl rfl

/-- C11. Mm.w.d resolution: for every year y in 1..9999, month m in 1..12,
week w in 1..5 and weekday k in 0..6, `parseDST` on the rule "Mm.w.k" (no
/time; `rest` is what follows the rule) yields DSTmonth = m, DSThour = 2,
DSTmin = 0 and a day D with 1 <= D <= daysInMonth(m, y) and dayOfWeek(D, m,
y) = k, where 7(w-1) < D <= 7w for w <= 4 and D + 7 > daysInMonth(m, y) for
w = 5. -/
theorem parseDST_monthWeekDay (y : Int) (m w k : Nat) (rest : List Char)
    (hy : 1 ≤ y ∧ y ≤ 9999) (hm : 1 ≤ m ∧ m ≤ 12) (hw : 1 ≤ w ∧ w ≤ 5) (hk : k ≤ 6)
    (hrest : isDigit (peek rest) = false) (hnt : peek rest ≠ '/') :
    ∃ D : Int,
      parseDST ('M' :: (decimal m ++ '.' :: (decimal w ++ '.' :: (decimal k ++ rest)))) y
        = some (rest, ⟨y, m, D, 2, 0⟩) ∧
      1 ≤ D ∧ D ≤ daysInMonth m y ∧ dayOfWeek D m y = k ∧
      (w ≤ 4 → 7 * ((w : Int) - 1) < D ∧ D ≤ 7 * (w : Int)) ∧
      (w = 5 → D + 7 > daysInMonth m y) := by
  have h1 := parseInt_decimal m ('.' :: (decimal w ++ '.' :: (decimal k ++ rest)))
    (by omega) (isDigit_dot _)
  have h2 := parseInt_decimal w ('.' :: (decimal k ++ rest)) (by omega) (isDigit_dot _)
  have h3 := parseInt_decimal k rest (by omega) hrest
  obtain ⟨D, a1, a2, a3, a4, a5, a6⟩ := parseDST_M_spec
    ('M' :: (decimal m ++ '.' :: (decimal w ++ '.' :: (decimal k ++ rest))))
    ('.' :: (decimal w ++ '.' :: (decimal k ++ rest))) ('.' :: (decimal k ++ rest)) rest
    y m w k hy.1 hy.2 (by omega) (by omega) (by omega) (by omega) (by omega) (by omega)
    rfl h1 rfl h2 rfl h3 hnt
  refine ⟨D, a1, a2, a3, a4, ?_, ?_⟩
  · intro h; exact a5 (by omega)
  · intro h; exact a6 (by omega)

theorem parseDST_monthWeekDay_witness :
    ∃ D : Int,
      parseDST ('M' :: (decimal 3 ++ '.' :: (decimal 2 ++ '.' :: (decimal 0
          ++ (",M11.1.0").toList)))) 2023
        = some ((",M11.1.0").toList, ⟨2023, ((3 : Nat) : Int), D, 2, 0⟩) ∧
      1 ≤ D ∧ D ≤ daysInMonth ((3 : Nat) : Int) 2023 ∧
      dayOfWeek D ((3 : Nat) : Int) 2023 = ((0 : Nat) : Int) ∧
      (2 ≤ 4 → 7 * (((2 : Nat) : Int) - 1) < D ∧ D ≤ 7 * ((2 : Nat) : Int)) ∧
      (2 = 5 → D + 7 > daysInMonth ((3 : Nat) : Int) 2023) :=
  parseDST_monthWeekDay 2023 3 2 0 (",M11.1.0").toList (by decide) (by decide) (by decide)
    (by decide) (by decide) (by decide)

/-- C12. Julian-day rules resolve to the date with that ordinal: for the rule
"Jn" with 1 <= n <= 365 the resolved (month, day) satisfies
mon_yday[0][month-1] + day = n in every year, leap or not (so J60 is always
March 1); for a bare rule "n" with 0 <= n <= 365 (n = 365 only in a leap
year) the resolved (month, day) satisfies mon_yday[isLeapYear(year)][month-1]
+ day - 1 = n. -/
theorem parseDST_dayOfYear (y : Int) (n : Nat) (rest : List Char)
    (hrest : isDigit (peek rest) = false) (hnt : peek rest ≠ '/') :
    (1 ≤ n → n ≤ 365 → ∃ mo d : Int,
      parseDST ('J' :: (decimal n ++ rest)) y = some (rest, ⟨y, mo, d, 2, 0⟩) ∧
      1 ≤ mo ∧ mo ≤ 12 ∧ 1 ≤ d ∧ d ≤ tbl monthDays (mo - 1) ∧
      mon_yday 0 (mo - 1) + d = n) ∧
    (n ≤ 365 → (n = 365 → isLeapYear y = true) → ∃ mo d : Int,
      parseDST (decimal n ++ rest) y = some (rest, ⟨y, mo, d, 2, 0⟩) ∧
      1 ≤ mo ∧ mo ≤ 12 ∧ 1 ≤ d ∧ d ≤ daysInMonth mo y ∧
      mon_yday (if isLeapYear y then 1 else 0) (mo - 1) + d - 1 = n) ∧
    parseDST ('J' :: (decimal 60 ++ rest)) y = some (rest, ⟨y, 3, 1, 2, 0⟩) := by
  have hJ : ∀ k : Nat, 1 ≤ k → k ≤ 365 → ∃ mo d : Int,
      parseDST ('J' :: (decimal k ++ rest)) y = some (rest, ⟨y, mo, d, 2, 0⟩) ∧
      1 ≤ mo ∧ mo ≤ 12 ∧ 1 ≤ d ∧ d ≤ tbl monthDays (mo - 1) ∧
      mon_yday 0 (mo - 1) + d = k := by
    intro k h1 h2
    have hp := parseInt_decimal k rest (by omega) hrest
    obtain ⟨mo, d, a1, a2, a3, a4, a5, a6⟩ := parseDSTRule_J ('J' :: (decimal k ++ rest)) rest
      y k rfl hp (by omega) (by omega)
    exact ⟨mo, d, parseDST_of_rule_default _ rest y mo d a1 hnt, a2, a3, a4, a5, a6⟩
  refine ⟨hJ n, ?_, ?_⟩
  · intro h1 hl
    have hp := parseInt_decimal n rest (by omega) hrest
    obtain ⟨mo, d, a1, a2, a3, a4, a5, a6⟩ := parseDSTRule_yearDay (decimal n ++ rest) rest
      y n (peek_decimal_append n rest) hp (by omega) (by omega)
      (fun h => hl (by omega))
    exact ⟨mo, d, parseDST_of_rule_default _ rest y mo d a1 hnt, a2, a3, a4, a5, a6⟩
  · obtain ⟨mo, d, a1, a2, a3, a4, a5, a6⟩ := hJ 60 (by omega) (by omega)
    have hmd : mo = 3 ∧ d = 1 := by
      interval_cases mo <;> simp [mon_yday, tbl, mon_yday0, monthDays] at a5 a6 <;> omega
    rw [hmd.1, hmd.2] at a1
    exact a1

theorem parseDST_dayOfYear_witness :
    ∃ mo d : Int,
      parseDST (decimal 59 ++ (",300").toList) 2024
        = some ((",300").toList, ⟨2024, mo, d, 2, 0⟩) ∧
      1 ≤ mo ∧ mo ≤ 12 ∧ 1 ≤ d ∧ d ≤ daysInMonth mo 2024 ∧
      mon_yday (if isLeapYear 2024 then 1 else 0) (mo - 1) + d - 1 = ((59 : Nat) : Int) :=
  (parseDST_dayOfYear 2024 59 (",300").toList (by decide) (by decide)).2.1 (by decide)
    (by decide)

/-- C13. Unbalanced zone-name brackets are rejected: for every non-empty TZ
string in which the number of `<` differs from the number of `>`, `parseTZ`
called on a slot in its initial state returns false and leaves the slot
marked invalid (tzIsValid = 0). -/
theorem parseTZ_unbalanced (index currYear : Int) (doparseDST : Bool) (st : TZState)
    (buf : List Char) (hbuf : st.tz index = some buf) (hinit : st.slot index = TZSlot.initial)
    (hne : cstr buf ≠ []) (hcount : (cstr buf).count '<' ≠ (cstr buf).count '>') :
    ∃ st1, parseTZ index currYear doparseDST st = some (false, st1) ∧
      (st1.slot index).tzIsValid = 0 := by
  obtain ⟨s, h1, h2⟩ := parseTZSlot_unbalanced (cstr buf) currYear doparseDST
    (peek_cstr buf hne) hcount
  have h := parseTZ_of_tz index currYear doparseDST st buf hbuf
  rw [hinit, h1] at h
  refine ⟨_, h, ?_⟩
  rw [TZState.slot_setSlot]; exact h2

theorem parseTZ_unbalanced_witness :
    ∃ st1, parseTZ 1 2023 true (TZState.initial [] ("<+03>>-3").toList []) = some (false, st1) ∧
      (st1.slot 1).tzIsValid = 0 :=
  parseTZ_unbalanced 1 2023 true (TZState.initial [] ("<+03>>-3").toList [])
    ("<+03>>-3").toList rfl rfl (by decide) (by decide)

/-- C14, at the failing inputs: for the TZ strings "CST-" and "<CST>+" (a
zone name followed by a lone sign) `parseTZ` from the initial state does not
return false: `parseInt` returns `NULL` and the source dereferences it. A
name followed by nothing or by a comma does return false. -/
theorem parseTZ_lone_sign_nullDeref :
    parseTZ 0 2023 true (TZState.initial ("CST-").toList [] []) = none ∧
    parseTZ 0 2023 true (TZState.initial ("<CST>+").toList [] []) = none ∧
    (parseTZ 0 2023 true (TZState.initial ("CST").toList [] [])).map Prod.fst = some false ∧
    (parseTZ 0 2023 true (TZState.initial ("CST,M3.2.0").toList [] [])).map Prod.fst
      = some false := by
  decide

/-- C16. Sticky invalidity: once a call of `parseTZ` for a slot has returned
false for a non-empty string and left the slot with tzIsValid = 0 (the
offset part is bad), every later call of `parseTZ` for that slot with the
same string returns false, for every year and either value of doparseDST. -/
theorem parseTZ_sticky_invalid (index y0 : Int) (b0 : Bool) (st st1 : TZState)
    (buf : List Char) (calls : List (Int × Bool))
    (hbuf : st.tz index = some buf) (hne : cstr buf ≠ [])
    (hfirst : parseTZ index y0 b0 st = some (false, st1))
    (hinv : (st1.slot index).tzIsValid = 0) :
    ∃ st2, parseTZCalls index calls st1 = some (List.replicate calls.length false, st2) := by
  have htz := parseTZ_preserves_tz index y0 b0 st st1 false hfirst
  exact parseTZCalls_sticky index buf hne calls st1 (by rw [htz]; exact hbuf) hinv

theorem parseTZ_sticky_invalid_witness :
    ∃ st2, parseTZCalls 0 [(2024, true), (2025, false)]
        ((TZState.initial ("CST").toList [] []).setSlot 0
          { TZSlot.initial with tzIsValid := 0 })
      = some (List.replicate [((2024 : Int), true), ((2025 : Int), false)].length false, st2) :=
  parseTZ_sticky_invalid 0 2023 true (TZState.initial ("CST").toList [] [])
    ((TZState.initial ("CST").toList [] []).setSlot 0 { TZSlot.initial with tzIsValid := 0 })
    ("CST").toList [(2024, true), (2025, false)] rfl (by decide) (by decide) (by decide)

/-- C18. Interval semantics of `timeIsDST`: for every slot and every
date-time, `timeIsDST` sets currTimeMins = t = mins2Date(year, month, day,
hour, mins) and returns 0 or 1: when DSTonMins < DSToffMins it returns 1 iff
DSTonMins <= t < DSToffMins; otherwise it returns 0 iff DSToffMins <= t <
DSTonMins. -/
theorem timeIsDST_interval (index year month day hour mins : Int) (st : TZState) :
    (timeIsDST index year month day hour mins st).2 = mins2Date year month day hour mins ∧
    ((timeIsDST index year month day hour mins st).1 = 0 ∨
      (timeIsDST index year month day hour mins st).1 = 1) ∧
    ((st.slot index).DSTonMins < (st.slot index).DSToffMins →
      ((timeIsDST index year month day hour mins st).1 = 1 ↔
        (st.slot index).DSTonMins ≤ mins2Date year month day hour mins ∧
        mins2Date year month day hour mins < (st.slot index).DSToffMins)) ∧
    (¬ (st.slot index).DSTonMins < (st.slot index).DSToffMins →
      ((timeIsDST index year month day hour mins st).1 = 0 ↔
        (st.slot index).DSToffMins ≤ mins2Date year month day hour mins ∧
        mins2Date year month day hour mins < (st.slot index).DSTonMins)) :=
  timeIsDST_spec index year month day hour mins st

theorem timeIsDST_interval_witness :
    (timeIsDST 0 2023 7 1 12 0
        ((TZState.initial [] [] []).setSlot 0 slotCST6CDT2023)).1 = 1 ↔
      (((TZState.initial [] [] []).setSlot 0 slotCST6CDT2023).slot 0).DSTonMins
        ≤ mins2Date 2023 7 1 12 0 ∧
      mins2Date 2023 7 1 12 0
        < (((TZState.initial [] [] []).setSlot 0 slotCST6CDT2023).slot 0).DSToffMins :=
  (timeIsDST_interval 0 2023 7 1 12 0
    ((TZState.initial [] [] []).setSlot 0 slotCST6CDT2023)).2.2.1 (by decide)

/-- C19. `localToDST`: when couldDST is false the date-time and the flag are
returned unchanged; when couldDST is true, isDST is set to 1 iff the
year-minute t of the non-DST local date-time lies in the DST period in
non-DST time (DSTonMins <= t < DSToffMins - tzDiff when DSTonMins <
DSToffMins; otherwise not (DSToffMins - tzDiff <= t < DSTonMins)); with isDST
= 0 the date-time is unchanged, and with isDST = 1 it is advanced by exactly
tzDiff minutes (dateToMins(out) = dateToMins(in) + tzDiff), provided the
advanced instant lies in the years 0..9999. -/
theorem localToDST_semantics (index year month day hour minute isDST : Int)
    (st : TZState) :
    ((st.slot index).couldDST = false →
      localToDST index year month day hour minute isDST st
        = some (year, month, day, hour, minute, isDST)) ∧
    ((st.slot index).couldDST = true →
      ¬ (if (st.slot index).DSTonMins < (st.slot index).DSToffMins
          then (st.slot index).DSTonMins ≤ mins2Date year month day hour minute ∧
            mins2Date year month day hour minute
              < (st.slot index).DSToffMins - (st.slot index).tzDiff
          else ¬ ((st.slot index).DSToffMins - (st.slot index).tzDiff
              ≤ mins2Date year month day hour minute ∧
            mins2Date year month day hour minute < (st.slot index).DSTonMins)) →
      localToDST index year month day hour minute isDST st
        = some (year, month, day, hour, minute, 0)) ∧
    ((st.slot index).couldDST = true →
      (if (st.slot index).DSTonMins < (st.slot index).DSToffMins
          then (st.slot index).DSTonMins ≤ mins2Date year month day hour minute ∧
            mins2Date year month day hour minute
              < (st.slot index).DSToffMins - (st.slot index).tzDiff
          else ¬ ((st.slot index).DSToffMins - (st.slot index).tzDiff
              ≤ mins2Date year month day hour minute ∧
            mins2Date year month day hour minute < (st.slot index).DSTonMins)) →
      0 ≤ dateToMins year month day hour minute + (st.slot index).tzDiff →
      dateToMins year month day hour minute + (st.slot index).tzDiff ≤ 5259491999 →
      ∃ y m d h mi, localToDST index year month day hour minute isDST st
          = some (y, m, d, h, mi, 1) ∧ ValidDateTime y m d h mi ∧
        dateToMins y m d h mi
          = dateToMins year month day hour minute + (st.slot index).tzDiff) :=
  localToDST_spec index year month day hour minute isDST st

theorem localToDST_semantics_witness :
    ∃ y m d h mi, localToDST 0 2023 7 1 12 0 (-1)
        ((TZState.initial [] [] []).setSlot 0 slotCST6CDT2023)
          = some (y, m, d, h, mi, 1) ∧ ValidDateTime y m d h mi ∧
      dateToMins y m d h mi = dateToMins 2023 7 1 12 0
        + (((TZState.initial [] [] []).setSlot 0 slotCST6CDT2023).slot 0).tzDiff :=
  (localToDST_semantics 0 2023 7 1 12 0 (-1)
    ((TZState.initial [] [] []).setSlot 0 slotCST6CDT2023)).2.2 (by decide) (by decide)
    (by decide) (by decide)

/-- C20, at the failing input: for the TZ string of the example in the source,
whose offset part is "CRAZY-3:30<C3ACY>4:56", the offsets written are o1 = -(60*3 + 30) = -210 and o2 = 60*4 + 56 = 296
minutes, so |o2 - o1| = 506, but `parseTZ` leaves tzDiff = 394: the minutes
of the DST offset are applied with the sign of the standard offset. -/
theorem parseTZ_tzDiff_mixed_signs :
    (parseTZ 0 2023 true
      (TZState.initial ("CRAZY-3:30<C3ACY>4:56,M1.1.0/-48,M12.5.0/48").toList [] [])).map
        (fun r => (r.1, r.2.slot0.tzDiff, r.2.slot0.tzDiffGMT)) = some (true, 394, -210) ∧
    |((60 * 4 + 56 : Int)) - (-(60 * 3 + 30))| = 506 := by
  decide

/-! ## The claims on the sentinels and the roll-over constant -/

/-- C27. The literal 5258964960 of the roll-over from 9999 to 1 is the number
of minutes between 0001-01-01 00:00 and 10000-01-01 00:00 under `dateToMins`:
it equals `dateToMins 9999 12 31 23 59 + 1 - dateToMins 1 1 1 0 0`, and
`dateToMins 9999 12 31 23 59 + 1` is 5259492000, the roll-over to 0 noted in
the code. -/
theorem rolloverMins_eq :
    rolloverMins = dateToMins 9999 12 31 23 59 + 1 - dateToMins 1 1 1 0 0 ∧
    dateToMins 9999 12 31 23 59 + 1 = 5259492000 := by
  rw [dateToMins_endOfRange, dateToMins_year1]
  constructor <;> decide

/-- C30. Sentinels are outside the range of real year-minutes: for every year
and every valid month, day, hour and minute, `0 ≤ mins2Date < 527040`; for a
year in 0..9999 `mins2Date` is `dateToMins` of the date minus `dateToMins` of
1 January 00:00 of that year; so `mins2Date` is never -1 or 600000, and
`timeIsDST` returns 1 for every instant when `DSTonMins = -1` and `DSToffMins
= 600000`, and 0 for every instant when `DSTonMins = 600000` and `DSToffMins =
-1`. -/
theorem mins2Date_sentinels (index y m d h mi : Int) (st : TZState) (hm0 : 1 ≤ m)
    (hm1 : m ≤ 12) (hd0 : 1 ≤ d) (hd1 : d ≤ daysInMonth m y) (hh0 : 0 ≤ h) (hh1 : h ≤ 23)
    (hi0 : 0 ≤ mi) (hi1 : mi ≤ 59) :
    0 ≤ mins2Date y m d h mi ∧ mins2Date y m d h mi < 527040 ∧
    (0 ≤ y → y ≤ 9999 →
      mins2Date y m d h mi = dateToMins y m d h mi - dateToMins y 1 1 0 0) ∧
    mins2Date y m d h mi ≠ -1 ∧ mins2Date y m d h mi ≠ 600000 ∧
    ((st.slot index).DSTonMins = -1 → (st.slot index).DSToffMins = 600000 →
      (timeIsDST index y m d h mi st).1 = 1) ∧
    ((st.slot index).DSTonMins = 600000 → (st.slot index).DSToffMins = -1 →
      (timeIsDST index y m d h mi st).1 = 0) := by
  obtain ⟨-, h0, h1⟩ := mins2Date_eq y m d h mi hm0 hm1 hd0 hd1 hh0 hh1 hi0 hi1
  obtain ⟨ha, hb⟩ := timeIsDST_sentinels index y m d h mi st hm0 hm1 hd0 hd1 hh0 hh1 hi0 hi1
  refine ⟨h0, h1, ?_, by omega, by omega, ha, hb⟩
  intro hy0 hy1
  exact mins2Date_dateToMins y m d h mi ⟨hy0, hy1, hm0, hm1, hd0, hd1, hh0, hh1, hi0, hi1⟩

theorem mins2Date_sentinels_witness :
    0 ≤ mins2Date 2024 12 31 23 59 ∧ mins2Date 2024 12 31 23 59 < 527040 ∧
    (0 ≤ (2024 : Int) → (2024 : Int) ≤ 9999 →
      mins2Date 2024 12 31 23 59 = dateToMins 2024 12 31 23 59 - dateToMins 2024 1 1 0 0) ∧
    mins2Date 2024 12 31 23 59 ≠ -1 ∧ mins2Date 2024 12 31 23 59 ≠ 600000 ∧
    (((TZState.initial [] [] []).slot 0).DSTonMins = -1 →
      ((TZState.initial [] [] []).slot 0).DSToffMins = 600000 →
      (timeIsDST 0 2024 12 31 23 59 (TZState.initial [] [] [])).1 = 1) ∧
    (((TZState.initial [] [] []).slot 0).DSTonMins = 600000 →
      ((TZState.initial [] [] []).slot 0).DSToffMins = -1 →
      (timeIsDST 0 2024 12 31 23 59 (TZState.initial [] [] [])).1 = 0) :=
  mins2Date_sentinels 0 2024 12 31 23 59 (TZState.initial [] [] []) (by decide) (by decide)
    (by decide) (by decide) (by decide) (by decide) (by decide) (by decide)

/-! ## The claims on the clock tick of `time_loop` -/

/-- C21. Fake-RTC detection: in a tick where the resync is attempted
(`autoReadjust` not set) and `getNTPOrGPSTime` succeeds with result `r`, and
`timeDifference` was non-zero, with `oldT`/`newT` the `dateToMins` of the time
before/after the resync, `timeDifference` is cleared to 0 iff `|newT - oldT| >
allowedDiff`, where `allowedDiff` is `tzDiff[0] + 1` when `couldDST[0]` and 61
otherwise (both read after the resync; `tzDiff[0]` a non-negative `int`); within
the tolerance `timeDifference` is unchanged. -/
theorem resyncBlock_fakeRTC (r : SyncResult) (powerup5Min : Bool) (s : LoopState)
    (hauto : s.autoReadjust = false) (htd : s.timeDifference ≠ 0)
    (hdiff : (r.tz.slot 0).couldDST = true →
      0 ≤ (r.tz.slot 0).tzDiff ∧ (r.tz.slot 0).tzDiff ≤ 2147483647) :
    ((resyncBlock true (some r) powerup5Min s).timeDifference = 0 ↔
      |dateToMins (r.dt.year - r.yearOffset) r.dt.m r.dt.d r.dt.hh r.dt.mm
          - dateToMins s.realYear s.dt.m s.dt.d s.dt.hh s.dt.mm|
        > (if (r.tz.slot 0).couldDST = true then (r.tz.slot 0).tzDiff + 1 else 61)) ∧
    (¬ |dateToMins (r.dt.year - r.yearOffset) r.dt.m r.dt.d r.dt.hh r.dt.mm
          - dateToMins s.realYear s.dt.m s.dt.d s.dt.hh s.dt.mm|
        > (if (r.tz.slot 0).couldDST = true then (r.tz.slot 0).tzDiff + 1 else 61) →
      (resyncBlock true (some r) powerup5Min s).timeDifference = s.timeDifference) :=
  resyncBlock_timeDifference r powerup5Min s hauto htd hdiff

theorem resyncBlock_fakeRTC_witness :
    (resyncBlock true (some (syncAt ⟨23, 7, 1, 14, 5, 0⟩ 1)) false
        (clockAt ⟨23, 7, 1, 12, 0, 0⟩ 1 0 1000)).timeDifference = 0 ↔
      |dateToMins ((syncAt ⟨23, 7, 1, 14, 5, 0⟩ 1).dt.year
            - (syncAt ⟨23, 7, 1, 14, 5, 0⟩ 1).yearOffset)
          (syncAt ⟨23, 7, 1, 14, 5, 0⟩ 1).dt.m (syncAt ⟨23, 7, 1, 14, 5, 0⟩ 1).dt.d
          (syncAt ⟨23, 7, 1, 14, 5, 0⟩ 1).dt.hh (syncAt ⟨23, 7, 1, 14, 5, 0⟩ 1).dt.mm
          - dateToMins (clockAt ⟨23, 7, 1, 12, 0, 0⟩ 1 0 1000).realYear
              (clockAt ⟨23, 7, 1, 12, 0, 0⟩ 1 0 1000).dt.m
              (clockAt ⟨23, 7, 1, 12, 0, 0⟩ 1 0 1000).dt.d
              (clockAt ⟨23, 7, 1, 12, 0, 0⟩ 1 0 1000).dt.hh
              (clockAt ⟨23, 7, 1, 12, 0, 0⟩ 1 0 1000).dt.mm|
        > (if ((syncAt ⟨23, 7, 1, 14, 5, 0⟩ 1).tz.slot 0).couldDST = true
            then ((syncAt ⟨23, 7, 1, 14, 5, 0⟩ 1).tz.slot 0).tzDiff + 1 else 61) :=
  (resyncBlock_fakeRTC (syncAt ⟨23, 7, 1, 14, 5, 0⟩ 1) false
    (clockAt ⟨23, 7, 1, 12, 0, 0⟩ 1 0 1000) (by decide) (by decide)
    (fun _ => by decide)).1

/-- C23. Resync postcondition: in a tick in which the resync is attempted
(`autoReadjust` not set) and `getNTPOrGPSTime` succeeds with result `r`,
every state the tick returns has haveAuthTime = true, authTimeExpired = false,
resyncInt = 5, syncTrigger = false, checkDST = false and the DST flag left by
the resync; when the synced year is at most 9999 the tick does return, and
`dt`, the RTC and the year offset are those left by the resync, so the DST
check of the tick did not re-evaluate the flag or adjust the RTC. When the
fetch is attempted and fails, checkDST is set to `couldDST[0]`. -/
theorem clockTick_resync (a : Bool) (now : DateTime) (r : SyncResult) (powerup5Min : Bool)
    (s : LoopState) (hauto : s.autoReadjust = false) :
    (∀ s1, clockTick a now true (some r) powerup5Min s = some s1 →
      s1.haveAuthTime = true ∧ s1.authTimeExpired = false ∧ s1.resyncInt = 5 ∧
      s1.syncTrigger = false ∧ s1.checkDST = false ∧ s1.isDST = r.isDST) ∧
    (u16 (r.dt.year - r.yearOffset) ≤ 9999 →
      ∃ s1, clockTick a now true (some r) powerup5Min s = some s1 ∧
        s1.haveAuthTime = true ∧ s1.authTimeExpired = false ∧ s1.resyncInt = 5 ∧
        s1.syncTrigger = false ∧ s1.checkDST = false ∧ s1.isDST = r.isDST ∧
        s1.dt = r.dt ∧ s1.rtc = r.rtc ∧ s1.yearOffset = r.yearOffset) ∧
    (resyncBlock true none powerup5Min s).checkDST = (s.tz.slot 0).couldDST :=
  ⟨(clockTick_sync a now r powerup5Min s hauto).1,
    (clockTick_sync a now r powerup5Min s hauto).2,
    by rw [resyncBlock_failure powerup5Min s hauto]⟩

theorem clockTick_resync_witness :
    ∃ s1, clockTick false ⟨23, 3, 12, 2, 0, 0⟩ true (some (syncAt ⟨23, 3, 12, 3, 0, 0⟩ 1))
        false (clockAt ⟨23, 3, 12, 1, 55, 0⟩ 0 0 0) = some s1 ∧
      s1.haveAuthTime = true ∧ s1.authTimeExpired = false ∧ s1.resyncInt = 5 ∧
      s1.syncTrigger = false ∧ s1.checkDST = false ∧
      s1.isDST = (syncAt ⟨23, 3, 12, 3, 0, 0⟩ 1).isDST ∧
      s1.dt = (syncAt ⟨23, 3, 12, 3, 0, 0⟩ 1).dt ∧
      s1.rtc = (syncAt ⟨23, 3, 12, 3, 0, 0⟩ 1).rtc ∧
      s1.yearOffset = (syncAt ⟨23, 3, 12, 3, 0, 0⟩ 1).yearOffset :=
  (clockTick_resync false ⟨23, 3, 12, 2, 0, 0⟩ (syncAt ⟨23, 3, 12, 3, 0, 0⟩ 1) false
    (clockAt ⟨23, 3, 12, 1, 55, 0⟩ 0 0 0) (by decide)).2.1 (by decide)

/-- C24, at the failing input: for the TZ string of the example in the source
and year 2023, `parseTZ(0, 2023)` from the initial state returns true with
couldDST set, DSTonMins = 600000 and DSToffMins = -1 (the retry for 2024 puts
the start after 2023, the retry for 2022 puts the end before 2023), so
`timeIsDST` returns 0, not 1, for every valid date-time of 2023. -/
theorem parseTZ_crazy_2023_notDST (m d h mi : Int) (hm0 : 1 ≤ m) (hm1 : m ≤ 12)
    (hd0 : 1 ≤ d) (hd1 : d ≤ daysInMonth m 2023) (hh0 : 0 ≤ h) (hh1 : h ≤ 23)
    (hi0 : 0 ≤ mi) (hi1 : mi ≤ 59) :
    (parseDST ("M1.1.0/-48,M12.5.0/48").toList 2023).map (fun r => r.2)
      = some ⟨2022, 12, 30, 0, 0⟩ ∧
    (parseDST ("M1.1.0/-48,M12.5.0/48").toList 2024).map (fun r => r.2)
      = some ⟨2024, 1, 5, 0, 0⟩ ∧
    (parseDST ("M12.5.0/48").toList 2023).map (fun r => r.2) = some ⟨2024, 1, 2, 0, 0⟩ ∧
    (parseDST ("M12.5.0/48").toList 2022).map (fun r => r.2) = some ⟨2022, 12, 27, 0, 0⟩ ∧
    ∃ st, parseTZ 0 2023 true
        (TZState.initial ("CRAZY-3:30<C3ACY>4:56,M1.1.0/-48,M12.5.0/48").toList [] [])
        = some (true, st) ∧
      (st.slot 0).couldDST = true ∧ (st.slot 0).DSTonMins = 600000 ∧
      (st.slot 0).DSToffMins = -1 ∧ (timeIsDST 0 2023 m d h mi st).1 = 0 :=
  ⟨by decide, by decide, by decide, by decide,
    parseTZ_crazy_notDST m d h mi hm0 hm1 hd0 hd1 hh0 hh1 hi0 hi1⟩

theorem parseTZ_crazy_2023_notDST_witness :
    ∃ st, parseTZ 0 2023 true
        (TZState.initial ("CRAZY-3:30<C3ACY>4:56,M1.1.0/-48,M12.5.0/48").toList [] [])
        = some (true, st) ∧
      (st.slot 0).couldDST = true ∧ (st.slot 0).DSTonMins = 600000 ∧
      (st.slot 0).DSToffMins = -1 ∧ (timeIsDST 0 2023 7 1 12 0 st).1 = 0 :=
  (parseTZ_crazy_2023_notDST 7 1 12 0 (by decide) (by decide) (by decide) (by decide)
    (by decide) (by decide) (by decide) (by decide)).2.2.2.2

/-- C25. DST ambiguity guard: `blockDSTChange t` is true iff the present DST
flag is <= 0 and 0 < DSToffMins[0] - t <= tzDiff[0]. Hence, when the stored
flag is 0 and the year-minute t of the tick's time satisfies DSToffMins[0] -
tzDiff[0] <= t < DSToffMins[0] and DSTonMins[0] <= t, `timeIsDST` returns 1
but the periodic DST check returns with the flag still 0 and `dt`, the RTC
and the year offset unchanged. -/
theorem blockDSTChange_guard (t : Int) (s : LoopState) :
    (blockDSTChange t s = true ↔
      s.isDST ≤ 0 ∧ 0 < (s.tz.slot 0).DSToffMins - t ∧
        (s.tz.slot 0).DSToffMins - t ≤ (s.tz.slot 0).tzDiff) ∧
    (s.isDST = 0 →
      (s.tz.slot 0).DSToffMins - (s.tz.slot 0).tzDiff
        ≤ mins2Date s.realYear s.dt.m s.dt.d s.dt.hh s.dt.mm →
      mins2Date s.realYear s.dt.m s.dt.d s.dt.hh s.dt.mm < (s.tz.slot 0).DSToffMins →
      (s.tz.slot 0).DSTonMins ≤ mins2Date s.realYear s.dt.m s.dt.d s.dt.hh s.dt.mm →
      (timeIsDST 0 s.realYear s.dt.m s.dt.d s.dt.hh s.dt.mm s.tz).1 = 1 ∧
      blockDSTChange (mins2Date s.realYear s.dt.m s.dt.d s.dt.hh s.dt.mm) s = true ∧
      ∃ s1, dstCheckBlock s = some s1 ∧ s1.isDST = 0 ∧ s1.rtc = s.rtc ∧ s1.dt = s.dt ∧
        s1.yearOffset = s.yearOffset) :=
  ⟨blockDSTChange_iff t s, fun hflag h1 h2 h3 => dstCheckBlock_blocked s hflag h1 h2 h3⟩

theorem blockDSTChange_guard_witness :
    (timeIsDST 0 (clockAt ⟨23, 11, 5, 1, 30, 0⟩ 0 0 0).realYear
        (clockAt ⟨23, 11, 5, 1, 30, 0⟩ 0 0 0).dt.m (clockAt ⟨23, 11, 5, 1, 30, 0⟩ 0 0 0).dt.d
        (clockAt ⟨23, 11, 5, 1, 30, 0⟩ 0 0 0).dt.hh (clockAt ⟨23, 11, 5, 1, 30, 0⟩ 0 0 0).dt.mm
        (clockAt ⟨23, 11, 5, 1, 30, 0⟩ 0 0 0).tz).1 = 1 ∧
    blockDSTChange (mins2Date (clockAt ⟨23, 11, 5, 1, 30, 0⟩ 0 0 0).realYear
        (clockAt ⟨23, 11, 5, 1, 30, 0⟩ 0 0 0).dt.m (clockAt ⟨23, 11, 5, 1, 30, 0⟩ 0 0 0).dt.d
        (clockAt ⟨23, 11, 5, 1, 30, 0⟩ 0 0 0).dt.hh
        (clockAt ⟨23, 11, 5, 1, 30, 0⟩ 0 0 0).dt.mm)
      (clockAt ⟨23, 11, 5, 1, 30, 0⟩ 0 0 0) = true ∧
    ∃ s1, dstCheckBlock (clockAt ⟨23, 11, 5, 1, 30, 0⟩ 0 0 0) = some s1 ∧ s1.isDST = 0 ∧
      s1.rtc = (clockAt ⟨23, 11, 5, 1, 30, 0⟩ 0 0 0).rtc ∧
      s1.dt = (clockAt ⟨23, 11, 5, 1, 30, 0⟩ 0 0 0).dt ∧
      s1.yearOffset = (clockAt ⟨23, 11, 5, 1, 30, 0⟩ 0 0 0).yearOffset :=
  (blockDSTChange_guard 0 (clockAt ⟨23, 11, 5, 1, 30, 0⟩ 0 0 0)).2 (by decide) (by decide)
    (by decide) (by decide)

/-- C26. Transition-time normalisation: for every rule accepted by `parseDST`
with currYear in 1..9998, the rule date `(m0, d0)` from `parseDSTRule` is a
valid date of currYear, the rule time has hour h in -167..167 and minute mi in
0..59, and the returned fields satisfy 0 <= DSThour <= 23, 1 <= DSTmonth <=
12, 1 <= DSTday <= daysInMonth(DSTmonth, DSTyear), |DSTyear - currYear| <= 1
and `dateToMins` of the returned fields = `dateToMins currYear m0 d0 0 0` +
60*h + mi. -/
theorem parseDST_normalisation (t u : List Char) (currYear : Int) (D : DSTDate)
    (hy0 : 1 ≤ currYear) (hy1 : currYear ≤ 9998) (hacc : parseDST t currYear = some (u, D)) :
    ∃ t1 m0 d0 h mi, parseDSTRule t currYear = some (t1, m0, d0) ∧
      parseDSTTime t1 = some (u, h, mi) ∧ -167 ≤ h ∧ h ≤ 167 ∧ 0 ≤ mi ∧ mi ≤ 59 ∧
      1 ≤ m0 ∧ m0 ≤ 12 ∧ 1 ≤ d0 ∧ d0 ≤ daysInMonth m0 currYear ∧
      0 ≤ D.DSThour ∧ D.DSThour ≤ 23 ∧ 1 ≤ D.DSTmonth ∧ D.DSTmonth ≤ 12 ∧
      1 ≤ D.DSTday ∧ D.DSTday ≤ daysInMonth D.DSTmonth D.DSTyear ∧
      |D.DSTyear - currYear| ≤ 1 ∧ D.DSTmin = mi ∧
      dateToMins D.DSTyear D.DSTmonth D.DSTday D.DSThour D.DSTmin
        = dateToMins currYear m0 d0 0 0 + 60 * h + mi :=
  parseDST_accepted t u currYear D hy0 hy1 hacc

theorem parseDST_normalisation_witness :
    ∃ t1 m0 d0 h mi, parseDSTRule ("M1.1.0/-48:30").toList 2023 = some (t1, m0, d0) ∧
      parseDSTTime t1 = some ([], h, mi) ∧ -167 ≤ h ∧ h ≤ 167 ∧ 0 ≤ mi ∧ mi ≤ 59 ∧
      1 ≤ m0 ∧ m0 ≤ 12 ∧ 1 ≤ d0 ∧ d0 ≤ daysInMonth m0 2023 ∧
      0 ≤ (⟨2022, 12, 30, 0, 30⟩ : DSTDate).DSThour ∧
      (⟨2022, 12, 30, 0, 30⟩ : DSTDate).DSThour ≤ 23 ∧
      1 ≤ (⟨2022, 12, 30, 0, 30⟩ : DSTDate).DSTmonth ∧
      (⟨2022, 12, 30, 0, 30⟩ : DSTDate).DSTmonth ≤ 12 ∧
      1 ≤ (⟨2022, 12, 30, 0, 30⟩ : DSTDate).DSTday ∧
      (⟨2022, 12, 30, 0, 30⟩ : DSTDate).DSTday
        ≤ daysInMonth (⟨2022, 12, 30, 0, 30⟩ : DSTDate).DSTmonth
            (⟨2022, 12, 30, 0, 30⟩ : DSTDate).DSTyear ∧
      |(⟨2022, 12, 30, 0, 30⟩ : DSTDate).DSTyear - 2023| ≤ 1 ∧
      (⟨2022, 12, 30, 0, 30⟩ : DSTDate).DSTmin = mi ∧
      dateToMins (⟨2022, 12, 30, 0, 30⟩ : DSTDate).DSTyear
          (⟨2022, 12, 30, 0, 30⟩ : DSTDate).DSTmonth (⟨2022, 12, 30, 0, 30⟩ : DSTDate).DSTday
          (⟨2022, 12, 30, 0, 30⟩ : DSTDate).DSThour (⟨2022, 12, 30, 0, 30⟩ : DSTDate).DSTmin
        = dateToMins 2023 m0 d0 0 0 + 60 * h + mi :=
  parseDST_normalisation ("M1.1.0/-48:30").toList [] 2023 ⟨2022, 12, 30, 0, 30⟩ (by decide)
    (by decide) (by decide)

/-- C28. A local DST check right after an authoritative sync never contradicts
the sync: for slot 0 with couldDST true and tzDiff >= 0, any
DSTonMins/DSToffMins, and every valid non-DST local date-time whose
year-minute t shifted by tzDiff stays in the same year, `localToDST` returns;
if it yields isDST = 1, the shifted date-time lies in the same year, has
year-minute t + tzDiff, and `timeIsDST` returns 1 on it; if it yields isDST =
0, the date-time is unchanged and `timeIsDST` at t returns 0 or, the flag
being stored as 0, `blockDSTChange t` is true. -/
theorem localToDST_agrees_with_timeIsDST (y m d h mi f0 : Int) (s : LoopState)
    (hv : ValidDateTime y m d h mi) (hc : (s.tz.slot 0).couldDST = true)
    (hd : 0 ≤ (s.tz.slot 0).tzDiff)
    (hsame : mins2Date y m d h mi + (s.tz.slot 0).tzDiff
      < (if isLeapYear y then 366 else 365) * 1440) :
    ∃ y1 m1 d1 h1 mi1 f, localToDST 0 y m d h mi f0 s.tz = some (y1, m1, d1, h1, mi1, f) ∧
      (f = 0 ∨ f = 1) ∧
      (f = 1 → y1 = y ∧ ValidDateTime y1 m1 d1 h1 mi1 ∧
        mins2Date y1 m1 d1 h1 mi1 = mins2Date y m d h mi + (s.tz.slot 0).tzDiff ∧
        (timeIsDST 0 y1 m1 d1 h1 mi1 s.tz).1 = 1) ∧
      (f = 0 → y1 = y ∧ m1 = m ∧ d1 = d ∧ h1 = h ∧ mi1 = mi ∧
        ((timeIsDST 0 y m d h mi s.tz).1 = 0 ∨
          (s.isDST = 0 → blockDSTChange (mins2Date y m d h mi) s = true))) :=
  localToDST_consistent y m d h mi f0 s hv hc hd hsame

theorem localToDST_agrees_with_timeIsDST_witness :
    ∃ y1 m1 d1 h1 mi1 f,
      localToDST 0 2023 11 5 0 30 (-1) (clockAt ⟨23, 11, 5, 0, 30, 0⟩ 0 0 0).tz
        = some (y1, m1, d1, h1, mi1, f) ∧
      (f = 0 ∨ f = 1) ∧
      (f = 1 → y1 = 2023 ∧ ValidDateTime y1 m1 d1 h1 mi1 ∧
        mins2Date y1 m1 d1 h1 mi1 = mins2Date 2023 11 5 0 30
          + ((clockAt ⟨23, 11, 5, 0, 30, 0⟩ 0 0 0).tz.slot 0).tzDiff ∧
        (timeIsDST 0 y1 m1 d1 h1 mi1 (clockAt ⟨23, 11, 5, 0, 30, 0⟩ 0 0 0).tz).1 = 1) ∧
      (f = 0 → y1 = 2023 ∧ m1 = 11 ∧ d1 = 5 ∧ h1 = 0 ∧ mi1 = 30 ∧
        ((timeIsDST 0 2023 11 5 0 30 (clockAt ⟨23, 11, 5, 0, 30, 0⟩ 0 0 0).tz).1 = 0 ∨
          ((clockAt ⟨23, 11, 5, 0, 30, 0⟩ 0 0 0).isDST = 0 →
            blockDSTChange (mins2Date 2023 11 5 0 30)
              (clockAt ⟨23, 11, 5, 0, 30, 0⟩ 0 0 0) = true))) :=
  localToDST_agrees_with_timeIsDST 2023 11 5 0 30 (-1) (clockAt ⟨23, 11, 5, 0, 30, 0⟩ 0 0 0)
    (by decide) (by decide) (by decide) (by decide)

/-- C29. DST switch moves the clock by exactly the DST difference: in the
periodic DST check, when the check is due and `timeIsDST` gives a flag myDST
different from the stored flag and the change is not blocked, myDST is 0 or 1
and the check returns with the stored flag myDST; if the old flag is negative
`dt`, the RTC and the year offset are unchanged; if it is >= 0 and the shifted
instant (`dateToMins` of the current real date-time + tzDiff[0] when myDST =
1, - tzDiff[0] when myDST = 0) lies in the years 0..9999, `minsToDate` returns
its date-time, the RTC is set to it with the seconds kept and the RTC year
and offset from `correctYr4RTC`, and `dt` and the year offset denote it. -/
theorem dstCheckBlock_dst_switch (s : LoopState) (myDST cur : Int)
    (hmin : s.dt.mm.tmod s.dstChkInt = 0)
    (hdone : s.DSTcheckDone = false) (hchk : s.checkDST = true)
    (hmy : (timeIsDST 0 s.realYear s.dt.m s.dt.d s.dt.hh s.dt.mm s.tz).1 = myDST)
    (hcur : dateToMins s.realYear s.dt.m s.dt.d s.dt.hh s.dt.mm = cur)
    (hne : myDST ≠ s.isDST)
    (hnb : blockDSTChange (mins2Date s.realYear s.dt.m s.dt.d s.dt.hh s.dt.mm) s = false) :
    (myDST = 0 ∨ myDST = 1) ∧
    (s.isDST < 0 →
      ∃ s1, dstCheckBlock s = some s1 ∧ s1.isDST = myDST ∧ s1.rtc = s.rtc ∧ s1.dt = s.dt ∧
        s1.yearOffset = s.yearOffset) ∧
    (s.isDST ≥ 0 →
      0 ≤ (if myDST = 1 then cur + (s.tz.slot 0).tzDiff else cur - (s.tz.slot 0).tzDiff) →
      (if myDST = 1 then cur + (s.tz.slot 0).tzDiff else cur - (s.tz.slot 0).tzDiff)
        ≤ 5259491999 →
      ∃ y m d h mi s1,
        minsToDate
          (if myDST = 1 then cur + (s.tz.slot 0).tzDiff else cur - (s.tz.slot 0).tzDiff)
          = some (y, m, d, h, mi) ∧
        ValidDateTime y m d h mi ∧
        dstCheckBlock s = some s1 ∧ s1.isDST = myDST ∧
        s1.rtc = rtcAdjust s.dt.ss mi h (dayOfWeek d m y) d m ((correctYr4RTC y).1 - 2000) ∧
        s1.yearOffset = (correctYr4RTC y).2 ∧
        s1.dt = DateTime.set ((correctYr4RTC y).1 - 2000) m d h mi s.dt.ss ∧
        s1.dt.year = (correctYr4RTC y).1 ∧ s1.realYear = y ∧ s1.dt.m = m ∧ s1.dt.d = d ∧
        s1.dt.hh = h ∧ s1.dt.mm = mi ∧ s1.dt.ss = u8 s.dt.ss) :=
  dstCheckBlock_switch s myDST cur hmin hdone hchk hmy hcur hne hnb

theorem dstCheckBlock_dst_switch_witness :
    ∃ y m d h mi s1,
      minsToDate
        (if (1 : Int) = 1
          then dateToMins 2023 3 12 2 0
            + ((clockAt ⟨23, 3, 12, 2, 0, 7⟩ 0 0 0).tz.slot 0).tzDiff
          else dateToMins 2023 3 12 2 0
            - ((clockAt ⟨23, 3, 12, 2, 0, 7⟩ 0 0 0).tz.slot 0).tzDiff)
        = some (y, m, d, h, mi) ∧
      ValidDateTime y m d h mi ∧
      dstCheckBlock (clockAt ⟨23, 3, 12, 2, 0, 7⟩ 0 0 0) = some s1 ∧ s1.isDST = 1 ∧
      s1.rtc = rtcAdjust (clockAt ⟨23, 3, 12, 2, 0, 7⟩ 0 0 0).dt.ss mi h (dayOfWeek d m y) d m
        ((correctYr4RTC y).1 - 2000) ∧
      s1.yearOffset = (correctYr4RTC y).2 ∧
      s1.dt = DateTime.set ((correctYr4RTC y).1 - 2000) m d h mi
        (clockAt ⟨23, 3, 12, 2, 0, 7⟩ 0 0 0).dt.ss ∧
      s1.dt.year = (correctYr4RTC y).1 ∧ s1.realYear = y ∧ s1.dt.m = m ∧ s1.dt.d = d ∧
      s1.dt.hh = h ∧ s1.dt.mm = mi ∧ s1.dt.ss = u8 (clockAt ⟨23, 3, 12, 2, 0, 7⟩ 0 0 0).dt.ss :=
  (dstCheckBlock_dst_switch (clockAt ⟨23, 3, 12, 2, 0, 7⟩ 0 0 0) 1 (dateToMins 2023 3 12 2 0)
    (by decide) (by decide) (by decide) (by decide) (by decide) (by decide)
    (by decide)).2.2 (by decide) (by decide) (by decide)

end TimeCircuits
